import Mathlib

/-!
wlr-randr: a shallow embedding of `main.c`

The development follows `src/main.c`.  Conventions of the embedding:

* A C string is the list of its characters before the terminating NUL; a nullable
  `char *` is an `Option (List Char)`.
* `int32_t`, `int` and `long` values are integers (`Int`); the places where the C code
  narrows a value (`long` to `int`, `double` to `int`) are explicit functions.
* `uint32_t changed` is a natural number used as a bit mask.
* A `double` is a value of `C_double` (sign, mantissa and binary exponent, or an
  infinity, or a NaN); the operations used by the program (`strtod`, `* 1000`, `round`,
  the conversion to `int`) are defined on it with IEEE-754 binary64 rounding.
* A `struct randr_mode *` is identified with the `zwlr_output_mode_v1` proxy the struct
  was allocated for (field `wlr_mode`, written once in `head_handle_mode`), and a
  `struct randr_head *` with its `zwlr_output_head_v1` proxy (`wlr_head`).  Proxies are
  natural numbers.  The intrusive lists `state->heads` and `head->modes` are Lean lists
  in list order.
  The compositor announces a proxy once (a `new_id`), so a live struct and its proxy
  determine each other; a callback for a proxy runs on the struct allocated for it.
* Listener callbacks are functions from the old state to the new state; requests sent to
  the compositor are returned as data.
-/

namespace WlrRandr

/-! ## Doubles -/

/-- A C `double`: `finite neg m e` is `(-1)^neg * m * 2^e`. -/
inductive C_double where
  | finite (neg : Bool) (m : Nat) (e : Int)
  | inf (neg : Bool)
  | nan
  deriving DecidableEq, Repr

/-- The literal `1.0`. -/
def C_double.one : C_double := .finite false 1 0

/-- The literal `0.0` (the value `calloc` leaves in a `double`). -/
def C_double.zero : C_double := .finite false 0 0

/-- The function `wl_fixed_to_double`: a 24.8 fixed-point number as a double (exact). -/
def wl_fixed_to_double (f : Int) : C_double :=
  .finite (decide (f < 0)) f.natAbs (-8)

/-! ## Data model (`struct randr_mode`, `struct randr_head`, `struct randr_state`) -/

/-- The struct `randr_mode`.  The back pointer `head` is implicit: a mode lives in the
`modes` list of its head. -/
structure randr_mode where
  wlr_mode : Nat
  width : Int
  height : Int
  refresh : Int
  preferred : Bool
  deriving DecidableEq, Repr

def RANDR_HEAD_MODE : Nat := 1 <<< 0
def RANDR_HEAD_POSITION : Nat := 1 <<< 1
def RANDR_HEAD_TRANSFORM : Nat := 1 <<< 2
def RANDR_HEAD_SCALE : Nat := 1 <<< 3
def RANDR_HEAD_ADAPTIVE_SYNC : Nat := 1 <<< 4

/-- The anonymous `custom_mode` struct of `struct randr_head`. -/
structure custom_mode_t where
  width : Int
  height : Int
  refresh : Int
  deriving DecidableEq, Repr

/-- The struct `randr_head`.  `mode` is the `struct randr_mode *mode` pointer (`none` is
`NULL`), named by the proxy of the mode it points to. -/
structure randr_head where
  wlr_head : Nat
  name : Option (List Char)
  description : Option (List Char)
  make : Option (List Char)
  model : Option (List Char)
  serial_number : Option (List Char)
  phys_width : Int
  phys_height : Int
  modes : List randr_mode
  changed : Nat
  enabled : Bool
  mode : Option Nat
  custom_mode : custom_mode_t
  x : Int
  y : Int
  transform : Int
  scale : C_double
  adaptive_sync_state : Nat
  deriving DecidableEq, Repr

/-- The struct `randr_state`.  `version` is what `zwlr_output_manager_v1_get_version` returns
for `output_manager` (the head proxies created by the manager have the same version). -/
structure randr_state where
  version : Nat
  heads : List randr_head
  serial : Nat
  has_serial : Bool
  running : Bool
  failed : Bool
  deriving DecidableEq, Repr

/-- The state `main` starts from: `{ .running = true }` with an empty head list. -/
def randr_state.init (version : Nat) : randr_state :=
  { version := version, heads := [], serial := 0, has_serial := false,
    running := true, failed := false }

def ZWLR_OUTPUT_HEAD_V1_ADAPTIVE_SYNC_STATE_DISABLED : Nat := 0
def ZWLR_OUTPUT_HEAD_V1_ADAPTIVE_SYNC_STATE_ENABLED : Nat := 1

/-- Modelled from the spec: the constant of the generated protocol header, the version
from which `set_adaptive_sync` exists ("the version that supports adaptive sync (4)"). -/
def ZWLR_OUTPUT_CONFIGURATION_HEAD_V1_SET_ADAPTIVE_SYNC_SINCE_VERSION : Nat := 4

/-- The table `output_transform_map`, indexed by `enum wl_output_transform` (0..7). -/
def output_transform_map : List (List Char) :=
  ["normal".toList, "90".toList, "180".toList, "270".toList, "flipped".toList,
   "flipped-90".toList, "flipped-180".toList, "flipped-270".toList]

/-! ## Mode listener -/

def mode_handle_size (mode : randr_mode) (width height : Int) : randr_mode :=
  { mode with width := width, height := height }

def mode_handle_refresh (mode : randr_mode) (refresh : Int) : randr_mode :=
  { mode with refresh := refresh }

def mode_handle_preferred (mode : randr_mode) : randr_mode :=
  { mode with preferred := true }

/-- The callback `mode_handle_finished` on the list the mode is linked in: `wl_list_remove` of the
struct of proxy `wlr_mode`.  Nothing else is written (in particular no head field). -/
def mode_handle_finished (modes : List randr_mode) (wlr_mode : Nat) : List randr_mode :=
  modes.filter (fun m => m.wlr_mode != wlr_mode)

/-! ## Head listener -/

def head_handle_name (head : randr_head) (name : List Char) : randr_head :=
  { head with name := some name }

def head_handle_description (head : randr_head) (description : List Char) : randr_head :=
  { head with description := some description }

def head_handle_physical_size (head : randr_head) (width height : Int) : randr_head :=
  { head with phys_width := width, phys_height := height }

/-- The callback `head_handle_mode`: a zeroed `randr_mode` for the proxy, inserted before the list
head, that is appended. -/
def head_handle_mode (head : randr_head) (wlr_mode : Nat) : randr_head :=
  { head with modes := head.modes ++
      [{ wlr_mode := wlr_mode, width := 0, height := 0, refresh := 0, preferred := false }] }

def head_handle_enabled (head : randr_head) (enabled : Int) : randr_head :=
  let head := { head with enabled := decide (enabled ≠ 0) }
  if enabled = 0 then { head with mode := none } else head

def head_handle_current_mode (head : randr_head) (wlr_mode : Nat) : randr_head :=
  match head.modes.find? (fun mode => mode.wlr_mode == wlr_mode) with
  | some mode => { head with mode := some mode.wlr_mode }
  | none => { head with mode := none }

def head_handle_position (head : randr_head) (x y : Int) : randr_head :=
  { head with x := x, y := y }

def head_handle_transform (head : randr_head) (transform : Int) : randr_head :=
  { head with transform := transform }

def head_handle_scale (head : randr_head) (scale : Int) : randr_head :=
  { head with scale := wl_fixed_to_double scale }

def head_handle_make (head : randr_head) (make : List Char) : randr_head :=
  { head with make := some make }

def head_handle_model (head : randr_head) (model : List Char) : randr_head :=
  { head with model := some model }

def head_handle_serial_number (head : randr_head) (serial_number : List Char) : randr_head :=
  { head with serial_number := some serial_number }

def head_handle_adaptive_sync (head : randr_head) (state : Nat) : randr_head :=
  { head with adaptive_sync_state := state }

/-- The callback `head_handle_finished` on `state->heads`: `wl_list_remove` of the head of proxy
`wlr_head` (its `modes` list goes with the struct). -/
def head_handle_finished (heads : List randr_head) (wlr_head : Nat) : List randr_head :=
  heads.filter (fun h => h.wlr_head != wlr_head)

/-! ## Manager listener -/

/-- The callback `output_manager_handle_head`: a zeroed head with `scale = 1.0` and an empty mode
list, appended to `state->heads`. -/
def output_manager_handle_head (state : randr_state) (wlr_head : Nat) : randr_state :=
  { state with heads := state.heads ++
      [{ wlr_head := wlr_head, name := none, description := none, make := none,
         model := none, serial_number := none, phys_width := 0, phys_height := 0,
         modes := [], changed := 0, enabled := false, mode := none,
         custom_mode := { width := 0, height := 0, refresh := 0 }, x := 0, y := 0,
         transform := 0, scale := C_double.one, adaptive_sync_state := 0 }] }

def output_manager_handle_done (state : randr_state) (serial : Nat) : randr_state :=
  { state with serial := serial, has_serial := true }

def output_manager_handle_finished (state : randr_state) : randr_state := state

/-! ## Configuration listener -/

def config_handle_succeeded (state : randr_state) : randr_state :=
  { state with running := false }

def config_handle_failed (state : randr_state) : randr_state :=
  { state with running := false, failed := true }

def config_handle_cancelled (state : randr_state) : randr_state :=
  { state with running := false, failed := true }

/-! ## Event dispatch -/

/-- One inbound event: the callback that runs and its arguments.  The first argument of a
head or mode event is the proxy whose listener runs (its `data` is the struct allocated
for that proxy). -/
inductive event where
  | manager_head (wlr_head : Nat)
  | manager_done (serial : Nat)
  | manager_finished
  | head_name (wlr_head : Nat) (name : List Char)
  | head_description (wlr_head : Nat) (description : List Char)
  | head_physical_size (wlr_head : Nat) (width height : Int)
  | head_mode (wlr_head : Nat) (wlr_mode : Nat)
  | head_enabled (wlr_head : Nat) (enabled : Int)
  | head_current_mode (wlr_head : Nat) (wlr_mode : Nat)
  | head_position (wlr_head : Nat) (x y : Int)
  | head_transform (wlr_head : Nat) (transform : Int)
  | head_scale (wlr_head : Nat) (scale : Int)
  | head_finished (wlr_head : Nat)
  | head_make (wlr_head : Nat) (make : List Char)
  | head_model (wlr_head : Nat) (model : List Char)
  | head_serial_number (wlr_head : Nat) (serial_number : List Char)
  | head_adaptive_sync (wlr_head : Nat) (state : Nat)
  | mode_size (wlr_mode : Nat) (width height : Int)
  | mode_refresh (wlr_mode : Nat) (refresh : Int)
  | mode_preferred (wlr_mode : Nat)
  | mode_finished (wlr_mode : Nat)
  | config_succeeded
  | config_failed
  | config_cancelled
  deriving DecidableEq, Repr

/-- Runs a head callback on the head struct of proxy `wlr_head`. -/
def on_head (state : randr_state) (wlr_head : Nat) (f : randr_head → randr_head) :
    randr_state :=
  { state with heads := state.heads.map (fun h => if h.wlr_head = wlr_head then f h else h) }

/-- Runs a mode callback on the mode struct of proxy `wlr_mode`. -/
def on_mode (state : randr_state) (wlr_mode : Nat) (f : randr_mode → randr_mode) :
    randr_state :=
  { state with heads := state.heads.map (fun h =>
      { h with modes := h.modes.map (fun m => if m.wlr_mode = wlr_mode then f m else m) }) }

/-- The listener tables `output_manager_listener`, `head_listener`, `mode_listener` and
`config_listener`. -/
def dispatch (state : randr_state) : event → randr_state
  | .manager_head h => output_manager_handle_head state h
  | .manager_done serial => output_manager_handle_done state serial
  | .manager_finished => output_manager_handle_finished state
  | .head_name h s => on_head state h (fun hd => head_handle_name hd s)
  | .head_description h s => on_head state h (fun hd => head_handle_description hd s)
  | .head_physical_size h w ht => on_head state h (fun hd => head_handle_physical_size hd w ht)
  | .head_mode h m => on_head state h (fun hd => head_handle_mode hd m)
  | .head_enabled h e => on_head state h (fun hd => head_handle_enabled hd e)
  | .head_current_mode h m => on_head state h (fun hd => head_handle_current_mode hd m)
  | .head_position h x y => on_head state h (fun hd => head_handle_position hd x y)
  | .head_transform h t => on_head state h (fun hd => head_handle_transform hd t)
  | .head_scale h s => on_head state h (fun hd => head_handle_scale hd s)
  | .head_finished h => { state with heads := head_handle_finished state.heads h }
  | .head_make h s => on_head state h (fun hd => head_handle_make hd s)
  | .head_model h s => on_head state h (fun hd => head_handle_model hd s)
  | .head_serial_number h s => on_head state h (fun hd => head_handle_serial_number hd s)
  | .head_adaptive_sync h s => on_head state h (fun hd => head_handle_adaptive_sync hd s)
  | .mode_size m w ht => on_mode state m (fun md => mode_handle_size md w ht)
  | .mode_refresh m r => on_mode state m (fun md => mode_handle_refresh md r)
  | .mode_preferred m => on_mode state m mode_handle_preferred
  | .mode_finished m =>
      { state with heads := state.heads.map (fun h =>
          { h with modes := mode_handle_finished h.modes m }) }
  | .config_succeeded => config_handle_succeeded state
  | .config_failed => config_handle_failed state
  | .config_cancelled => config_handle_cancelled state

/-! ## Building the configuration (`apply_state`) -/

/-- A request on a `zwlr_output_configuration_head_v1`. -/
inductive head_request where
  | set_mode (wlr_mode : Nat)
  | set_custom_mode (width height refresh : Int)
  | set_position (x y : Int)
  | set_transform (transform : Int)
  | set_scale (scale : Int)
  | set_adaptive_sync (state : Nat)
  deriving DecidableEq, Repr

/-- A per-head request on the `zwlr_output_configuration_v1`. -/
inductive config_request where
  | disable_head (wlr_head : Nat)
  | enable_head (wlr_head : Nat) (attached : List head_request)
  deriving DecidableEq, Repr

/-- How the configuration is submitted. -/
inductive submit_kind where
  | test
  | apply
  deriving DecidableEq, Repr

/-- Everything `apply_state` sends: `create_configuration(serial)`, the per-head requests
in order, and the final `test` or `apply`. -/
structure configuration where
  serial : Nat
  heads : List config_request
  submit : submit_kind
  deriving DecidableEq, Repr

/-- The test `head->changed & prop`. -/
def changed_has (head : randr_head) (prop : Nat) : Bool :=
  head.changed &&& prop != 0

/-- The requests attached to an enabled head, lines 340-368.  `wl_fixed_from_double` is
the libwayland conversion, taken as a parameter. -/
def enable_requests (wl_fixed_from_double : C_double → Int) (version : Nat)
    (head : randr_head) : List head_request :=
  (if changed_has head RANDR_HEAD_MODE then
      match head.mode with
      | some wlr_mode => [head_request.set_mode wlr_mode]
      | none => [head_request.set_custom_mode head.custom_mode.width
          head.custom_mode.height head.custom_mode.refresh]
    else []) ++
  (if changed_has head RANDR_HEAD_POSITION then
      [head_request.set_position head.x head.y] else []) ++
  (if changed_has head RANDR_HEAD_TRANSFORM then
      [head_request.set_transform head.transform] else []) ++
  (if changed_has head RANDR_HEAD_SCALE then
      [head_request.set_scale (wl_fixed_from_double head.scale)] else []) ++
  (if changed_has head RANDR_HEAD_ADAPTIVE_SYNC then
      (if version ≥ ZWLR_OUTPUT_CONFIGURATION_HEAD_V1_SET_ADAPTIVE_SYNC_SINCE_VERSION then
        [head_request.set_adaptive_sync head.adaptive_sync_state] else [])
    else [])

/-- The body of the `wl_list_for_each` loop of `apply_state` for one head. -/
def apply_head (wl_fixed_from_double : C_double → Int) (version : Nat)
    (head : randr_head) : config_request :=
  if !head.enabled then config_request.disable_head head.wlr_head
  else config_request.enable_head head.wlr_head
    (enable_requests wl_fixed_from_double version head)

def apply_state (wl_fixed_from_double : C_double → Int) (state : randr_state)
    (dry_run : Bool) : configuration :=
  { serial := state.serial,
    heads := state.heads.map (apply_head wl_fixed_from_double state.version),
    submit := if dry_run then submit_kind.test else submit_kind.apply }

/-! ## `strtol` and the integer conversions -/

/-- The function `isspace` in the "C" locale. -/
def c_isspace (c : Char) : Bool :=
  c == ' ' || c == '\t' || c == '\n' || c == '\x0b' || c == '\x0c' || c == '\r'

/-- The function `isdigit`. -/
def c_isdigit (c : Char) : Bool := '0'.toNat ≤ c.toNat && c.toNat ≤ '9'.toNat

/-- The value of a decimal digit character. -/
def digit_val (c : Char) : Nat := c.toNat - '0'.toNat

/-- The value of a string of decimal digits, most significant first. -/
def digits_val (ds : List Char) : Nat := ds.foldl (fun acc c => 10 * acc + digit_val c) 0

/-- The limits `LONG_MAX` and `LONG_MIN` for a 64-bit `long` (LP64). -/
def LONG_MAX : Int := 2 ^ 63 - 1
def LONG_MIN : Int := -(2 ^ 63)
def INT_MAX : Int := 2 ^ 31 - 1
def INT_MIN : Int := -(2 ^ 31)

/-- The value `strtol` returns for the correct value `v`: `v` itself when it is in the
range of `long`, otherwise `LONG_MIN` or `LONG_MAX` according to the sign. -/
def saturate_long (v : Int) : Int := max LONG_MIN (min v LONG_MAX)

/-- The optional sign of `strtol` and `strtod`: whether it is a minus, and what follows. -/
def scan_sign : List Char → Bool × List Char
  | '-' :: t => (true, t)
  | '+' :: t => (false, t)
  | s => (false, s)

/-- The call `strtol(nptr, &end, 10)`: the value and `end`.  White space is skipped, then an
optional sign, then the digits are read; the value saturates at `LONG_MIN`/`LONG_MAX`.
With no digit there is no conversion: the value is 0 and `end` is `nptr`. -/
def strtol (nptr : List Char) : Int × List Char :=
  let s := scan_sign (nptr.dropWhile c_isspace)
  let ds := s.2.takeWhile c_isdigit
  if ds.isEmpty then (0, nptr)
  else
    let v : Int := digits_val ds
    (saturate_long (if s.1 then -v else v), s.2.dropWhile c_isdigit)

/-- The conversion of a `long` to `int` on assignment (`int x = strtol(...)`): the value
modulo 2^32, in the range of `int`. -/
def long_to_int (v : Int) : Int := (v + 2 ^ 31) % 2 ^ 32 - 2 ^ 31

/-- Pointer equality `cur == end` of two pointers into the same string, given as the
suffixes they point to. -/
def same_ptr (cur e : List Char) : Bool := cur.length == e.length

/-! ## `strtod` and the double operations -/

def bit_length_aux : Nat → Nat → Nat
  | 0, _ => 0
  | fuel + 1, n => if n = 0 then 0 else bit_length_aux fuel (n / 2) + 1

/-- The number of binary digits of `n` (0 for 0). -/
def bit_length (n : Nat) : Nat := bit_length_aux n n

/-- The integer nearest to `n / d`, ties to even. -/
def div_round_even (n d : Nat) : Nat :=
  let q := n / d
  let r := n % d
  if 2 * r < d then q else if d < 2 * r then q + 1 else if q % 2 = 0 then q else q + 1

/-- The integer `f` with `2^f ≤ num / den < 2^(f+1)`, for positive `num` and `den`. -/
def floor_log2 (num den : Nat) : Int :=
  let k : Int := (bit_length num : Int) - (bit_length den : Int)
  if den * 2 ^ k.toNat ≤ num * 2 ^ (-k).toNat then k else k - 1

/-- The binary64 number nearest to `num / den` (ties to even) with the given sign:
53-bit mantissa `m`, least exponent -1074, and infinity when `m * 2^e` reaches `2^1024`
(the exponent is above 971, or it is 971 and the mantissa was rounded up to `2^53`). -/
def round_to_double (neg : Bool) (num den : Nat) : C_double :=
  if num = 0 then .finite neg 0 0
  else
    let e : Int := max (floor_log2 num den - 52) (-1074)
    let m := div_round_even (num * 2 ^ (-e).toNat) (den * 2 ^ e.toNat)
    if 971 < e ∨ (e = 971 ∧ 2 ^ 53 ≤ m) then .inf neg else .finite neg m e

/-- The product `d * 1000` in binary64. -/
def c_mul_1000 : C_double → C_double
  | .finite neg m e => round_to_double neg (m * 1000 * 2 ^ e.toNat) (2 ^ (-e).toNat)
  | .inf neg => .inf neg
  | .nan => .nan

/-- The function `round` of `<math.h>`: nearest integer, halves away from zero. -/
def c_round : C_double → C_double
  | .finite neg m e =>
      if 0 ≤ e then .finite neg (m * 2 ^ e.toNat) 0
      else .finite neg ((2 * m + 2 ^ (-e).toNat) / (2 * 2 ^ (-e).toNat)) 0
  | .inf neg => .inf neg
  | .nan => .nan

/-- The conversion of a `double` to `int` (truncation).  When the truncated value is not
in the range of `int` the C behaviour is undefined; the model returns `INT_MIN` there
(the x86-64 result). -/
def double_to_int : C_double → Int
  | .finite neg m e =>
      let t : Int := if 0 ≤ e then m * 2 ^ e.toNat else m / 2 ^ (-e).toNat
      let v : Int := if neg then -t else t
      if INT_MIN ≤ v ∧ v ≤ INT_MAX then v else INT_MIN
  | _ => INT_MIN

/-- The comparison `d <= 0`. -/
def c_le_zero : C_double → Bool
  | .finite neg m _ => neg || m == 0
  | .inf neg => neg
  | .nan => false

def c_isxdigit (c : Char) : Bool :=
  c_isdigit c || ('a'.toNat ≤ c.toNat && c.toNat ≤ 'f'.toNat) ||
    ('A'.toNat ≤ c.toNat && c.toNat ≤ 'F'.toNat)

def xdigit_val (c : Char) : Nat :=
  if c_isdigit c then c.toNat - '0'.toNat
  else if 'a'.toNat ≤ c.toNat then c.toNat - 'a'.toNat + 10
  else c.toNat - 'A'.toNat + 10

def xdigits_val (ds : List Char) : Nat := ds.foldl (fun acc c => 16 * acc + xdigit_val c) 0

/-- A digit sequence optionally containing a decimal point: the digits before the point,
the digits after it and the rest; `none` when there is no digit at all. -/
def scan_mantissa (isdig : Char → Bool) (s : List Char) :
    Option (List Char × List Char × List Char) :=
  let ip := s.takeWhile isdig
  match s.dropWhile isdig with
  | '.' :: r =>
      let fp := r.takeWhile isdig
      if ip.isEmpty && fp.isEmpty then none else some (ip, fp, r.dropWhile isdig)
  | r => if ip.isEmpty then none else some (ip, [], r)

/-- An optional exponent part introduced by `lower` or `upper`: its value and the rest.
Without a digit after the marker and sign nothing is read. -/
def scan_exponent (lower upper : Char) (s : List Char) : Int × List Char :=
  match s with
  | c :: r =>
      if c == lower || c == upper then
        let sg := scan_sign r
        let ds := sg.2.takeWhile c_isdigit
        if ds.isEmpty then (0, s)
        else (if sg.1 then -(digits_val ds : Int) else digits_val ds, sg.2.dropWhile c_isdigit)
      else (0, s)
  | [] => (0, s)

/-- Whether `s` starts with the lower-case word `w`, ignoring case. -/
def starts_with_ci (w s : List Char) : Bool :=
  (s.take w.length).map Char.toLower == w

/-- The characters allowed between the parentheses of `nan(...)`. -/
def c_isnchar (c : Char) : Bool := c.isAlphanum || c == '_'

/-- The subject sequence of `strtod` after white space and sign: `inf`, `infinity`,
`nan`, `nan(...)`, a hexadecimal floating constant or a decimal one. -/
def strtod_body (neg : Bool) (s : List Char) : Option (C_double × List Char) :=
  if starts_with_ci "infinity".toList s then some (.inf neg, s.drop 8)
  else if starts_with_ci "inf".toList s then some (.inf neg, s.drop 3)
  else if starts_with_ci "nan".toList s then
    match s.drop 3 with
    | '(' :: r =>
        match r.dropWhile c_isnchar with
        | ')' :: r2 => some (.nan, r2)
        | _ => some (.nan, s.drop 3)
    | r => some (.nan, r)
  else
    match (if starts_with_ci "0x".toList s then scan_mantissa c_isxdigit (s.drop 2)
           else none) with
    | some (ip, fp, r) =>
        let ex := scan_exponent 'p' 'P' r
        let p : Int := ex.1 - 4 * (fp.length : Int)
        some (round_to_double neg (xdigits_val (ip ++ fp) * 2 ^ p.toNat) (2 ^ (-p).toNat), ex.2)
    | none =>
        match scan_mantissa c_isdigit s with
        | some (ip, fp, r) =>
            let ex := scan_exponent 'e' 'E' r
            let p : Int := ex.1 - (fp.length : Int)
            some (round_to_double neg (digits_val (ip ++ fp) * 10 ^ p.toNat)
              (10 ^ (-p).toNat), ex.2)
        | none => none

/-- The call `strtod(nptr, &end)`: the value and `end`; with no conversion the value is 0 and
`end` is `nptr`.  Decimal input is rounded to the nearest double. -/
def strtod (nptr : List Char) : C_double × List Char :=
  let s := scan_sign (nptr.dropWhile c_isspace)
  match strtod_body s.1 s.2 with
  | some r => r
  | none => (C_double.zero, nptr)

/-! ## `parse_mode` -/

/-- The refresh part of `parse_mode`, lines 652-670: `cur` points at the separator. -/
def parse_refresh (cur : List Char) : Option Int :=
  match cur with
  | c :: r =>
      if c == ',' || c == '@' then
        let cur := r.dropWhile (fun c => c == ' ')
        let d := strtod cur
        if (!d.2.isEmpty && d.2 != "Hz".toList) || same_ptr cur d.2 || c_le_zero d.1 then none
        else some (double_to_int (c_round (c_mul_1000 d.1)))
      else none
  | [] => none

/-- The function `parse_mode`: `some (width, height, refresh)` when it returns true, `none` when it
returns false. -/
def parse_mode (value : List Char) : Option (Int × Int × Int) :=
  let w := strtol value
  if w.2.head? != some 'x' || same_ptr value w.2 then none
  else
    let cur := w.2.tail
    let h := strtol cur
    if same_ptr cur h.2 then none
    else if h.2.isEmpty then some (long_to_int w.1, long_to_int h.1, 0)
    else
      let cur := h.2.dropWhile (fun c => c == ' ')
      let cur := if cur.take 2 == "px".toList then cur.drop 2 else cur
      if cur.isEmpty then some (long_to_int w.1, long_to_int h.1, 0)
      else
        match parse_refresh cur with
        | some refresh => some (long_to_int w.1, long_to_int h.1, refresh)
        | none => none

/-! ## The fixup policy -/

def fixup_disabled_head (head : randr_head) : randr_head :=
  if head.mode.isNone && head.custom_mode.refresh == 0 &&
      head.custom_mode.width == 0 && head.custom_mode.height == 0 then
    match head.modes.find? (fun mode => mode.preferred) with
    | some mode => { head with mode := some mode.wlr_mode }
    | none =>
      match head.modes with
      | mode :: _ => { head with mode := some mode.wlr_mode }
      | [] => head
  else head

/-! ## Directives (`parse_output_arg`) -/

/-- The search loop of the `mode` directive, lines 720-726. -/
def mode_matches (width height refresh : Int) (mode : randr_mode) : Bool :=
  mode.width == width && mode.height == height && (refresh == 0 || mode.refresh == refresh)

/-- The call `parse_output_arg(head, name, value)`: the returned flag and the head as the call
leaves it.  `version` is `zwlr_output_head_v1_get_version(head->wlr_head)`. -/
def parse_output_arg (version : Nat) (head : randr_head) (name value : List Char) :
    Bool × randr_head :=
  if name = "on".toList then
    let head := if !head.enabled then fixup_disabled_head head else head
    (true, { head with enabled := true })
  else if name = "off".toList then
    (true, { head with enabled := false })
  else if name = "toggle".toList then
    if head.enabled then (true, { head with enabled := false })
    else (true, { fixup_disabled_head head with enabled := true })
  else if name = "mode".toList then
    match parse_mode value with
    | none => (false, head)
    | some (width, height, refresh) =>
      match head.modes.find? (mode_matches width height refresh) with
      | none => (false, head)
      | some mode =>
        (true, { head with changed := head.changed ||| RANDR_HEAD_MODE,
                           mode := some mode.wlr_mode,
                           custom_mode := { width := 0, height := 0, refresh := 0 } })
  else if name = "preferred".toList then
    match head.modes.find? (fun mode => mode.preferred) with
    | none => (false, head)
    | some mode =>
      (true, { head with changed := head.changed ||| RANDR_HEAD_MODE,
                         mode := some mode.wlr_mode,
                         custom_mode := { width := 0, height := 0, refresh := 0 } })
  else if name = "custom-mode".toList then
    match parse_mode value with
    | none => (false, head)
    | some (width, height, refresh) =>
      (true, { head with changed := head.changed ||| RANDR_HEAD_MODE,
                         mode := none,
                         custom_mode := { width := width, height := height,
                                          refresh := refresh } })
  else if name = "pos".toList then
    let x := strtol value
    if x.2.head? != some ',' || same_ptr value x.2 then (false, head)
    else
      let y := strtol x.2.tail
      if !y.2.isEmpty then (false, head)
      else
        (true, { head with changed := head.changed ||| RANDR_HEAD_POSITION,
                           x := long_to_int x.1, y := long_to_int y.1 })
  else if name = "transform".toList then
    match output_transform_map.findIdx? (fun s => s == value) with
    | none => (false, head)
    | some i =>
      (true, { head with transform := (i : Int),
                         changed := head.changed ||| RANDR_HEAD_TRANSFORM })
  else if name = "scale".toList then
    let scale := strtod value
    if !scale.2.isEmpty || same_ptr value scale.2 then (false, head)
    else
      (true, { head with changed := head.changed ||| RANDR_HEAD_SCALE, scale := scale.1 })
  else if name = "adaptive-sync".toList then
    if version < ZWLR_OUTPUT_CONFIGURATION_HEAD_V1_SET_ADAPTIVE_SYNC_SINCE_VERSION then
      (false, head)
    else if value = "enabled".toList then
      (true, { head with
        adaptive_sync_state := ZWLR_OUTPUT_HEAD_V1_ADAPTIVE_SYNC_STATE_ENABLED,
        changed := head.changed ||| RANDR_HEAD_ADAPTIVE_SYNC })
    else if value = "disabled".toList then
      (true, { head with
        adaptive_sync_state := ZWLR_OUTPUT_HEAD_V1_ADAPTIVE_SYNC_STATE_DISABLED,
        changed := head.changed ||| RANDR_HEAD_ADAPTIVE_SYNC })
    else (false, head)
  else (false, head)

/-! ## The end of `main`: waiting for the resolution -/

def EXIT_SUCCESS : Nat := 0
def EXIT_FAILURE : Nat := 1

/-- The loop `while (state.running && wl_display_dispatch(display) != -1)`, lines 940-942.
Each element of the list is one call of `wl_display_dispatch`: `some evs` runs the
callbacks of the events `evs` and returns their number, `none` is the return value -1.
The result is the state when the loop ends, or `none` when the calls are exhausted while
the loop is still waiting (the program blocks). -/
def wait_loop : randr_state → List (Option (List event)) → Option randr_state
  | state, calls =>
    if !state.running then some state
    else
      match calls with
      | [] => none
      | none :: _ => some state
      | some evs :: rest => wait_loop (evs.foldl dispatch state) rest

/-- The value `main` returns at line 963. -/
def exit_status (state : randr_state) : Nat :=
  if state.failed then EXIT_FAILURE else EXIT_SUCCESS

/-- Lines 940-963 of `main`: the wait and the exit status. -/
def main_wait (state : randr_state) (calls : List (Option (List event))) : Option Nat :=
  (wait_loop state calls).map exit_status

/-! ## The body of `main` -/

/-- One result of `getopt_long` in the loop of `main`: `unknown` is the return value
`'?'`, `help` is `'h'`, and `long name value` is a long option of the table
`long_options` with its argument `optarg` (empty when the option takes none). -/
inductive cli_option where
  | unknown
  | help
  | long (name value : List Char)
  deriving DecidableEq, Repr

/-- The locals of `main` during the option loop, lines 886-930, with the state.
The pointer `current_head` is the position in `state.heads` of the head it points to
(`none` is `NULL`). -/
structure option_state where
  state : randr_state
  changed : Bool
  dry_run : Bool
  json : Bool
  current_head : Option Nat
  deriving DecidableEq, Repr

/-- One iteration of the option loop: the locals after it, or the exit status that
`main` returns from inside the loop together with the state at that point.  A head that
has received no name matches no `--output` value.  The request for a head position
outside the list cannot arise (the position comes from the search of `--output`). -/
def process_option (s : option_state) : cli_option → Except (Nat × randr_state) option_state
  | .unknown => .error (EXIT_FAILURE, s.state)
  | .help => .error (EXIT_SUCCESS, s.state)
  | .long name value =>
    if name = "output".toList then
      match s.state.heads.findIdx? (fun head => head.name == some value) with
      | none => .error (EXIT_FAILURE, s.state)
      | some i => .ok { s with current_head := some i }
    else if name = "dryrun".toList then .ok { s with dry_run := true }
    else if name = "json".toList then .ok { s with json := true }
    else
      match s.current_head with
      | none => .error (EXIT_FAILURE, s.state)
      | some i =>
        match s.state.heads[i]? with
        | none => .error (EXIT_FAILURE, s.state)
        | some head =>
          let r := parse_output_arg s.state.version head name value
          let state := { s.state with heads := s.state.heads.set i r.2 }
          if !r.1 then .error (EXIT_FAILURE, state)
          else .ok { s with state := state, changed := true }

/-- The option loop of `main`: the iterations in order until one returns. -/
def process_options : option_state → List cli_option →
    Except (Nat × randr_state) option_state
  | s, [] => .ok s
  | s, o :: rest =>
    match process_option s o with
    | .error e => .error e
    | .ok s' => process_options s' rest

/-- How a blocking wait of `main` ends: `blocked` when the calls of
`wl_display_dispatch` are exhausted while it still waits, `error` when a call returns a
negative value, `done` with the state and the calls not yet made. -/
inductive wait_outcome where
  | blocked
  | error (state : randr_state)
  | done (state : randr_state) (rest : List (Option (List event)))
  deriving DecidableEq, Repr

/-- The loop `while (!state.has_serial)` of lines 879-884; the calls of
`wl_display_dispatch` are given as for `wait_loop`. -/
def sync_wait : randr_state → List (Option (List event)) → wait_outcome
  | state, calls =>
    if state.has_serial then .done state calls
    else
      match calls with
      | [] => .blocked
      | none :: _ => .error state
      | some evs :: rest => sync_wait (evs.foldl dispatch state) rest

/-- What `main` does after the option loop. -/
inductive main_action where
  | nothing
  | applied (config : configuration)
  | printed (json : Bool)
  deriving DecidableEq, Repr

/-- The observable result of a run of `main`: the exit status, what was sent or printed,
and the state when `main` returns. -/
structure main_result where
  status : Nat
  action : main_action
  state : randr_state
  deriving DecidableEq, Repr

/-- The function `main`.  `connect_ok` and `roundtrip_ok` say whether
`wl_display_connect` and `wl_display_roundtrip` succeed, `output_manager` is the version
bound by `registry_handle_global` (`none` when the global is absent), `options` are the
results of `getopt_long` and `calls` the calls of `wl_display_dispatch`, in order.  The
result is `none` when the run blocks for ever in a wait.  Of `print_state` and
`print_state_json` only the final `state->running = false` is kept here; the calls they
make are given by `print_state` and `print_state_json` below. -/
def main (connect_ok roundtrip_ok : Bool) (output_manager : Option Nat)
    (wl_fixed_from_double : C_double → Int) (options : List cli_option)
    (calls : List (Option (List event))) : Option main_result :=
  if !connect_ok then
    some { status := EXIT_FAILURE, action := .nothing, state := randr_state.init 0 }
  else if !roundtrip_ok then
    some { status := EXIT_FAILURE, action := .nothing, state := randr_state.init 0 }
  else
    match output_manager with
    | none => some { status := EXIT_FAILURE, action := .nothing, state := randr_state.init 0 }
    | some version =>
      match sync_wait (randr_state.init version) calls with
      | .blocked => none
      | .error state => some { status := EXIT_FAILURE, action := .nothing, state := state }
      | .done state rest =>
        match process_options { state := state, changed := false, dry_run := false,
                                json := false, current_head := none } options with
        | .error e => some { status := e.1, action := .nothing, state := e.2 }
        | .ok s =>
          let action := if s.changed then
            main_action.applied (apply_state wl_fixed_from_double s.state s.dry_run)
            else main_action.printed s.json
          let state := if s.changed then s.state else { s.state with running := false }
          (wait_loop state rest).map
            (fun final => { status := exit_status final, action := action, state := final })

/-! ## Allocation of the mode structs -/

/-- The mirror together with the `struct randr_mode` objects that are allocated: those
created by `calloc` in `head_handle_mode` and not yet passed to `free` (each with its
`zwlr_output_mode_v1` proxy, released or destroyed by the same callback that frees the
struct). -/
structure heap_state where
  state : randr_state
  mode_structs : List Nat
  deriving DecidableEq, Repr

/-- The effect of one event on the state and on the allocated mode structs:
`head_handle_mode` allocates one (when a head struct of that proxy exists to run the
callback), `mode_handle_finished` frees the one it runs on, and no other callback
allocates or frees a mode struct; in particular `head_handle_finished` frees the head,
its name and its description only. -/
def dispatch_heap (h : heap_state) (e : event) : heap_state :=
  { state := dispatch h.state e,
    mode_structs :=
      match e with
      | .head_mode wlr_head wlr_mode =>
        if h.state.heads.any (fun head => head.wlr_head == wlr_head) then
          h.mode_structs ++ [wlr_mode]
        else h.mode_structs
      | .mode_finished wlr_mode => h.mode_structs.filter (fun m => m != wlr_mode)
      | _ => h.mode_structs }

/-! ## The reports

A report is modelled as the sequence of output calls that `print_state` or
`print_state_json` makes, in order: every `printf` call with its format string and its
arguments, and every call of `print_json_optional_string` with the characters it writes.
The conversions `%d`, `%s` and `%f` are not rendered. -/

/-- An argument of a `printf` call: an `int` for `%d`, a `char *` for `%s` (`none` is
`NULL`), a `double` for `%f`, or the value of `(float)n / d` for `%f`. -/
inductive printf_arg where
  | int (v : Int)
  | str (v : Option (List Char))
  | double (v : C_double)
  | float_div (n d : Int)
  deriving DecidableEq, Repr

/-- One output call: `printf(format, args...)`, or a call of `print_json_optional_string`
that writes `text`. -/
inductive out_call where
  | printf (format : List Char) (args : List printf_arg)
  | json_string (text : List Char)
  deriving DecidableEq, Repr

/-- The call `printf("%04x", n)`: lower-case hexadecimal digits, padded with zeros to a
width of four. -/
def printf_04x (n : Nat) : List Char :=
  List.replicate (4 - (Nat.toDigits 16 n).length) '0' ++ Nat.toDigits 16 n

/-- The body of the loop of `print_json_optional_string`: what is written for the
character `ch`.  The test `ch > 0 && ch < 0x20` is on the character code; for a byte of
0x80 and above it fails whether `char` is signed or not. -/
def json_escape (ch : Char) : List Char :=
  if ch = '\x22' then ['\x5c', '\x22']
  else if ch = '\x5c' then ['\x5c', '\x5c']
  else if ch = '\x08' then ['\x5c', 'b']
  else if ch = '\x0c' then ['\x5c', 'f']
  else if ch = '\n' then ['\x5c', 'n']
  else if ch = '\r' then ['\x5c', 'r']
  else if ch = '\t' then ['\x5c', 't']
  else if 0 < ch.toNat ∧ ch.toNat < 0x20 then ['\x5c', 'u'] ++ printf_04x ch.toNat
  else [ch]

/-- The characters `print_json_optional_string(str)` writes.  A string is the list of its
characters before the terminating NUL. -/
def print_json_optional_string (str : Option (List Char)) : List Char :=
  match str with
  | none => "null".toList
  | some str => ['\x22'] ++ str.flatMap json_escape ++ ['\x22']

/-- The entry `output_transform_map[transform]`.  The C code does not guard the index;
`none` stands for an index outside the table. -/
def transform_name (transform : Int) : Option (List Char) :=
  if 0 ≤ transform then output_transform_map[transform.toNat]? else none

/-- The body of the loop over the modes in `print_state`. -/
def print_mode (head : randr_head) (mode : randr_mode) : List out_call :=
  let current := head.mode == some mode.wlr_mode
  [.printf "    %dx%d px".toList [.int mode.width, .int mode.height]] ++
  (if 0 < mode.refresh then
    [.printf ", %f Hz".toList [.float_div mode.refresh 1000]]
   else []) ++
  (if current || mode.preferred then
    [.printf " (".toList []] ++
    (if mode.preferred then [.printf "preferred".toList []] else []) ++
    (if current && mode.preferred then [.printf ", ".toList []] else []) ++
    (if current then [.printf "current".toList []] else []) ++
    [.printf ")".toList []]
   else []) ++
  [.printf "\n".toList []]

/-- The body of the loop over the heads in `print_state`: the part of the text report for
one head.  `version` is `zwlr_output_manager_v1_get_version(state->output_manager)`. -/
def print_head (version : Nat) (head : randr_head) : List out_call :=
  [.printf "%s \"%s\"\n".toList [.str head.name, .str head.description]] ++
  (if 2 ≤ version then
    [.printf "  Make: %s\n".toList [.str head.make],
     .printf "  Model: %s\n".toList [.str head.model],
     .printf "  Serial: %s\n".toList [.str head.serial_number]]
   else []) ++
  (if 0 < head.phys_width ∧ 0 < head.phys_height then
    [.printf "  Physical size: %dx%d mm\n".toList
      [.int head.phys_width, .int head.phys_height]]
   else []) ++
  [.printf "  Enabled: %s\n".toList
    [.str (some (if head.enabled then "yes".toList else "no".toList))]] ++
  (if head.modes ≠ [] then
    [.printf "  Modes:\n".toList []] ++ head.modes.flatMap (print_mode head)
   else []) ++
  (if !head.enabled then []
   else
    [.printf "  Position: %d,%d\n".toList [.int head.x, .int head.y],
     .printf "  Transform: %s\n".toList [.str (transform_name head.transform)],
     .printf "  Scale: %f\n".toList [.double head.scale]] ++
    (if 4 ≤ version then
      if head.adaptive_sync_state = ZWLR_OUTPUT_HEAD_V1_ADAPTIVE_SYNC_STATE_ENABLED then
        [.printf "  Adaptive Sync: enabled\n".toList []]
      else if head.adaptive_sync_state =
          ZWLR_OUTPUT_HEAD_V1_ADAPTIVE_SYNC_STATE_DISABLED then
        [.printf "  Adaptive Sync: disabled\n".toList []]
      else []
     else []))

/-- The function `print_state`: the calls it makes and the state it leaves. -/
def print_state (state : randr_state) : List out_call × randr_state :=
  (state.heads.flatMap (print_head state.version), { state with running := false })

/-- The text of a C `bool` printed as a JSON value. -/
def json_bool (b : Bool) : Option (List Char) :=
  some (if b then "true".toList else "false".toList)

/-- The loop over the modes in `print_state_json`; `modes_count` is the counter. -/
def print_modes_json (head : randr_head) : Nat → List randr_mode → List out_call
  | _, [] => []
  | modes_count, mode :: rest =>
    (if modes_count ≠ 0 then [.printf ",".toList []] else []) ++
    [.printf "\n      \x7b\n".toList [],
     .printf "        \"width\": %d,\n".toList [.int mode.width],
     .printf "        \"height\": %d,\n".toList [.int mode.height],
     .printf "        \"refresh\": %f,\n".toList [.float_div mode.refresh 1000],
     .printf "        \"preferred\": %s,\n".toList [.str (json_bool mode.preferred)],
     .printf "        \"current\": %s\n".toList
       [.str (json_bool (head.mode == some mode.wlr_mode))],
     .printf "      \x7d".toList []] ++
    print_modes_json head (modes_count + 1) rest

/-- The value of the local `adaptive_sync` in `print_state_json`. -/
def json_adaptive_sync (version : Nat) (head : randr_head) : List Char :=
  if 4 ≤ version then
    if head.adaptive_sync_state = ZWLR_OUTPUT_HEAD_V1_ADAPTIVE_SYNC_STATE_ENABLED then
      "true".toList
    else if head.adaptive_sync_state =
        ZWLR_OUTPUT_HEAD_V1_ADAPTIVE_SYNC_STATE_DISABLED then
      "false".toList
    else "null".toList
  else "null".toList

/-- The body of the loop over the heads in `print_state_json`, from the opening brace of
the object to its closing brace: the part of the JSON report for one head. -/
def print_head_json (version : Nat) (head : randr_head) : List out_call :=
  [.printf "\n  \x7b\n".toList [],
   .printf "    \"name\": ".toList [],
   .json_string (print_json_optional_string head.name),
   .printf ",\n".toList [],
   .printf "    \"description\": ".toList [],
   .json_string (print_json_optional_string head.description),
   .printf ",\n".toList [],
   .printf "    \"make\": ".toList [],
   .json_string (print_json_optional_string head.make),
   .printf ",\n".toList [],
   .printf "    \"model\": ".toList [],
   .json_string (print_json_optional_string head.model),
   .printf ",\n".toList [],
   .printf "    \"serial\": ".toList [],
   .json_string (print_json_optional_string head.serial_number),
   .printf ",\n".toList [],
   .printf "    \"physical_size\": \x7b\n".toList [],
   .printf "      \"width\": %d,\n".toList [.int head.phys_width],
   .printf "      \"height\": %d\n".toList [.int head.phys_height],
   .printf "    \x7d,\n".toList [],
   .printf "    \"enabled\": %s,\n".toList [.str (json_bool head.enabled)],
   .printf "    \"modes\": [".toList []] ++
  print_modes_json head 0 head.modes ++
  (if head.modes.length ≠ 0 then [.printf "\n    ".toList []] else []) ++
  [.printf "]".toList []] ++
  (if !head.enabled then [.printf "\n".toList []]
   else
    [.printf ",\n".toList [],
     .printf "    \"position\": \x7b\n".toList [],
     .printf "      \"x\": %d,\n".toList [.int head.x],
     .printf "      \"y\": %d\n".toList [.int head.y],
     .printf "    \x7d,\n".toList [],
     .printf "    \"transform\": ".toList [],
     .json_string (print_json_optional_string (transform_name head.transform)),
     .printf ",\n".toList [],
     .printf "    \"scale\": %f,\n".toList [.double head.scale],
     .printf "    \"adaptive_sync\": %s\n".toList
       [.str (some (json_adaptive_sync version head))]]) ++
  [.printf "  \x7d".toList []]

/-- The loop over the heads in `print_state_json`; `heads_count` is the counter. -/
def print_heads_json (version : Nat) : Nat → List randr_head → List out_call
  | _, [] => []
  | heads_count, head :: rest =>
    (if heads_count ≠ 0 then [.printf ",".toList []] else []) ++
    print_head_json version head ++
    print_heads_json version (heads_count + 1) rest

/-- The function `print_state_json`: the calls it makes and the state it leaves. -/
def print_state_json (state : randr_state) : List out_call × randr_state :=
  ([.printf "[".toList []] ++
   print_heads_json state.version 0 state.heads ++
   (if state.heads.length ≠ 0 then [.printf "\n".toList []] else []) ++
   [.printf "]\n".toList []],
   { state with running := false })

/-! ## Predicates used in the statements -/

/-- The invariant of C1 for one head: a non-null current mode is the pointer of a mode of
the head's own list. -/
def mode_in_own_list (head : randr_head) : Prop :=
  ∀ wlr_mode, head.mode = some wlr_mode → ∃ mode ∈ head.modes, mode.wlr_mode = wlr_mode

/-- A sample head for the examples: disabled, three modes of which the second is flagged
preferred, no current mode, nothing changed. -/
def sample_head : randr_head :=
  { wlr_head := 1, name := some "DP-1".toList, description := none, make := none,
    model := none, serial_number := none, phys_width := 0, phys_height := 0,
    modes := [{ wlr_mode := 10, width := 1920, height := 1080, refresh := 60000,
                preferred := false },
              { wlr_mode := 11, width := 2560, height := 1440, refresh := 59951,
                preferred := true },
              { wlr_mode := 12, width := 1920, height := 1080, refresh := 50000,
                preferred := false }],
    changed := 0, enabled := false, mode := none,
    custom_mode := { width := 0, height := 0, refresh := 0 }, x := 0, y := 0,
    transform := 0, scale := C_double.one, adaptive_sync_state := 0 }

/-- What C5 says of one head and the instruction emitted for it. -/
def instruction_for (head : randr_head) (r : config_request) : Prop :=
  (head.enabled = false ∧ r = config_request.disable_head head.wlr_head) ∨
  (head.enabled = true ∧ ∃ attached, r = config_request.enable_head head.wlr_head attached ∧
    (head.changed = 0 → attached = []))

/-- What C9 says of a head before (`head`) and after (`head'`) the current-mode event
for the head of proxy `wlr_head` with mode proxy `wlr_mode`: another head is unchanged;
the addressed head has its current mode set to the mode of its own list with that proxy
when there is one and to null otherwise, its other fields being unchanged, and the new
current mode, if non-null, is in the head's own list. -/
def current_mode_effect (wlr_head wlr_mode : Nat) (head head' : randr_head) : Prop :=
  (head.wlr_head ≠ wlr_head → head' = head) ∧
  (head.wlr_head = wlr_head →
    head' = { head with mode := head'.mode } ∧
    ((∃ mode ∈ head.modes, mode.wlr_mode = wlr_mode) → head'.mode = some wlr_mode) ∧
    ((∀ mode ∈ head.modes, mode.wlr_mode ≠ wlr_mode) → head'.mode = none) ∧
    mode_in_own_list head')

/-- The events of the configuration listener (the resolution of a transaction). -/
def event.is_config : event → Bool
  | .config_succeeded => true
  | .config_failed => true
  | .config_cancelled => true
  | _ => false

/-- The state `main` is in when it enters the final wait after `apply_state`: still
running, not failed. -/
def sample_pending_state : randr_state :=
  { version := 4, heads := [sample_head], serial := 7, has_serial := true,
    running := true, failed := false }

/-- The string `s` does not start with a character satisfying `p`. -/
def starts_without (p : Char → Bool) (s : List Char) : Prop :=
  ∀ c t, s = c :: t → p c = false

/-- The string `s` is the text of the integer `v` as `strtol` reads it in base 10:
optional white space, an optional sign, and at least one decimal digit. -/
def is_int_text (s : List Char) (v : Int) : Prop :=
  ∃ ws sg ds, s = ws ++ sg ++ ds ∧ (∀ c ∈ ws, c_isspace c = true) ∧ ds ≠ [] ∧
    (∀ c ∈ ds, c_isdigit c = true) ∧
    (((sg = [] ∨ sg = ['+']) ∧ v = (digits_val ds : Int)) ∨
      (sg = ['-'] ∧ v = -(digits_val ds : Int)))

/-- The string `s` is a non-empty string of decimal digits. -/
def is_digits (s : List Char) : Prop := s ≠ [] ∧ ∀ c ∈ s, c_isdigit c = true

/-- The text of a non-negative decimal number: the digits `ip`, followed when `point`
is set by a decimal point and the digits `fp`. -/
def decimal_text (ip fp : List Char) (point : Bool) : List Char :=
  if point then ip ++ '.' :: fp else ip

/-- The number written by `decimal_text ip fp point`. -/
def decimal_value (ip fp : List Char) : ℚ :=
  (digits_val (ip ++ fp) : ℚ) / (10 : ℚ) ^ fp.length

/-- The string `s` is empty or starts with a character that cannot start an integer for
`strtol`: not white space, not a sign, not a digit. -/
def no_int_start (s : List Char) : Prop :=
  ∀ c t, s = c :: t →
    c_isspace c = false ∧ c_isdigit c = false ∧ c ≠ '+' ∧ c ≠ '-'

/-- The string `s` is empty or starts with a character that cannot start a number for
`strtod`: not white space, not a sign, not a digit, not a point, and not the first letter
of `inf` or `nan` in either case. -/
def no_number_start (s : List Char) : Prop :=
  ∀ c t, s = c :: t →
    c_isspace c = false ∧ c_isdigit c = false ∧ c ≠ '+' ∧ c ≠ '-' ∧ c ≠ '.' ∧
    c.toLower ≠ 'i' ∧ c.toLower ≠ 'n'

/-- The serial of the last synchronization marker (`done` event of the manager) in a
list of events, if there is one. -/
def last_done : List event → Option Nat
  | [] => none
  | e :: rest =>
    match last_done rest with
    | some serial => some serial
    | none =>
      match e with
      | .manager_done serial => some serial
      | _ => none

/-- The events a compositor with one output sends before the first marker: the head
`DP-1` with one mode 1920x1080 at 60 Hz, then `done` with serial 7. -/
def sample_sync_events : List event :=
  [event.manager_head 1, event.head_name 1 "DP-1".toList, event.head_mode 1 10,
   event.mode_size 10 1920 1080, event.mode_refresh 10 60000, event.manager_done 7]

/-- The option `o` is an invalid directive when the option loop is in `s`: an option
that `getopt_long` does not know, an `--output` that names no head, or an output
sub-option that comes before any `--output` or that `parse_output_arg` rejects for the
current head. -/
def invalid_at (s : option_state) (o : cli_option) : Prop :=
  o = cli_option.unknown ∨
  (∃ value, o = cli_option.long "output".toList value ∧
    ∀ head ∈ s.state.heads, head.name ≠ some value) ∨
  (∃ name value, o = cli_option.long name value ∧ name ≠ "output".toList ∧
    name ≠ "dryrun".toList ∧ name ≠ "json".toList ∧
    (s.current_head = none ∨
      ∃ i head, s.current_head = some i ∧ s.state.heads[i]? = some head ∧
        (parse_output_arg s.state.version head name value).1 = false))

/-- The head after the directives `ds` (name and value each) have been applied to it in
order by `parse_output_arg`. -/
def run_directives (version : Nat) (head : randr_head)
    (ds : List (List Char × List Char)) : randr_head :=
  ds.foldl (fun h d => (parse_output_arg version h d.1 d.2).2) head

/-- The names of the directives that set a value of the head. -/
def value_directives : List (List Char) :=
  ["mode".toList, "preferred".toList, "custom-mode".toList, "pos".toList,
   "transform".toList, "scale".toList, "adaptive-sync".toList]

/-- Whether the text `p` occurs in `s` as a run of consecutive characters. -/
def contains_text (p : List Char) : List Char → Bool
  | [] => p.isEmpty
  | c :: s => p.isPrefixOf (c :: s) || contains_text p s

/-- Whether the format string of the call contains the label.  The characters of a
`print_json_optional_string` call are a value, never a label. -/
def out_call.has_label (label : List Char) : out_call → Bool
  | .printf format _ => contains_text label format
  | .json_string _ => false

/-- Whether a report mentions the label: some format string of it contains the label. -/
def report_mentions (label : List Char) (out : List out_call) : Bool :=
  out.any (out_call.has_label label)

/-- The scanner behind `json_body_ok`.  The first argument is the state: 0 between
tokens, 1 after a backslash, and `k + 1` when `k` hexadecimal digits of a `\u` escape
are still to come. -/
def json_body_scan : Nat → List Char → Bool
  | 0, [] => true
  | _ + 1, [] => false
  | 0, c :: rest =>
    if c = '\x5c' then json_body_scan 1 rest
    else if c = '\x22' ∨ (0x01 ≤ c.toNat ∧ c.toNat ≤ 0x1F) then false
    else json_body_scan 0 rest
  | 1, c :: rest =>
    if c ∈ ['\x22', '\x5c', 'b', 'f', 'n', 'r', 't'] then json_body_scan 0 rest
    else if c = 'u' then json_body_scan 5 rest
    else false
  | k + 2, c :: rest =>
    if c_isxdigit c then json_body_scan (if k = 0 then 0 else k + 1) rest else false

/-- The body of a JSON string literal is well formed: it is a sequence of characters
other than the double quote, the backslash and the codes 0x01..0x1F, of two-character
escapes (a backslash and one of the double quote, the backslash, `b`, `f`, `n`, `r`,
`t`), and of escapes of a backslash, `u` and four hexadecimal digits.  So it has no raw
double quote, no backslash that does not start an escape, and no raw code in
0x01..0x1F. -/
def json_body_ok (body : List Char) : Bool := json_body_scan 0 body

/-- The seven characters that `print_json_optional_string` writes as a two-character
escape, each with the second character of its escape. -/
def json_short_escapes : List (Char × Char) :=
  [('\x22', '\x22'), ('\x5c', '\x5c'), ('\x08', 'b'), ('\x0c', 'f'), ('\n', 'n'),
   ('\r', 'r'), ('\t', 't')]

/-- The head `sample_head` enabled, with mode 11 current. -/
def sample_enabled_head : randr_head :=
  { sample_head with
    enabled := true
    mode := some 11 }

/-- The labels of the position, transform, scale and adaptive-sync lines of the text
report. -/
def text_labels : List (List Char) :=
  ["Position".toList, "Transform".toList, "Scale".toList, "Adaptive Sync".toList]

/-- The names of the position, transform, scale and adaptive-sync members of the JSON
report, in their quotes. -/
def json_labels : List (List Char) :=
  ["\"position\"".toList, "\"transform\"".toList, "\"scale\"".toList,
   "\"adaptive_sync\"".toList]

/-! # Theorems -/

/-! ## The changed mask -/

theorem changed_has_eq_testBit (head : randr_head) (k : Nat) :
    changed_has head (2 ^ k) = head.changed.testBit k := by
  unfold changed_has
  rw [Nat.and_two_pow]
  cases h : head.changed.testBit k <;> simp

theorem changed_has_mode (head : randr_head) :
    changed_has head RANDR_HEAD_MODE = head.changed.testBit 0 :=
  changed_has_eq_testBit head 0

theorem changed_has_position (head : randr_head) :
    changed_has head RANDR_HEAD_POSITION = head.changed.testBit 1 :=
  changed_has_eq_testBit head 1

theorem changed_has_transform (head : randr_head) :
    changed_has head RANDR_HEAD_TRANSFORM = head.changed.testBit 2 :=
  changed_has_eq_testBit head 2

theorem changed_has_scale (head : randr_head) :
    changed_has head RANDR_HEAD_SCALE = head.changed.testBit 3 :=
  changed_has_eq_testBit head 3

theorem changed_has_adaptive_sync (head : randr_head) :
    changed_has head RANDR_HEAD_ADAPTIVE_SYNC = head.changed.testBit 4 :=
  changed_has_eq_testBit head 4

/-! ## C1: the current mode and the mode list -/

/-- C1 fails on the code: after a head is announced, a mode of it is announced and made
current, and that mode is finished, the head's current mode still is the pointer to the
removed (freed) mode, while the head's mode list is empty. -/
theorem current_mode_dangles_after_mode_finished :
    ([event.manager_head 1, event.head_mode 1 10, event.head_current_mode 1 10,
        event.mode_finished 10].foldl dispatch (randr_state.init 4)).heads.map
      (fun head => (head.mode, head.modes)) = [(some 10, [])] := by
  decide

/-! ## C2: the enable directive and the fixup policy -/

theorem find?_preferred_split (pre post : List randr_mode) (mode : randr_mode)
    (hpre : ∀ p ∈ pre, p.preferred = false) (hmode : mode.preferred = true) :
    (pre ++ mode :: post).find? (fun m => m.preferred) = some mode := by
  induction pre with
  | nil => simp [List.find?, hmode]
  | cons p ps ih =>
    have hp : p.preferred = false := hpre p (by simp)
    have hps : ∀ q ∈ ps, q.preferred = false := fun q hq => hpre q (by simp [hq])
    simp [List.find?, hp, ih hps]

theorem find?_preferred_none (modes : List randr_mode)
    (h : ∀ p ∈ modes, p.preferred = false) :
    modes.find? (fun m => m.preferred) = none := by
  rw [List.find?_eq_none]
  intro p hp
  simp [h p hp]

/-- C2: for a disabled head with a null current mode and an all-zero custom mode, `on`
succeeds, marks the head enabled, and sets the current mode to the first mode flagged
preferred in list order when there is one, otherwise to the first mode of the list,
otherwise (empty list) leaves it null. -/
theorem on_disabled_head_selects_mode (version : Nat) (head : randr_head)
    (value : List Char) (hdis : head.enabled = false) (hmode : head.mode = none)
    (hcustom : head.custom_mode = { width := 0, height := 0, refresh := 0 }) :
    (parse_output_arg version head "on".toList value).1 = true ∧
    (parse_output_arg version head "on".toList value).2.enabled = true ∧
    (∀ pre mode post, head.modes = pre ++ mode :: post →
        (∀ p ∈ pre, p.preferred = false) → mode.preferred = true →
        (parse_output_arg version head "on".toList value).2.mode = some mode.wlr_mode) ∧
    (∀ mode rest, head.modes = mode :: rest → (∀ p ∈ head.modes, p.preferred = false) →
        (parse_output_arg version head "on".toList value).2.mode = some mode.wlr_mode) ∧
    (head.modes = [] →
        (parse_output_arg version head "on".toList value).2.mode = none) := by
  have hfix : (parse_output_arg version head "on".toList value) =
      (true, { fixup_disabled_head head with enabled := true }) := by
    simp [parse_output_arg, hdis]
  have hcond : (head.mode.isNone && head.custom_mode.refresh == 0 &&
      head.custom_mode.width == 0 && head.custom_mode.height == 0) = true := by
    simp [hmode, hcustom]
  rw [hfix]
  refine ⟨rfl, rfl, ?_, ?_, ?_⟩
  · intro pre mode post hsplit hpre hpref
    simp only [fixup_disabled_head, hcond, if_true]
    rw [hsplit, find?_preferred_split pre post mode hpre hpref]
  · intro mode rest hcons hnone
    simp only [fixup_disabled_head, hcond, if_true]
    rw [find?_preferred_none head.modes hnone, hcons]
  · intro hnil
    simp only [fixup_disabled_head, hcond, if_true]
    rw [hnil]
    simpa using hmode

theorem on_disabled_head_selects_mode_witness :
    (parse_output_arg 4 sample_head "on".toList []).2.mode = some 11 :=
  (on_disabled_head_selects_mode 4 sample_head [] rfl rfl rfl).2.2.1
    [{ wlr_mode := 10, width := 1920, height := 1080, refresh := 60000, preferred := false }]
    { wlr_mode := 11, width := 2560, height := 1440, refresh := 59951, preferred := true }
    [{ wlr_mode := 12, width := 1920, height := 1080, refresh := 50000, preferred := false }]
    rfl (by decide) rfl

/-! ## C5 and C6: the instructions `apply_state` emits -/

theorem changed_has_zero (head : randr_head) (prop : Nat) (h : head.changed = 0) :
    changed_has head prop = false := by
  simp [changed_has, h]

theorem enable_requests_nil (f : C_double → Int) (version : Nat) (head : randr_head)
    (h : head.changed = 0) : enable_requests f version head = [] := by
  simp [enable_requests, changed_has_zero head _ h]

theorem instruction_for_apply_head (f : C_double → Int) (version : Nat) (head : randr_head) :
    instruction_for head (apply_head f version head) := by
  unfold instruction_for apply_head
  cases hen : head.enabled
  · left; simp
  · right
    exact ⟨rfl, enable_requests f version head, by simp,
      enable_requests_nil f version head⟩

/-- C5: for every state and both submit kinds, `apply_state` emits one instruction per
head, in list order and for that head: `disable_head` when the head is not enabled,
`enable_head` when it is, with nothing attached when the head's changed mask is zero.
The configuration is created with the state's serial and submitted as a test exactly
when `dry_run` is set. -/
theorem apply_state_one_instruction_per_head (wl_fixed_from_double : C_double → Int)
    (state : randr_state) (dry_run : Bool) :
    List.Forall₂ instruction_for state.heads
      (apply_state wl_fixed_from_double state dry_run).heads ∧
    (apply_state wl_fixed_from_double state dry_run).heads.length = state.heads.length ∧
    (apply_state wl_fixed_from_double state dry_run).serial = state.serial ∧
    ((apply_state wl_fixed_from_double state dry_run).submit = submit_kind.test ↔
      dry_run = true) := by
  refine ⟨?_, by simp [apply_state], rfl, ?_⟩
  · simp only [apply_state]
    generalize state.heads = l
    induction l with
    | nil => exact List.Forall₂.nil
    | cons h t ih =>
      exact List.Forall₂.cons (instruction_for_apply_head _ _ h) ih
  · cases dry_run <;> simp [apply_state]

/-- C6: for an enabled head the instruction is `enable_head` with an attachment list
that holds exactly: `set_mode` of the current mode when the mode bit is set and the
current mode is non-null; `set_custom_mode` of the custom triple when the mode bit is set
and the current mode is null; `set_position`, `set_transform`, `set_scale` for their
bits; `set_adaptive_sync` when its bit is set and the version is at least 4.  Nothing is
attached twice, and a changed mask equal to the scale bit gives the single attachment
`set_scale`. -/
theorem apply_head_attaches_changed_fields (wl_fixed_from_double : C_double → Int)
    (version : Nat) (head : randr_head) (hen : head.enabled = true) :
    ∃ attached, apply_head wl_fixed_from_double version head =
        config_request.enable_head head.wlr_head attached ∧
      (∀ m, head_request.set_mode m ∈ attached ↔
        head.changed.testBit 0 = true ∧ head.mode = some m) ∧
      (∀ w h r, head_request.set_custom_mode w h r ∈ attached ↔
        head.changed.testBit 0 = true ∧ head.mode = none ∧
        head.custom_mode = { width := w, height := h, refresh := r }) ∧
      (∀ x y, head_request.set_position x y ∈ attached ↔
        head.changed.testBit 1 = true ∧ x = head.x ∧ y = head.y) ∧
      (∀ t, head_request.set_transform t ∈ attached ↔
        head.changed.testBit 2 = true ∧ t = head.transform) ∧
      (∀ s, head_request.set_scale s ∈ attached ↔
        head.changed.testBit 3 = true ∧ s = wl_fixed_from_double head.scale) ∧
      (∀ a, head_request.set_adaptive_sync a ∈ attached ↔
        head.changed.testBit 4 = true ∧ 4 ≤ version ∧ a = head.adaptive_sync_state) ∧
      attached.Nodup ∧
      (head.changed = RANDR_HEAD_SCALE →
        attached = [head_request.set_scale (wl_fixed_from_double head.scale)]) := by
  refine ⟨enable_requests wl_fixed_from_double version head, by simp [apply_head, hen],
    ?_, ?_, ?_, ?_, ?_, ?_, ?_, ?_⟩
  all_goals
    simp only [enable_requests, changed_has_mode, changed_has_position,
      changed_has_transform, changed_has_scale, changed_has_adaptive_sync,
      ZWLR_OUTPUT_CONFIGURATION_HEAD_V1_SET_ADAPTIVE_SYNC_SINCE_VERSION]
  · intro m
    cases head.changed.testBit 0 <;> cases head.changed.testBit 1 <;>
    cases head.changed.testBit 2 <;> cases head.changed.testBit 3 <;>
    cases head.changed.testBit 4 <;> cases hm : head.mode <;>
    by_cases hv : version ≥ 4 <;> simp [hv, eq_comm]
  · intro w h r
    obtain ⟨cw, ch, cr⟩ := head.custom_mode
    cases head.changed.testBit 0 <;> cases head.changed.testBit 1 <;>
    cases head.changed.testBit 2 <;> cases head.changed.testBit 3 <;>
    cases head.changed.testBit 4 <;> cases hm : head.mode <;>
    by_cases hv : version ≥ 4 <;> simp [hv, eq_comm]
  · intro x y
    cases head.changed.testBit 0 <;> cases head.changed.testBit 1 <;>
    cases head.changed.testBit 2 <;> cases head.changed.testBit 3 <;>
    cases head.changed.testBit 4 <;> cases hm : head.mode <;>
    by_cases hv : version ≥ 4 <;> simp [hv]
  · intro t
    cases head.changed.testBit 0 <;> cases head.changed.testBit 1 <;>
    cases head.changed.testBit 2 <;> cases head.changed.testBit 3 <;>
    cases head.changed.testBit 4 <;> cases hm : head.mode <;>
    by_cases hv : version ≥ 4 <;> simp [hv]
  · intro sc
    cases head.changed.testBit 0 <;> cases head.changed.testBit 1 <;>
    cases head.changed.testBit 2 <;> cases head.changed.testBit 3 <;>
    cases head.changed.testBit 4 <;> cases hm : head.mode <;>
    by_cases hv : version ≥ 4 <;> simp [hv]
  · intro a
    cases head.changed.testBit 0 <;> cases head.changed.testBit 1 <;>
    cases head.changed.testBit 2 <;> cases head.changed.testBit 3 <;>
    cases head.changed.testBit 4 <;> cases hm : head.mode <;>
    by_cases hv : version ≥ 4 <;> simp [hv]
  · cases head.changed.testBit 0 <;> cases head.changed.testBit 1 <;>
    cases head.changed.testBit 2 <;> cases head.changed.testBit 3 <;>
    cases head.changed.testBit 4 <;> cases hm : head.mode <;>
    by_cases hv : version ≥ 4 <;> simp [hv]
  · intro hch
    have h0 : Nat.testBit RANDR_HEAD_SCALE 0 = false := by decide
    have h1 : Nat.testBit RANDR_HEAD_SCALE 1 = false := by decide
    have h2 : Nat.testBit RANDR_HEAD_SCALE 2 = false := by decide
    have h3 : Nat.testBit RANDR_HEAD_SCALE 3 = true := by decide
    have h4 : Nat.testBit RANDR_HEAD_SCALE 4 = false := by decide
    rw [hch]
    simp [h0, h1, h2, h3, h4]

theorem apply_head_attaches_changed_fields_witness :
    ∃ attached, apply_head (fun _ => 256) 4
        { sample_head with enabled := true, changed := RANDR_HEAD_SCALE } =
        config_request.enable_head 1 attached ∧
      attached = [head_request.set_scale 256] := by
  obtain ⟨attached, h1, -, -, -, -, -, -, -, h2⟩ :=
    apply_head_attaches_changed_fields (fun _ => 256) 4
      { sample_head with enabled := true, changed := RANDR_HEAD_SCALE } rfl
  exact ⟨attached, h1, h2 rfl⟩

/-! ## The directives one by one -/

theorem parse_output_arg_on (version : Nat) (head : randr_head) (value : List Char) :
    parse_output_arg version head "on".toList value =
      (true, { (if !head.enabled then fixup_disabled_head head else head) with
        enabled := true }) := by
  unfold parse_output_arg
  rw [if_pos rfl]

theorem parse_output_arg_off (version : Nat) (head : randr_head) (value : List Char) :
    parse_output_arg version head "off".toList value =
      (true, { head with enabled := false }) := by
  unfold parse_output_arg
  rw [if_neg (by decide), if_pos rfl]

theorem parse_output_arg_toggle (version : Nat) (head : randr_head) (value : List Char) :
    parse_output_arg version head "toggle".toList value =
      if head.enabled then (true, { head with enabled := false })
      else (true, { fixup_disabled_head head with enabled := true }) := by
  unfold parse_output_arg
  rw [if_neg (by decide), if_neg (by decide), if_pos rfl]

theorem parse_output_arg_mode (version : Nat) (head : randr_head) (value : List Char) :
    parse_output_arg version head "mode".toList value =
      match parse_mode value with
      | none => (false, head)
      | some (width, height, refresh) =>
        match head.modes.find? (mode_matches width height refresh) with
        | none => (false, head)
        | some mode =>
          (true, { head with changed := head.changed ||| RANDR_HEAD_MODE,
                             mode := some mode.wlr_mode,
                             custom_mode := { width := 0, height := 0, refresh := 0 } }) := by
  unfold parse_output_arg
  rw [if_neg (by decide), if_neg (by decide), if_neg (by decide), if_pos rfl]

theorem parse_output_arg_preferred (version : Nat) (head : randr_head) (value : List Char) :
    parse_output_arg version head "preferred".toList value =
      match head.modes.find? (fun mode => mode.preferred) with
      | none => (false, head)
      | some mode =>
        (true, { head with changed := head.changed ||| RANDR_HEAD_MODE,
                           mode := some mode.wlr_mode,
                           custom_mode := { width := 0, height := 0, refresh := 0 } }) := by
  unfold parse_output_arg
  rw [if_neg (by decide), if_neg (by decide), if_neg (by decide), if_neg (by decide),
    if_pos rfl]

theorem parse_output_arg_custom_mode (version : Nat) (head : randr_head)
    (value : List Char) :
    parse_output_arg version head "custom-mode".toList value =
      match parse_mode value with
      | none => (false, head)
      | some (width, height, refresh) =>
        (true, { head with changed := head.changed ||| RANDR_HEAD_MODE,
                           mode := none,
                           custom_mode := { width := width, height := height,
                                            refresh := refresh } }) := by
  unfold parse_output_arg
  rw [if_neg (by decide), if_neg (by decide), if_neg (by decide), if_neg (by decide),
    if_neg (by decide), if_pos rfl]

theorem parse_output_arg_pos (version : Nat) (head : randr_head) (value : List Char) :
    parse_output_arg version head "pos".toList value =
      if (strtol value).2.head? != some ',' || same_ptr value (strtol value).2 then
        (false, head)
      else if !(strtol (strtol value).2.tail).2.isEmpty then (false, head)
      else
        (true, { head with changed := head.changed ||| RANDR_HEAD_POSITION,
                           x := long_to_int (strtol value).1,
                           y := long_to_int (strtol (strtol value).2.tail).1 }) := by
  unfold parse_output_arg
  rw [if_neg (by decide), if_neg (by decide), if_neg (by decide), if_neg (by decide),
    if_neg (by decide), if_neg (by decide), if_pos rfl]

theorem parse_output_arg_transform (version : Nat) (head : randr_head) (value : List Char) :
    parse_output_arg version head "transform".toList value =
      match output_transform_map.findIdx? (fun s => s == value) with
      | none => (false, head)
      | some i =>
        (true, { head with transform := (i : Int),
                           changed := head.changed ||| RANDR_HEAD_TRANSFORM }) := by
  unfold parse_output_arg
  rw [if_neg (by decide), if_neg (by decide), if_neg (by decide), if_neg (by decide),
    if_neg (by decide), if_neg (by decide), if_neg (by decide), if_pos rfl]

theorem parse_output_arg_scale (version : Nat) (head : randr_head) (value : List Char) :
    parse_output_arg version head "scale".toList value =
      if !(strtod value).2.isEmpty || same_ptr value (strtod value).2 then (false, head)
      else
        (true, { head with changed := head.changed ||| RANDR_HEAD_SCALE,
                           scale := (strtod value).1 }) := by
  unfold parse_output_arg
  rw [if_neg (by decide), if_neg (by decide), if_neg (by decide), if_neg (by decide),
    if_neg (by decide), if_neg (by decide), if_neg (by decide), if_neg (by decide), if_pos rfl]

theorem parse_output_arg_adaptive_sync (version : Nat) (head : randr_head)
    (value : List Char) :
    parse_output_arg version head "adaptive-sync".toList value =
      if version < ZWLR_OUTPUT_CONFIGURATION_HEAD_V1_SET_ADAPTIVE_SYNC_SINCE_VERSION then
        (false, head)
      else if value = "enabled".toList then
        (true, { head with
          adaptive_sync_state := ZWLR_OUTPUT_HEAD_V1_ADAPTIVE_SYNC_STATE_ENABLED,
          changed := head.changed ||| RANDR_HEAD_ADAPTIVE_SYNC })
      else if value = "disabled".toList then
        (true, { head with
          adaptive_sync_state := ZWLR_OUTPUT_HEAD_V1_ADAPTIVE_SYNC_STATE_DISABLED,
          changed := head.changed ||| RANDR_HEAD_ADAPTIVE_SYNC })
      else (false, head) := by
  unfold parse_output_arg
  rw [if_neg (by decide), if_neg (by decide), if_neg (by decide), if_neg (by decide),
    if_neg (by decide), if_neg (by decide), if_neg (by decide), if_neg (by decide),
    if_neg (by decide), if_pos rfl]

theorem parse_output_arg_unknown (version : Nat) (head : randr_head) (name value : List Char)
    (h1 : name ≠ "on".toList) (h2 : name ≠ "off".toList) (h3 : name ≠ "toggle".toList)
    (h4 : name ≠ "mode".toList) (h5 : name ≠ "preferred".toList)
    (h6 : name ≠ "custom-mode".toList) (h7 : name ≠ "pos".toList)
    (h8 : name ≠ "transform".toList) (h9 : name ≠ "scale".toList)
    (h10 : name ≠ "adaptive-sync".toList) :
    parse_output_arg version head name value = (false, head) := by
  unfold parse_output_arg
  rw [if_neg h1, if_neg h2, if_neg h3, if_neg h4, if_neg h5, if_neg h6, if_neg h7,
    if_neg h8, if_neg h9, if_neg h10]

/-! ## C7: a failed directive leaves the head untouched -/

theorem parse_output_arg_false_keeps_head (version : Nat) (head : randr_head)
    (name value : List Char) (hfail : (parse_output_arg version head name value).1 = false) :
    (parse_output_arg version head name value).2 = head := by
  by_cases h1 : name = "on".toList
  · subst h1; rw [parse_output_arg_on] at hfail; simp at hfail
  by_cases h2 : name = "off".toList
  · subst h2; rw [parse_output_arg_off] at hfail; simp at hfail
  by_cases h3 : name = "toggle".toList
  · subst h3; rw [parse_output_arg_toggle] at hfail; split at hfail <;> simp at hfail
  by_cases h4 : name = "mode".toList
  · subst h4; rw [parse_output_arg_mode] at hfail ⊢
    split
    · rfl
    · split
      · rfl
      · rename_i hp _ _ hf
        rw [hp] at hfail; simp only [hf] at hfail; simp at hfail
  by_cases h5 : name = "preferred".toList
  · subst h5; rw [parse_output_arg_preferred] at hfail ⊢
    split
    · rfl
    · rename_i hf
      rw [hf] at hfail; simp at hfail
  by_cases h6 : name = "custom-mode".toList
  · subst h6; rw [parse_output_arg_custom_mode] at hfail ⊢
    split
    · rfl
    · rename_i hp
      rw [hp] at hfail; simp at hfail
  by_cases h7 : name = "pos".toList
  · subst h7; rw [parse_output_arg_pos] at hfail ⊢
    split
    · rfl
    · split
      · rfl
      · rename_i hc1 hc2
        rw [if_neg hc1, if_neg hc2] at hfail; simp at hfail
  by_cases h8 : name = "transform".toList
  · subst h8; rw [parse_output_arg_transform] at hfail ⊢
    split
    · rfl
    · rename_i hf
      rw [hf] at hfail; simp at hfail
  by_cases h9 : name = "scale".toList
  · subst h9; rw [parse_output_arg_scale] at hfail ⊢
    split
    · rfl
    · rename_i hc
      rw [if_neg hc] at hfail; simp at hfail
  by_cases h10 : name = "adaptive-sync".toList
  · subst h10; rw [parse_output_arg_adaptive_sync] at hfail ⊢
    split
    · rfl
    · split
      · rename_i hc1 hc2
        rw [if_neg hc1, if_pos hc2] at hfail; simp at hfail
      · split
        · rename_i hc1 hc2 hc3
          rw [if_neg hc1, if_neg hc2, if_pos hc3] at hfail; simp at hfail
        · rfl
  rw [parse_output_arg_unknown version head name value h1 h2 h3 h4 h5 h6 h7 h8 h9 h10]

/-- C7: whenever `parse_output_arg` returns false, the head is exactly as before the
call (every field, the changed mask included). -/
theorem parse_output_arg_failure_leaves_head (version : Nat) (head : randr_head)
    (name value : List Char) (hfail : (parse_output_arg version head name value).1 = false) :
    (parse_output_arg version head name value).2 = head :=
  parse_output_arg_false_keeps_head version head name value hfail

theorem parse_output_arg_failure_leaves_head_witness :
    (parse_output_arg 4 sample_head "pos".toList "100".toList).1 = false ∧
    (parse_output_arg 4 sample_head "pos".toList "100".toList).2 = sample_head :=
  ⟨by decide, parse_output_arg_failure_leaves_head 4 sample_head "pos".toList "100".toList
    (by decide)⟩

/-! ## C9: the current-mode event -/

theorem head_handle_current_mode_found (head : randr_head) (wlr_mode : Nat)
    (h : ∃ mode ∈ head.modes, mode.wlr_mode = wlr_mode) :
    head_handle_current_mode head wlr_mode = { head with mode := some wlr_mode } := by
  unfold head_handle_current_mode
  cases hf : head.modes.find? (fun mode => mode.wlr_mode == wlr_mode) with
  | none =>
    obtain ⟨mode, hm, hw⟩ := h
    rw [List.find?_eq_none] at hf
    exact absurd (by simpa using hw) (hf mode hm)
  | some mode =>
    have := List.find?_some hf
    simp only [beq_iff_eq] at this
    simp [this]

theorem head_handle_current_mode_missing (head : randr_head) (wlr_mode : Nat)
    (h : ∀ mode ∈ head.modes, mode.wlr_mode ≠ wlr_mode) :
    head_handle_current_mode head wlr_mode = { head with mode := none } := by
  unfold head_handle_current_mode
  have : head.modes.find? (fun mode => mode.wlr_mode == wlr_mode) = none := by
    rw [List.find?_eq_none]
    intro mode hm
    simpa using h mode hm
  rw [this]

theorem head_handle_current_mode_in_own_list (head : randr_head) (wlr_mode : Nat) :
    mode_in_own_list (head_handle_current_mode head wlr_mode) := by
  by_cases h : ∃ mode ∈ head.modes, mode.wlr_mode = wlr_mode
  · rw [head_handle_current_mode_found head wlr_mode h]
    intro m hm
    simp only [Option.some.injEq] at hm
    subst hm
    exact h
  · have h' : ∀ mode ∈ head.modes, mode.wlr_mode ≠ wlr_mode := by
      intro mode hm hw
      exact h ⟨mode, hm, hw⟩
    rw [head_handle_current_mode_missing head wlr_mode h']
    intro m hm
    simp at hm

theorem current_mode_effect_handler (wlr_head wlr_mode : Nat) (head : randr_head) :
    current_mode_effect wlr_head wlr_mode head
      (if head.wlr_head = wlr_head then head_handle_current_mode head wlr_mode
       else head) := by
  unfold current_mode_effect
  by_cases hh : head.wlr_head = wlr_head
  · rw [if_pos hh]
    refine ⟨fun hne => absurd hh hne, fun _ => ⟨?_, ?_, ?_, ?_⟩⟩
    · unfold head_handle_current_mode
      split <;> rfl
    · intro hex
      rw [head_handle_current_mode_found head wlr_mode hex]
    · intro hall
      rw [head_handle_current_mode_missing head wlr_mode hall]
    · exact head_handle_current_mode_in_own_list head wlr_mode
  · rw [if_neg hh]
    exact ⟨fun _ => rfl, fun h => absurd h hh⟩

/-- C9: the current-mode event for head `wlr_head` with mode reference `wlr_mode` keeps
the heads in place; the addressed head gets as current mode the mode of its own list
with that reference when there is one, null otherwise, and in either case a current mode
that is null or in its own list; every other head, and everything else in the state, is
unchanged. -/
theorem current_mode_event_resolves_in_own_list (state : randr_state)
    (wlr_head wlr_mode : Nat) :
    List.Forall₂ (current_mode_effect wlr_head wlr_mode) state.heads
      (dispatch state (event.head_current_mode wlr_head wlr_mode)).heads ∧
    dispatch state (event.head_current_mode wlr_head wlr_mode) =
      { state with
        heads := (dispatch state (event.head_current_mode wlr_head wlr_mode)).heads } := by
  refine ⟨?_, rfl⟩
  simp only [dispatch, on_head]
  generalize state.heads = l
  induction l with
  | nil => exact List.Forall₂.nil
  | cons h t ih =>
    exact List.Forall₂.cons (current_mode_effect_handler wlr_head wlr_mode h) ih

/-! ## C10: the resolution of the transaction and the exit status -/

theorem dispatch_keeps_flags (state : randr_state) (e : event) (h : e.is_config = false) :
    (dispatch state e).running = state.running ∧
    (dispatch state e).failed = state.failed := by
  cases e <;> first | exact ⟨rfl, rfl⟩ | simp [event.is_config] at h

theorem foldl_dispatch_keeps_flags (evs : List event) (state : randr_state)
    (h : ∀ e ∈ evs, e.is_config = false) :
    (evs.foldl dispatch state).running = state.running ∧
    (evs.foldl dispatch state).failed = state.failed := by
  induction evs generalizing state with
  | nil => exact ⟨rfl, rfl⟩
  | cons e t ih =>
    have h1 := dispatch_keeps_flags state e (h e (by simp))
    have h2 := ih (dispatch state e) (fun e' he' => h e' (by simp [he']))
    simp only [List.foldl]
    exact ⟨h2.1.trans h1.1, h2.2.trans h1.2⟩

theorem wait_loop_stopped (state : randr_state) (calls : List (Option (List event)))
    (h : state.running = false) : wait_loop state calls = some state := by
  unfold wait_loop
  simp [h]

theorem wait_loop_skips (pre : List (List event)) (state : randr_state)
    (calls : List (Option (List event))) (hrun : state.running = true)
    (hpre : ∀ evs ∈ pre, ∀ e ∈ evs, e.is_config = false) :
    ∃ state', wait_loop state (pre.map some ++ calls) = wait_loop state' calls ∧
      state'.running = true ∧ state'.failed = state.failed := by
  induction pre generalizing state with
  | nil => exact ⟨state, rfl, hrun, rfl⟩
  | cons evs t ih =>
    have hk := foldl_dispatch_keeps_flags evs state (hpre evs (by simp))
    obtain ⟨state', h1, h2, h3⟩ := ih (evs.foldl dispatch state) (hk.1.trans hrun)
      (fun evs' he' => hpre evs' (by simp [he']))
    refine ⟨state', ?_, h2, h3.trans hk.2⟩
    rw [← h1]
    conv_lhs => unfold wait_loop
    simp [hrun]

theorem wait_loop_resolution (state : randr_state) (before after : List event)
    (res : event) (rest : List (Option (List event))) (hrun : state.running = true)
    (hb : ∀ e ∈ before, e.is_config = false) (ha : ∀ e ∈ after, e.is_config = false)
    (hres : res.is_config = true) :
    ∃ state', wait_loop state (some (before ++ res :: after) :: rest) = some state' ∧
      state'.failed = (dispatch { state with running := true } res).failed ∧
      state'.failed = (state.failed || decide (res ≠ event.config_succeeded)) := by
  have hkb := foldl_dispatch_keeps_flags before state hb
  have hka := foldl_dispatch_keeps_flags after (dispatch (before.foldl dispatch state) res) ha
  have hstop : (dispatch (before.foldl dispatch state) res).running = false := by
    cases res <;> first | rfl | simp [event.is_config] at hres
  refine ⟨(before ++ res :: after).foldl dispatch state, ?_, ?_, ?_⟩
  · conv_lhs => unfold wait_loop
    simp only [hrun, Bool.not_true, Bool.false_eq_true, if_false]
    apply wait_loop_stopped
    rw [List.foldl_append, List.foldl_cons, hka.1, hstop]
  · rw [List.foldl_append, List.foldl_cons, hka.2]
    cases res <;> first | (simp [event.is_config] at hres; done) | skip
    · exact hkb.2
    · rfl
    · rfl
  · rw [List.foldl_append, List.foldl_cons, hka.2]
    cases res <;> first | (simp [event.is_config] at hres; done) | skip
    · simpa [dispatch, config_handle_succeeded] using hkb.2
    · simp [dispatch, config_handle_failed]
    · simp [dispatch, config_handle_cancelled]

/-- C10: each of the three resolution handlers ends the wait (`running` becomes false);
`failed` is left as it was by the succeeded handler and set by the failed and cancelled
handlers.  Hence for a submitted transaction (`running`, not `failed`), when the calls
of `wl_display_dispatch` deliver only mirror events until one call delivers the
resolution event, `main` returns: `EXIT_SUCCESS` when it is succeeded, `EXIT_FAILURE`
when it is failed or cancelled. -/
theorem resolution_decides_exit_status (state : randr_state)
    (pre : List (List event)) (before after : List event)
    (rest : List (Option (List event)))
    (hrun : state.running = true) (hok : state.failed = false)
    (hpre : ∀ evs ∈ pre, ∀ e ∈ evs, e.is_config = false)
    (hb : ∀ e ∈ before, e.is_config = false) (ha : ∀ e ∈ after, e.is_config = false) :
    ((config_handle_succeeded state).running = false ∧
      (config_handle_succeeded state).failed = state.failed) ∧
    ((config_handle_failed state).running = false ∧
      (config_handle_failed state).failed = true) ∧
    ((config_handle_cancelled state).running = false ∧
      (config_handle_cancelled state).failed = true) ∧
    main_wait state (pre.map some ++
      some (before ++ event.config_succeeded :: after) :: rest) = some EXIT_SUCCESS ∧
    main_wait state (pre.map some ++
      some (before ++ event.config_failed :: after) :: rest) = some EXIT_FAILURE ∧
    main_wait state (pre.map some ++
      some (before ++ event.config_cancelled :: after) :: rest) = some EXIT_FAILURE := by
  refine ⟨⟨rfl, rfl⟩, ⟨rfl, rfl⟩, ⟨rfl, rfl⟩, ?_, ?_, ?_⟩
  · obtain ⟨s1, h1, h2, h3⟩ := wait_loop_skips pre state
      (some (before ++ event.config_succeeded :: after) :: rest) hrun hpre
    obtain ⟨s2, h4, -, h6⟩ := wait_loop_resolution s1 before after event.config_succeeded
      rest h2 hb ha rfl
    simp only [main_wait, h1, h4, Option.map_some', exit_status, h6, h3, hok]
    simp
  · obtain ⟨s1, h1, h2, h3⟩ := wait_loop_skips pre state
      (some (before ++ event.config_failed :: after) :: rest) hrun hpre
    obtain ⟨s2, h4, -, h6⟩ := wait_loop_resolution s1 before after event.config_failed
      rest h2 hb ha rfl
    simp only [main_wait, h1, h4, Option.map_some', exit_status, h6, h3, hok]
    simp
  · obtain ⟨s1, h1, h2, h3⟩ := wait_loop_skips pre state
      (some (before ++ event.config_cancelled :: after) :: rest) hrun hpre
    obtain ⟨s2, h4, -, h6⟩ := wait_loop_resolution s1 before after event.config_cancelled
      rest h2 hb ha rfl
    simp only [main_wait, h1, h4, Option.map_some', exit_status, h6, h3, hok]
    simp

theorem resolution_decides_exit_status_witness :
    main_wait sample_pending_state
      ([[event.head_position 1 0 0]].map some ++
        some ([event.manager_done 8] ++ event.config_cancelled :: []) :: []) =
      some EXIT_FAILURE :=
  (resolution_decides_exit_status sample_pending_state [[event.head_position 1 0 0]]
    [event.manager_done 8] [] [] rfl rfl (by decide) (by decide) (by decide)).2.2.2.2.2

/-! ## `strtol` -/

theorem takeWhile_dropWhile_split (p : Char → Bool) (a b : List Char)
    (ha : ∀ c ∈ a, p c = true) (hb : starts_without p b) :
    (a ++ b).takeWhile p = a ∧ (a ++ b).dropWhile p = b := by
  induction a with
  | nil =>
    cases b with
    | nil => simp
    | cons c t =>
      have := hb c t rfl
      simp [List.takeWhile, List.dropWhile, this]
  | cons c t ih =>
    have hc := ha c (by simp)
    have := ih (fun d hd => ha d (by simp [hd]))
    simp [List.takeWhile, List.dropWhile, hc, this]

theorem starts_without_dropWhile (p : Char → Bool) (s : List Char) :
    starts_without p (s.dropWhile p) := by
  intro c t h
  have := List.head?_dropWhile_not p s
  rw [h] at this
  simpa using this

theorem c_isdigit_iff (c : Char) : c_isdigit c = true ↔ 48 ≤ c.toNat ∧ c.toNat ≤ 57 := by
  unfold c_isdigit
  simp only [Bool.and_eq_true, decide_eq_true_eq]
  exact Iff.rfl

theorem digit_not_space (c : Char) (h : c_isdigit c = true) : c_isspace c = false := by
  rw [c_isdigit_iff] at h
  obtain ⟨h1, -⟩ := h
  unfold c_isspace
  simp only [Bool.or_eq_false_iff, beq_eq_false_iff_ne, ne_eq]
  refine ⟨⟨⟨⟨⟨?_, ?_⟩, ?_⟩, ?_⟩, ?_⟩, ?_⟩ <;> (intro h; subst h; revert h1; decide)

theorem digit_not_sign (c : Char) (h : c_isdigit c = true) : c ≠ '-' ∧ c ≠ '+' := by
  rw [c_isdigit_iff] at h
  obtain ⟨h1, -⟩ := h
  constructor <;> (intro h; subst h; revert h1; decide)

theorem scan_sign_other (c : Char) (t : List Char) (h1 : c ≠ '-') (h2 : c ≠ '+') :
    scan_sign (c :: t) = (false, c :: t) := by
  unfold scan_sign
  split
  · rename_i heq; simp only [List.cons.injEq] at heq; exact absurd heq.1 h1
  · rename_i heq; simp only [List.cons.injEq] at heq; exact absurd heq.1 h2
  · rfl

theorem scan_sign_digit (c : Char) (t : List Char) (h : c_isdigit c = true) :
    scan_sign (c :: t) = (false, c :: t) :=
  scan_sign_other c t (digit_not_sign c h).1 (digit_not_sign c h).2

/-- On the text of an integer followed by something that is not a digit, `strtol` returns
the integer, saturated to the range of `long`, and stops right after the text. -/
theorem strtol_int_text (s rest : List Char) (v : Int) (h : is_int_text s v)
    (hr : starts_without c_isdigit rest) :
    strtol (s ++ rest) = (saturate_long v, rest) := by
  obtain ⟨ws, sg, ds, hs, hws, hne, hds, hv⟩ := h
  obtain ⟨d, dt, rfl⟩ := List.exists_cons_of_ne_nil hne
  have hd : c_isdigit d = true := hds d (by simp)
  have hdig := takeWhile_dropWhile_split c_isdigit (d :: dt) rest hds hr
  have hsp : starts_without c_isspace (sg ++ (d :: dt) ++ rest) := by
    intro c t hc
    rcases hv with ⟨hsg | hsg, -⟩ | ⟨hsg, -⟩ <;> subst hsg <;>
      simp only [List.nil_append, List.cons_append, List.cons.injEq] at hc <;>
      obtain ⟨rfl, -⟩ := hc
    · exact digit_not_space _ hd
    · decide
    · decide
  have hdrop : (s ++ rest).dropWhile c_isspace = sg ++ (d :: dt) ++ rest := by
    rw [hs]
    have := (takeWhile_dropWhile_split c_isspace ws _ hws hsp).2
    simpa [List.append_assoc] using this
  unfold strtol
  simp only [hdrop]
  rcases hv with ⟨hsg | hsg, hval⟩ | ⟨hsg, hval⟩ <;> subst hsg
  · have hss : scan_sign ([] ++ (d :: dt) ++ rest) = (false, (d :: dt) ++ rest) := by
      simpa using scan_sign_digit d (dt ++ rest) hd
    simp only [hss, hdig.1, hdig.2, hval]
    simp
  · have hss : scan_sign (['+'] ++ (d :: dt) ++ rest) = (false, (d :: dt) ++ rest) := rfl
    simp only [hss, hdig.1, hdig.2, hval]
    simp
  · have hss : scan_sign (['-'] ++ (d :: dt) ++ rest) = (true, (d :: dt) ++ rest) := rfl
    simp only [hss, hdig.1, hdig.2, hval]
    simp

theorem scan_sign_cases (s : List Char) :
    (s = (if (scan_sign s).1 then ['-'] else []) ++ (scan_sign s).2 ∨
      ((scan_sign s).1 = false ∧ s = ['+'] ++ (scan_sign s).2)) := by
  rcases s with _ | ⟨c, t⟩
  · left; rfl
  · by_cases h1 : c = '-'
    · subst h1; left; rfl
    · by_cases h2 : c = '+'
      · subst h2; right; exact ⟨rfl, rfl⟩
      · left; rw [scan_sign_other c t h1 h2]; rfl

/-- When `strtol` converts something (`end` differs from `nptr`), the string is the text
of an integer followed by `end`, the value is that integer saturated, and `end` does not
start with a digit. -/
theorem strtol_converted (s : List Char) (h : same_ptr s (strtol s).2 = false) :
    ∃ s1 v, is_int_text s1 v ∧ s = s1 ++ (strtol s).2 ∧ (strtol s).1 = saturate_long v ∧
      starts_without c_isdigit (strtol s).2 := by
  unfold strtol at h ⊢
  by_cases hemp : ((scan_sign (s.dropWhile c_isspace)).2.takeWhile c_isdigit).isEmpty = true
  · simp only [hemp, if_true] at h
    simp [same_ptr] at h
  · simp only [hemp]
    simp only [Bool.false_eq_true, if_false]
    have hne : (scan_sign (s.dropWhile c_isspace)).2.takeWhile c_isdigit ≠ [] := by
      intro h0; rw [h0] at hemp; simp at hemp
    have hsplit : s = s.takeWhile c_isspace ++ s.dropWhile c_isspace :=
      (List.takeWhile_append_dropWhile c_isspace s).symm
    have hsplit2 := (List.takeWhile_append_dropWhile c_isdigit
      (scan_sign (s.dropWhile c_isspace)).2).symm
    have hws : ∀ c ∈ s.takeWhile c_isspace, c_isspace c = true :=
      fun c hc => List.mem_takeWhile_imp hc
    have hds : ∀ c ∈ (scan_sign (s.dropWhile c_isspace)).2.takeWhile c_isdigit,
        c_isdigit c = true := fun c hc => List.mem_takeWhile_imp hc
    rcases scan_sign_cases (s.dropWhile c_isspace) with hsg | ⟨hf, hsg⟩
    · cases hneg : (scan_sign (s.dropWhile c_isspace)).1
      · refine ⟨s.takeWhile c_isspace ++ [] ++
          (scan_sign (s.dropWhile c_isspace)).2.takeWhile c_isdigit, _,
          ⟨_, _, _, rfl, hws, hne, hds, Or.inl ⟨Or.inl rfl, rfl⟩⟩, ?_, by simp,
          starts_without_dropWhile _ _⟩
        rw [hneg] at hsg
        simp only [Bool.false_eq_true, if_false, List.nil_append] at hsg
        rw [List.append_nil, List.append_assoc, ← hsplit2, ← hsg]
        exact hsplit
      · refine ⟨s.takeWhile c_isspace ++ ['-'] ++
          (scan_sign (s.dropWhile c_isspace)).2.takeWhile c_isdigit, _,
          ⟨_, _, _, rfl, hws, hne, hds, Or.inr ⟨rfl, rfl⟩⟩, ?_, by simp,
          starts_without_dropWhile _ _⟩
        rw [hneg] at hsg
        simp only [if_true] at hsg
        rw [List.append_assoc, List.append_assoc, ← hsplit2, ← hsg]
        exact hsplit
    · refine ⟨s.takeWhile c_isspace ++ ['+'] ++
        (scan_sign (s.dropWhile c_isspace)).2.takeWhile c_isdigit, _,
        ⟨_, _, _, rfl, hws, hne, hds, Or.inl ⟨Or.inr rfl, rfl⟩⟩, ?_, by simp [hf],
        starts_without_dropWhile _ _⟩
      rw [List.append_assoc, List.append_assoc, ← hsplit2, ← hsg]
      exact hsplit

/-! ## Binary64 rounding -/

theorem bit_length_aux_zero (fuel : Nat) : bit_length_aux fuel 0 = 0 := by
  cases fuel <;> simp [bit_length_aux]

theorem bit_length_aux_bounds (fuel : Nat) : ∀ n, n ≤ fuel → n ≠ 0 →
    2 ^ bit_length_aux fuel n ≤ 2 * n ∧ n < 2 ^ bit_length_aux fuel n := by
  induction fuel with
  | zero => intro n h1 h2; omega
  | succ f ih =>
    intro n h1 h2
    simp only [bit_length_aux, h2, if_false]
    by_cases h0 : n / 2 = 0
    · rw [h0, bit_length_aux_zero]
      have : n = 1 := by omega
      subst this
      simp
    · have := ih (n / 2) (by omega) h0
      rw [pow_succ]
      omega

theorem bit_length_bounds (n : Nat) (h : n ≠ 0) :
    2 ^ bit_length n ≤ 2 * n ∧ n < 2 ^ bit_length n :=
  bit_length_aux_bounds n n le_rfl h

theorem two_zpow_split (k : Int) : (2 : ℚ) ^ k = 2 ^ k.toNat / 2 ^ (-k).toNat := by
  rcases le_total 0 k with h | h
  · have h1 : (-k).toNat = 0 := by omega
    rw [h1, pow_zero, div_one]
    conv_lhs => rw [← Int.toNat_of_nonneg h]
    rw [zpow_natCast]
  · have h1 : k.toNat = 0 := by omega
    have h2 : k = -((-k).toNat : Int) := by omega
    rw [h1, pow_zero]
    conv_lhs => rw [h2]
    rw [zpow_neg, zpow_natCast, one_div]

theorem floor_log2_spec (num den : Nat) (hn : 0 < num) (hd : 0 < den) :
    (2 : ℚ) ^ floor_log2 num den ≤ (num : ℚ) / den ∧
    (num : ℚ) / den < 2 ^ (floor_log2 num den + 1) := by
  obtain ⟨ha1, ha2⟩ := bit_length_bounds num (by omega)
  obtain ⟨hb1, hb2⟩ := bit_length_bounds den (by omega)
  have hdq : (0 : ℚ) < den := by exact_mod_cast hd
  have hnq : (0 : ℚ) < num := by exact_mod_cast hn
  have ha1q : (2 : ℚ) ^ bit_length num ≤ 2 * num := by exact_mod_cast ha1
  have ha2q : (num : ℚ) < 2 ^ bit_length num := by exact_mod_cast ha2
  have hb1q : (2 : ℚ) ^ bit_length den ≤ 2 * den := by exact_mod_cast hb1
  have hb2q : (den : ℚ) < 2 ^ bit_length den := by exact_mod_cast hb2
  have hk : (2 : ℚ) ^ ((bit_length num : Int) - (bit_length den : Int)) =
      2 ^ bit_length num / 2 ^ bit_length den := by
    rw [zpow_sub₀ (by norm_num), zpow_natCast, zpow_natCast]
  have hpa : (0 : ℚ) < 2 ^ bit_length num := by positivity
  have hpb : (0 : ℚ) < 2 ^ bit_length den := by positivity
  unfold floor_log2
  simp only
  split
  · rename_i hc
    constructor
    · rw [two_zpow_split, div_le_div_iff₀ (by positivity) hdq]
      have : ((den * 2 ^ ((bit_length num : Int) - (bit_length den : Int)).toNat : Nat) : ℚ) ≤
          ((num * 2 ^ (-((bit_length num : Int) - (bit_length den : Int))).toNat : Nat) : ℚ) := by
        exact_mod_cast hc
      push_cast at this
      linarith
    · rw [zpow_add₀ (by norm_num), hk, zpow_one, div_lt_iff₀ hdq, div_mul_eq_mul_div,
        div_mul_eq_mul_div, lt_div_iff₀ hpb]
      nlinarith
  · rename_i hc
    have hc' : ((num * 2 ^ (-((bit_length num : Int) - (bit_length den : Int))).toNat : Nat) : ℚ) <
        ((den * 2 ^ ((bit_length num : Int) - (bit_length den : Int)).toNat : Nat) : ℚ) := by
      exact_mod_cast Nat.lt_of_not_le hc
    push_cast at hc'
    constructor
    · rw [zpow_sub₀ (by norm_num), hk, zpow_one, le_div_iff₀ hdq, div_div, div_mul_eq_mul_div,
        div_le_iff₀ (by positivity)]
      nlinarith
    · rw [sub_add_cancel, two_zpow_split, div_lt_div_iff₀ hdq (by positivity)]
      linarith

theorem div_round_even_spec (n d : Nat) (hd : 0 < d) :
    |(div_round_even n d : ℚ) - (n : ℚ) / d| ≤ 1 / 2 := by
  have hdq : (0 : ℚ) < d := by exact_mod_cast hd
  have hdiv : (n : ℚ) = d * (n / d : Nat) + (n % d : Nat) := by
    exact_mod_cast (Nat.div_add_mod n d).symm
  have hr : n % d < d := Nat.mod_lt n hd
  have hrq : ((n % d : Nat) : ℚ) < d := by exact_mod_cast hr
  have hr0 : (0 : ℚ) ≤ ((n % d : Nat) : ℚ) := by positivity
  have key : (n : ℚ) / d = (n / d : Nat) + ((n % d : Nat) : ℚ) / d := by
    field_simp
    linarith
  unfold div_round_even
  simp only
  rw [key]
  have hfrac : (0 : ℚ) ≤ ((n % d : Nat) : ℚ) / d := by positivity
  have hfrac1 : ((n % d : Nat) : ℚ) / d < 1 := by rw [div_lt_one hdq]; exact hrq
  split
  · rename_i h
    have : (2 * (n % d : Nat) : ℚ) < d := by exact_mod_cast h
    have : ((n % d : Nat) : ℚ) / d < 1 / 2 := by rw [div_lt_iff₀ hdq]; linarith
    rw [abs_le]; constructor <;> linarith
  · split
    · rename_i h1 h
      have : (d : ℚ) < 2 * (n % d : Nat) := by exact_mod_cast h
      have : (1 : ℚ) / 2 < ((n % d : Nat) : ℚ) / d := by rw [lt_div_iff₀ hdq]; linarith
      push_cast
      rw [abs_le]; constructor <;> linarith
    · rename_i h1 h2
      have he : 2 * (n % d) = d := by omega
      have : (2 * (n % d : Nat) : ℚ) = d := by exact_mod_cast he
      have : ((n % d : Nat) : ℚ) / d = 1 / 2 := by rw [div_eq_iff hdq.ne']; linarith
      split
      · rw [abs_le]; constructor <;> linarith
      · push_cast
        rw [abs_le]; constructor <;> linarith

theorem scaled_ratio (num den : Nat) (e : Int) (hd : 0 < den) :
    ((num * 2 ^ (-e).toNat : Nat) : ℚ) / ((den * 2 ^ e.toNat : Nat) : ℚ) =
      (num : ℚ) / den / 2 ^ e := by
  have hdq : (0 : ℚ) < den := by exact_mod_cast hd
  rw [two_zpow_split e]
  push_cast
  field_simp

/-- The relative error of rounding to binary64 in the normal range is at most `2^-53`. -/
theorem round_to_double_normal (num den : Nat) (hn : 0 < num) (hd : 0 < den)
    (hlo : (2 : ℚ) ^ (-1022 : Int) ≤ (num : ℚ) / den)
    (hhi : (num : ℚ) / den < 2 ^ (1023 : Int)) :
    ∃ m e, round_to_double false num den = C_double.finite false m e ∧
      |(m : ℚ) * 2 ^ e - (num : ℚ) / den| ≤ (num : ℚ) / den * 2 ^ (-53 : Int) := by
  obtain ⟨hf1, hf2⟩ := floor_log2_spec num den hn hd
  have hdq : (0 : ℚ) < den := by exact_mod_cast hd
  have hge : -1022 ≤ floor_log2 num den := by
    have := lt_of_le_of_lt hlo hf2
    rw [zpow_lt_zpow_iff_right₀ (by norm_num)] at this
    omega
  have hle : floor_log2 num den ≤ 1022 := by
    have := lt_of_le_of_lt hf1 hhi
    rw [zpow_lt_zpow_iff_right₀ (by norm_num)] at this
    omega
  have he : max (floor_log2 num den - 52) (-1074) = floor_log2 num den - 52 := by omega
  refine ⟨div_round_even (num * 2 ^ (-(floor_log2 num den - 52)).toNat)
    (den * 2 ^ (floor_log2 num den - 52).toNat), floor_log2 num den - 52, ?_, ?_⟩
  · unfold round_to_double
    rw [if_neg (by omega)]
    simp only [he]
    rw [if_neg (by omega)]
  · have hpos : 0 < den * 2 ^ (floor_log2 num den - 52).toNat := by positivity
    have hdre := div_round_even_spec (num * 2 ^ (-(floor_log2 num den - 52)).toNat)
      (den * 2 ^ (floor_log2 num den - 52).toNat) hpos
    rw [scaled_ratio num den _ hd] at hdre
    have h2e : (0 : ℚ) < 2 ^ (floor_log2 num den - 52) := by positivity
    have hx : ∀ (m q t : ℚ), 0 < t → |m - q / t| ≤ 1 / 2 → |m * t - q| ≤ t / 2 := by
      intro m q t ht h
      have : m * t - q = (m - q / t) * t := by field_simp
      rw [this, abs_mul, abs_of_pos ht]
      calc |m - q / t| * t ≤ 1 / 2 * t := by
            exact mul_le_mul_of_nonneg_right h ht.le
        _ = t / 2 := by ring
    have h1 := hx _ _ _ h2e hdre
    have h2 : (2 : ℚ) ^ (floor_log2 num den - 52) / 2 =
        2 ^ floor_log2 num den * 2 ^ (-53 : Int) := by
      have e1 : (2 : ℚ) ^ (-52 : Int) / 2 = 2 ^ (-53 : Int) := by norm_num
      rw [show floor_log2 num den - 52 = floor_log2 num den + (-52) by ring,
        zpow_add₀ (by norm_num : (2 : ℚ) ≠ 0), mul_div_assoc, e1]
    rw [h2] at h1
    calc _ ≤ (2 : ℚ) ^ floor_log2 num den * 2 ^ (-53 : Int) := h1
      _ ≤ (num : ℚ) / den * 2 ^ (-53 : Int) := by
        exact mul_le_mul_of_nonneg_right hf1 (by positivity)

theorem nat_eq_of_abs_lt_half (a k : Nat) (h : |(a : ℚ) - k| < 1 / 2) : a = k := by
  rw [abs_lt] at h
  have h1 : (a : ℚ) < k + 1 := by linarith [h.2]
  have h2 : (k : ℚ) < a + 1 := by linarith [h.1]
  have h1' : a < k + 1 := by exact_mod_cast h1
  have h2' : k < a + 1 := by exact_mod_cast h2
  omega

theorem c_round_near (m : Nat) (e : Int) (k : Nat)
    (h : |(m : ℚ) * 2 ^ e - k| < 1 / 2) :
    c_round (C_double.finite false m e) = C_double.finite false k 0 := by
  simp only [c_round]
  by_cases he : 0 ≤ e
  · rw [if_pos he]
    have : (m : ℚ) * 2 ^ e = ((m * 2 ^ e.toNat : Nat) : ℚ) := by
      rw [two_zpow_split, show (-e).toNat = 0 by omega]
      push_cast
      simp
    rw [this] at h
    rw [nat_eq_of_abs_lt_half _ _ h]
  · rw [if_neg he]
    have hs : (m : ℚ) * 2 ^ e = (m : ℚ) / 2 ^ (-e).toNat := by
      rw [two_zpow_split, show e.toNat = 0 by omega]
      simp [div_eq_mul_inv]
    rw [hs, abs_lt] at h
    have hp : (0 : ℚ) < 2 ^ (-e).toNat := by positivity
    have h1 : (k : ℚ) * 2 ^ (-e).toNat - 2 ^ (-e).toNat / 2 < m := by
      have := h.1
      have h3 : (k : ℚ) - 1 / 2 < (m : ℚ) / 2 ^ (-e).toNat := by linarith
      rw [lt_div_iff₀ hp] at h3
      linarith
    have h2 : (m : ℚ) < (k : ℚ) * 2 ^ (-e).toNat + 2 ^ (-e).toNat / 2 := by
      have := h.2
      have h3 : (m : ℚ) / 2 ^ (-e).toNat < (k : ℚ) + 1 / 2 := by linarith
      rw [div_lt_iff₀ hp] at h3
      linarith
    have e1 : (2 * m + 2 ^ (-e).toNat) / (2 * 2 ^ (-e).toNat) = k := by
      apply Nat.div_eq_of_lt_le
      · have : (k : ℚ) * (2 * 2 ^ (-e).toNat) ≤ 2 * m + 2 ^ (-e).toNat := by linarith
        exact_mod_cast this
      · have : (2 * (m : ℚ) + 2 ^ (-e).toNat) < ((k : ℚ) + 1) * (2 * 2 ^ (-e).toNat) := by
          linarith
        exact_mod_cast this
    rw [e1]

theorem double_to_int_nat (k : Nat) (hk : k ≤ 2 ^ 31 - 1) :
    double_to_int (C_double.finite false k 0) = (k : Int) := by
  unfold double_to_int INT_MIN INT_MAX
  simp only [le_refl, if_true, Int.toNat_zero, pow_zero, mul_one, Bool.false_eq_true, if_false]
  rw [if_pos]
  constructor
  · omega
  · norm_num at hk ⊢
    omega

/-- The refresh computed from a double `m * 2^e` within relative error `2^-53` of `q`,
when `q` is at least `2^-1022` and `1000 * q` is within `1/2 - 2^-20` of the integer `k`
in the range of `int`: `(int) round(refresh_hz * 1000)` is `k`, and `refresh_hz <= 0` is
false. -/
theorem refresh_from_double (m : Nat) (e : Int) (q : ℚ) (k : Nat)
    (hx : |(m : ℚ) * 2 ^ e - q| ≤ q * 2 ^ (-53 : Int))
    (hlo : (2 : ℚ) ^ (-1022 : Int) ≤ q) (hk2 : k ≤ 2 ^ 31 - 1)
    (hq : |1000 * q - k| ≤ 1 / 2 - 2 ^ (-20 : Int)) :
    double_to_int (c_round (c_mul_1000 (C_double.finite false m e))) = (k : Int) ∧
    c_le_zero (C_double.finite false m e) = false := by
  have d53 : (2 : ℚ) ^ (-53 : Int) = 1 / 9007199254740992 := by norm_num
  have d20 : (2 : ℚ) ^ (-20 : Int) = 1 / 1048576 := by norm_num
  rw [d53] at hx
  rw [d20] at hq
  rw [abs_le] at hx hq
  have hk2q : (k : ℚ) ≤ 2147483647 := by
    have : k ≤ 2147483647 := by norm_num at hk2; exact hk2
    exact_mod_cast this
  have hqpos : (0 : ℚ) < q := lt_of_lt_of_le (by positivity) hlo
  have hxpos : (0 : ℚ) < (m : ℚ) * 2 ^ e := by linarith [hx.1]
  have hm : 0 < m := by
    rcases Nat.eq_zero_or_pos m with h0 | h0
    · rw [h0] at hxpos; simp at hxpos
    · exact h0
  refine ⟨?_, by simp [c_le_zero]; omega⟩
  have hratio : ((m * 1000 * 2 ^ e.toNat : Nat) : ℚ) / ((2 ^ (-e).toNat : Nat) : ℚ) =
      1000 * ((m : ℚ) * 2 ^ e) := by
    rw [two_zpow_split e]
    push_cast
    field_simp
    ring
  have hnum : 0 < m * 1000 * 2 ^ e.toNat := by positivity
  have hden : 0 < 2 ^ (-e).toNat := by positivity
  obtain ⟨m', e', hr, herr⟩ := round_to_double_normal _ _ hnum hden
    (by
      rw [hratio]
      refine le_trans hlo ?_
      linarith [hx.1])
    (by
      rw [hratio]
      have h2 : (2 : ℚ) ^ (32 : Int) ≤ 2 ^ (1023 : Int) :=
        zpow_le_zpow_right₀ (by norm_num) (by norm_num)
      have h4 : (2 : ℚ) ^ (32 : Int) = 4294967296 := by norm_num
      rw [h4] at h2
      refine lt_of_lt_of_le ?_ h2
      linarith [hx.2, hq.2])
  rw [hratio, d53, abs_le] at herr
  have hnear : |(m' : ℚ) * 2 ^ e' - k| < 1 / 2 := by
    rw [abs_lt]
    constructor <;> linarith [herr.1, herr.2, hx.1, hx.2, hq.1, hq.2]
  simp only [c_mul_1000, hr]
  rw [c_round_near m' e' k hnear, double_to_int_nat k hk2]

/-! ## `strtod` and `parse_mode` on well-formed text -/

theorem digit_cases (c : Char) (h : c_isdigit c = true) : c ∈ "0123456789".toList := by
  rw [c_isdigit_iff] at h
  obtain ⟨h1, h2⟩ := h
  have hc : Char.ofNat c.toNat = c := Char.ofNat_toNat c
  generalize c.toNat = n at h1 h2 hc
  subst hc
  interval_cases n <;> decide

theorem starts_with_ci_head (w0 d : Char) (w t : List Char)
    (h : starts_with_ci (w0 :: w) (d :: t) = true) : d.toLower = w0 := by
  unfold starts_with_ci at h
  simp only [List.length_cons, List.take_succ_cons, List.map_cons] at h
  have := beq_iff_eq.mp h
  simp only [List.cons.injEq] at this
  exact this.1

theorem digit_no_word (d : Char) (t : List Char) (h : c_isdigit d = true) :
    starts_with_ci "infinity".toList (d :: t) = false ∧
    starts_with_ci "inf".toList (d :: t) = false ∧
    starts_with_ci "nan".toList (d :: t) = false := by
  have hd := digit_cases d h
  have key : d.toLower ≠ 'i' ∧ d.toLower ≠ 'n' := by
    revert hd
    generalize d = c
    revert c
    decide
  refine ⟨?_, ?_, ?_⟩ <;>
  · rw [Bool.eq_false_iff]
    intro hc
    have := starts_with_ci_head _ _ _ _ hc
    first | exact key.1 this | exact key.2 this

theorem no_hex_start (d c2 : Char) (t : List Char) (h : c2.toLower ≠ 'x') :
    starts_with_ci "0x".toList (d :: c2 :: t) = false := by
  rw [Bool.eq_false_iff]
  intro hc
  unfold starts_with_ci at hc
  have := beq_iff_eq.mp hc
  simp [List.take] at this
  exact h this.2

theorem no_hex_start_single (d : Char) : starts_with_ci "0x".toList [d] = false := by
  rw [Bool.eq_false_iff]
  intro hc
  unfold starts_with_ci at hc
  have := beq_iff_eq.mp hc
  simp [List.take] at this

theorem digit_toLower_ne_x (c : Char) (h : c_isdigit c = true) : c.toLower ≠ 'x' := by
  have hd := digit_cases c h
  revert hd
  generalize c = c'
  revert c'
  decide

/-- The shape of `strtod_body` on a string that starts with a decimal digit and is not a
hexadecimal constant. -/
theorem strtod_body_decimal (s : List Char) (d : Char) (t : List Char) (hs : s = d :: t)
    (hd : c_isdigit d = true) (hx : starts_with_ci "0x".toList s = false)
    (ip fp r : List Char) (hm : scan_mantissa c_isdigit s = some (ip, fp, r))
    (he : scan_exponent 'e' 'E' r = (0, r)) :
    strtod s = (round_to_double false (digits_val (ip ++ fp)) (10 ^ fp.length), r) := by
  have hdrop : s.dropWhile c_isspace = s := by
    rw [hs, List.dropWhile_cons_of_neg]
    simp [digit_not_space d hd]
  have hsign : scan_sign s = (false, s) := by rw [hs]; exact scan_sign_digit d t hd
  obtain ⟨h1, h2, h3⟩ := digit_no_word d t hd
  rw [← hs] at h1 h2 h3
  unfold strtod
  simp only [hdrop, hsign]
  unfold strtod_body
  simp only [h1, h2, h3, hx, Bool.false_eq_true, if_false, hm, he]
  have e1 : ((0 : Int) - (fp.length : Int)).toNat = 0 := by omega
  have e2 : (-((0 : Int) - (fp.length : Int))).toNat = fp.length := by omega
  rw [e1, e2]
  simp

theorem strtod_decimal_point (ip fp rest : List Char) (hip : is_digits ip)
    (hfp : ∀ c ∈ fp, c_isdigit c = true) (hr : starts_without c_isdigit rest)
    (he : scan_exponent 'e' 'E' rest = (0, rest)) :
    strtod (ip ++ '.' :: (fp ++ rest)) =
      (round_to_double false (digits_val (ip ++ fp)) (10 ^ fp.length), rest) := by
  obtain ⟨hne, hds⟩ := hip
  obtain ⟨d, dt, rfl⟩ := List.exists_cons_of_ne_nil hne
  have hd : c_isdigit d = true := hds d (by simp)
  have hpt : starts_without c_isdigit ('.' :: (fp ++ rest)) := by
    intro c t hc
    simp only [List.cons.injEq] at hc
    obtain ⟨rfl, -⟩ := hc
    decide
  have h1 := takeWhile_dropWhile_split c_isdigit (d :: dt) _ hds hpt
  have h2 := takeWhile_dropWhile_split c_isdigit fp rest hfp hr
  have hm : scan_mantissa c_isdigit ((d :: dt) ++ '.' :: (fp ++ rest)) =
      some (d :: dt, fp, rest) := by
    unfold scan_mantissa
    simp only [h1.1, h1.2, h2.1, h2.2]
    simp
  have hx : starts_with_ci "0x".toList ((d :: dt) ++ '.' :: (fp ++ rest)) = false := by
    cases dt with
    | nil => exact no_hex_start d '.' _ (by decide)
    | cons d2 dt2 =>
      exact no_hex_start d d2 _ (digit_toLower_ne_x d2 (hds d2 (by simp)))
  exact strtod_body_decimal _ d (dt ++ '.' :: (fp ++ rest)) rfl hd hx _ _ _ hm he

theorem strtod_decimal_Hz (ip : List Char) (hip : is_digits ip) :
    strtod (ip ++ "Hz".toList) = (round_to_double false (digits_val ip) 1, "Hz".toList) := by
  obtain ⟨hne, hds⟩ := hip
  obtain ⟨d, dt, rfl⟩ := List.exists_cons_of_ne_nil hne
  have hd : c_isdigit d = true := hds d (by simp)
  have hr : starts_without c_isdigit "Hz".toList := by
    intro c t hc
    have : c = 'H' := by
      have := congrArg List.head? hc
      simpa using this.symm
    subst this
    decide
  have h1 := takeWhile_dropWhile_split c_isdigit (d :: dt) _ hds hr
  have hm : scan_mantissa c_isdigit ((d :: dt) ++ "Hz".toList) =
      some (d :: dt, [], "Hz".toList) := by
    unfold scan_mantissa
    simp only [h1.1, h1.2]
    rfl
  have hx : starts_with_ci "0x".toList ((d :: dt) ++ "Hz".toList) = false := by
    cases dt with
    | nil => exact no_hex_start d 'H' _ (by decide)
    | cons d2 dt2 =>
      exact no_hex_start d d2 _ (digit_toLower_ne_x d2 (hds d2 (by simp)))
  have := strtod_body_decimal _ d (dt ++ "Hz".toList) rfl hd hx _ _ _ hm rfl
  simpa using this

theorem is_int_text_of_digits (s : List Char) (h : is_digits s) :
    is_int_text s (digits_val s : Int) :=
  ⟨[], [], s, rfl, by simp, h.1, h.2, Or.inl ⟨Or.inl rfl, rfl⟩⟩

theorem is_int_text_ne_nil (s : List Char) (v : Int) (h : is_int_text s v) : s ≠ [] := by
  obtain ⟨ws, sg, ds, hs, -, hne, -, -⟩ := h
  intro h0
  rw [h0] at hs
  have := congrArg List.length hs
  simp only [List.length_nil, List.length_append] at this
  have : ds.length = 0 := by omega
  exact hne (List.length_eq_zero.mp this)

theorem same_ptr_append (a b : List Char) (h : a ≠ []) : same_ptr (a ++ b) b = false := by
  unfold same_ptr
  have : 0 < a.length := List.length_pos.mpr h
  simp only [List.length_append, beq_eq_false_iff_ne, ne_eq]
  omega

theorem long_to_int_saturate (v : Int) (h1 : INT_MIN ≤ v) (h2 : v ≤ INT_MAX) :
    long_to_int (saturate_long v) = v := by
  unfold INT_MIN at h1
  unfold INT_MAX at h2
  unfold long_to_int saturate_long LONG_MIN LONG_MAX
  have e1 : max (-(2 : Int) ^ 63) (min v (2 ^ 63 - 1)) = v := by omega
  rw [e1]
  omega

/-- The result of `parse_mode` on `<int>x<int>` followed by `rest`: the part of the
function after the height has been read. -/
theorem parse_mode_size (W H rest : List Char) (w h : Int) (hW : is_int_text W w)
    (hH : is_int_text H h) (hrest : starts_without c_isdigit rest) :
    parse_mode (W ++ 'x' :: (H ++ rest)) =
      if rest.isEmpty then
        some (long_to_int (saturate_long w), long_to_int (saturate_long h), 0)
      else if (if (rest.dropWhile (fun c => c == ' ')).take 2 == "px".toList
          then (rest.dropWhile (fun c => c == ' ')).drop 2
          else rest.dropWhile (fun c => c == ' ')).isEmpty then
        some (long_to_int (saturate_long w), long_to_int (saturate_long h), 0)
      else
        match parse_refresh (if (rest.dropWhile (fun c => c == ' ')).take 2 == "px".toList
          then (rest.dropWhile (fun c => c == ' ')).drop 2
          else rest.dropWhile (fun c => c == ' ')) with
        | some refresh =>
          some (long_to_int (saturate_long w), long_to_int (saturate_long h), refresh)
        | none => none := by
  have hx : starts_without c_isdigit ('x' :: (H ++ rest)) := by
    intro c t hc
    simp only [List.cons.injEq] at hc
    obtain ⟨rfl, -⟩ := hc
    decide
  have h1 := strtol_int_text W ('x' :: (H ++ rest)) w hW hx
  have h2 := strtol_int_text H rest h hH hrest
  unfold parse_mode
  simp only [h1, List.head?_cons, List.tail_cons, h2,
    same_ptr_append W _ (is_int_text_ne_nil W w hW),
    same_ptr_append H _ (is_int_text_ne_nil H h hH)]
  simp only [bne_self_eq_false, Bool.or_false, Bool.false_eq_true, if_false]
  try rfl

theorem dropWhile_space_digit (d : Char) (t : List Char) (hd : c_isspace d = false) :
    (d :: t).dropWhile (fun c => c == ' ') = d :: t := by
  rw [List.dropWhile_cons_of_neg]
  intro h
  have : d = ' ' := by simpa using h
  subst this
  simp [c_isspace] at hd

theorem strtod_decimal_text (ip fp : List Char) (point : Bool) (hip : is_digits ip)
    (hfp : ∀ c ∈ fp, c_isdigit c = true) (hpt : point = false → fp = []) :
    strtod (decimal_text ip fp point ++ "Hz".toList) =
      (round_to_double false (digits_val (ip ++ fp)) (10 ^ fp.length), "Hz".toList) := by
  cases point with
  | false =>
    have := hpt rfl
    subst this
    simpa [decimal_text] using strtod_decimal_Hz ip hip
  | true =>
    have hr : starts_without c_isdigit "Hz".toList := by
      intro c t hc
      have : c = 'H' := by
        have := congrArg List.head? hc
        simpa using this.symm
      subst this
      decide
    have := strtod_decimal_point ip fp "Hz".toList hip hfp hr rfl
    simpa [decimal_text] using this

theorem decimal_text_cons (ip fp : List Char) (point : Bool) (hip : is_digits ip) :
    ∃ d t, decimal_text ip fp point = d :: t ∧ c_isdigit d = true := by
  obtain ⟨hne, hds⟩ := hip
  obtain ⟨d, dt, rfl⟩ := List.exists_cons_of_ne_nil hne
  refine ⟨d, if point then dt ++ '.' :: fp else dt, ?_, hds d (by simp)⟩
  cases point <;> simp [decimal_text]

/-- The refresh part of `parse_mode` on `@<decimal>Hz`, when the number is at least
`2^-1022` and 1000 times the number is within `1/2 - 2^-20` of the `int` `k`: the
refresh is `k`. -/
theorem parse_refresh_decimal (ip fp : List Char) (point : Bool) (k : Nat)
    (hip : is_digits ip) (hfp : ∀ c ∈ fp, c_isdigit c = true) (hpt : point = false → fp = [])
    (hlo : (2 : ℚ) ^ (-1022 : Int) ≤ decimal_value ip fp) (hk2 : k ≤ 2 ^ 31 - 1)
    (hq : |1000 * decimal_value ip fp - k| ≤ 1 / 2 - 2 ^ (-20 : Int)) :
    parse_refresh ('@' :: (decimal_text ip fp point ++ "Hz".toList)) = some (k : Int) := by
  obtain ⟨d, t, htext, hd⟩ := decimal_text_cons ip fp point hip
  have hstr := strtod_decimal_text ip fp point hip hfp hpt
  have hq' := hq
  have d20 : (2 : ℚ) ^ (-20 : Int) = 1 / 1048576 := by norm_num
  rw [d20, abs_le] at hq'
  have hk2q : (k : ℚ) ≤ 2147483647 := by
    have : k ≤ 2147483647 := by norm_num at hk2; exact hk2
    exact_mod_cast this
  have hqpos : 0 < decimal_value ip fp := lt_of_lt_of_le (by positivity) hlo
  have hcast : decimal_value ip fp =
      ((digits_val (ip ++ fp) : Nat) : ℚ) / ((10 ^ fp.length : Nat) : ℚ) := by
    unfold decimal_value
    push_cast
    rfl
  have hden : 0 < 10 ^ fp.length := by positivity
  have hnum : 0 < digits_val (ip ++ fp) := by
    rcases Nat.eq_zero_or_pos (digits_val (ip ++ fp)) with h0 | h0
    · rw [hcast, h0] at hqpos; simp at hqpos
    · exact h0
  obtain ⟨m, e, hr, herr⟩ := round_to_double_normal _ _ hnum hden
    (by rw [← hcast]; exact hlo)
    (by
      rw [← hcast]
      have h2 : (2 : ℚ) ^ (32 : Int) ≤ 2 ^ (1023 : Int) :=
        zpow_le_zpow_right₀ (by norm_num) (by norm_num)
      have h4 : (2 : ℚ) ^ (32 : Int) = 4294967296 := by norm_num
      rw [h4] at h2
      refine lt_of_lt_of_le ?_ h2
      linarith [hq'.2])
  rw [← hcast] at herr
  obtain ⟨hval, hle⟩ := refresh_from_double m e (decimal_value ip fp) k herr hlo hk2 hq
  have hsame : same_ptr (decimal_text ip fp point ++ "Hz".toList) "Hz".toList = false :=
    same_ptr_append _ _ (by rw [htext]; simp)
  have hdrop : (decimal_text ip fp point ++ "Hz".toList).dropWhile (fun c => c == ' ') =
      decimal_text ip fp point ++ "Hz".toList := by
    rw [htext]
    exact dropWhile_space_digit d _ (digit_not_space d hd)
  unfold parse_refresh
  simp only [hdrop, hstr, hr, hsame, hle, hval]
  simp

theorem strtol_no_int (s : List Char) (h : no_int_start s) : strtol s = (0, s) := by
  rcases s with _ | ⟨c, t⟩
  · rfl
  · obtain ⟨h1, h2, h3, h4⟩ := h c t rfl
    have hdrop : (c :: t).dropWhile c_isspace = c :: t := by
      rw [List.dropWhile_cons_of_neg]; simp [h1]
    have htake : (c :: t).takeWhile c_isdigit = [] := by
      rw [List.takeWhile_cons_of_neg]; simp [h2]
    unfold strtol
    simp only [hdrop, scan_sign_other c t h4 h3, htake]
    rfl

theorem toLower_eq_zero (c : Char) (h : c.toLower = '0') : c = '0' := by
  unfold Char.toLower at h
  simp only at h
  split at h
  · rename_i hc
    exfalso
    obtain ⟨h1, h2⟩ := hc
    generalize c.toNat = n at h1 h2 h
    interval_cases n <;> revert h <;> decide
  · exact h

theorem strtod_no_number (s : List Char) (h : no_number_start s) :
    strtod s = (C_double.zero, s) := by
  rcases s with _ | ⟨c, t⟩
  · rfl
  · obtain ⟨h1, h2, h3, h4, h5, h6, h7⟩ := h c t rfl
    have hdrop : (c :: t).dropWhile c_isspace = c :: t := by
      rw [List.dropWhile_cons_of_neg]; simp [h1]
    have htake : (c :: t).takeWhile c_isdigit = [] := by
      rw [List.takeWhile_cons_of_neg]; simp [h2]
    have hdd : (c :: t).dropWhile c_isdigit = c :: t := by
      rw [List.dropWhile_cons_of_neg]; simp [h2]
    have w1 : starts_with_ci "infinity".toList (c :: t) = false := by
      rw [Bool.eq_false_iff]; intro hc
      exact h6 (starts_with_ci_head _ _ _ _ hc)
    have w2 : starts_with_ci "inf".toList (c :: t) = false := by
      rw [Bool.eq_false_iff]; intro hc
      exact h6 (starts_with_ci_head _ _ _ _ hc)
    have w3 : starts_with_ci "nan".toList (c :: t) = false := by
      rw [Bool.eq_false_iff]; intro hc
      exact h7 (starts_with_ci_head _ _ _ _ hc)
    have w4 : starts_with_ci "0x".toList (c :: t) = false := by
      rw [Bool.eq_false_iff]; intro hc
      have := toLower_eq_zero c (starts_with_ci_head _ _ _ _ hc)
      subst this
      simp [c_isdigit] at h2
    have hm : scan_mantissa c_isdigit (c :: t) = none := by
      unfold scan_mantissa
      simp only [htake, hdd]
      split
      · rename_i heq
        simp only [List.cons.injEq] at heq
        exact absurd heq.1 h5
      · rfl
    unfold strtod
    simp only [hdrop, scan_sign_other c t h4 h3]
    unfold strtod_body
    simp only [w1, w2, w3, w4, Bool.false_eq_true, if_false, hm]

theorem same_ptr_self (s : List Char) : same_ptr s s = true := by
  simp [same_ptr]

theorem parse_refresh_no_number (sep : Char) (rest : List Char)
    (h : no_number_start rest) : parse_refresh (sep :: rest) = none := by
  have hdrop : rest.dropWhile (fun c => c == ' ') = rest := by
    rcases rest with _ | ⟨c, t⟩
    · rfl
    · exact dropWhile_space_digit c t (h c t rfl).1
  unfold parse_refresh
  simp only [hdrop, strtod_no_number rest h, same_ptr_self]
  simp

theorem long_to_int_digits (n : Nat) (h : n ≤ 2 ^ 31 - 1) :
    long_to_int (saturate_long (n : Int)) = (n : Int) := by
  apply long_to_int_saturate
  · unfold INT_MIN; omega
  · unfold INT_MAX
    norm_num at h ⊢
    omega

theorem starts_without_digit_cons (c : Char) (t : List Char) (h : c_isdigit c = false) :
    starts_without c_isdigit (c :: t) := by
  intro c' t' hc
  simp only [List.cons.injEq] at hc
  rw [← hc.1]
  exact h

/-! ## C3: `parse_mode` -/

/-- C3, as the code has it.  For digit strings `W` and `H` with values in the range of
`int`: `parse_mode "WxH"` succeeds with the two values and refresh 0; for a decimal
number `R` (digits, optionally a point and digits) that is at least `2^-1022`,
`parse_mode "WxH@RHz"` succeeds with refresh `round (1000 * R)` whenever that integer is
in the range of `int` and `1000 * R` is within `1/2 - 2^-20` of it, in particular
whenever `R` is positive with at most three digits after the point (then `1000 * R` is
the integer).  `parse_mode` fails when what follows the width
does not start with `x`, when what follows the `x` cannot start an integer, and when what
follows the refresh separator cannot start a number. -/
theorem parse_mode_on_well_formed_specs :
    (∀ W H, is_digits W → is_digits H → digits_val W ≤ 2 ^ 31 - 1 →
      digits_val H ≤ 2 ^ 31 - 1 →
      parse_mode (W ++ 'x' :: H) = some ((digits_val W : Int), (digits_val H : Int), 0)) ∧
    (∀ W H ip fp point, is_digits W → is_digits H → digits_val W ≤ 2 ^ 31 - 1 →
      digits_val H ≤ 2 ^ 31 - 1 → is_digits ip → (∀ c ∈ fp, c_isdigit c = true) →
      (point = false → fp = []) →
      (2 : ℚ) ^ (-1022 : Int) ≤ decimal_value ip fp →
      round (1000 * decimal_value ip fp) ≤ 2 ^ 31 - 1 →
      |1000 * decimal_value ip fp - round (1000 * decimal_value ip fp)| ≤
        1 / 2 - 2 ^ (-20 : Int) →
      parse_mode (W ++ 'x' :: (H ++ '@' :: (decimal_text ip fp point ++ "Hz".toList))) =
        some ((digits_val W : Int), (digits_val H : Int),
          round (1000 * decimal_value ip fp))) ∧
    (∀ W H ip fp point, is_digits W → is_digits H → digits_val W ≤ 2 ^ 31 - 1 →
      digits_val H ≤ 2 ^ 31 - 1 → is_digits ip → (∀ c ∈ fp, c_isdigit c = true) →
      (point = false → fp = []) → fp.length ≤ 3 →
      1 ≤ digits_val (ip ++ fp) * 10 ^ (3 - fp.length) →
      digits_val (ip ++ fp) * 10 ^ (3 - fp.length) ≤ 2 ^ 31 - 1 →
      parse_mode (W ++ 'x' :: (H ++ '@' :: (decimal_text ip fp point ++ "Hz".toList))) =
        some ((digits_val W : Int), (digits_val H : Int),
          ((digits_val (ip ++ fp) * 10 ^ (3 - fp.length) : Nat) : Int))) ∧
    (∀ W w rest, is_int_text W w → starts_without c_isdigit rest →
      starts_without (fun c => c == 'x') rest → parse_mode (W ++ rest) = none) ∧
    (∀ W w rest, is_int_text W w → no_int_start rest →
      parse_mode (W ++ 'x' :: rest) = none) ∧
    (∀ W w H h sep rest, is_int_text W w → is_int_text H h → (sep = '@' ∨ sep = ',') →
      no_number_start rest → parse_mode (W ++ 'x' :: (H ++ sep :: rest)) = none) := by
  have main : ∀ W H ip fp point (k : Nat), is_digits W → is_digits H →
      digits_val W ≤ 2 ^ 31 - 1 → digits_val H ≤ 2 ^ 31 - 1 → is_digits ip →
      (∀ c ∈ fp, c_isdigit c = true) → (point = false → fp = []) →
      (2 : ℚ) ^ (-1022 : Int) ≤ decimal_value ip fp →
      k ≤ 2 ^ 31 - 1 → |1000 * decimal_value ip fp - k| ≤ 1 / 2 - 2 ^ (-20 : Int) →
      parse_mode (W ++ 'x' :: (H ++ '@' :: (decimal_text ip fp point ++ "Hz".toList))) =
        some ((digits_val W : Int), (digits_val H : Int), (k : Int)) := by
    intro W H ip fp point k hW hH hWr hHr hip hfp hpt hlo hk2 hq
    have hsz := parse_mode_size W H ('@' :: (decimal_text ip fp point ++ "Hz".toList)) _ _
      (is_int_text_of_digits W hW) (is_int_text_of_digits H hH)
      (starts_without_digit_cons '@' _ (by decide))
    have hdrop : ('@' :: (decimal_text ip fp point ++ "Hz".toList)).dropWhile
        (fun c => c == ' ') = '@' :: (decimal_text ip fp point ++ "Hz".toList) :=
      dropWhile_space_digit '@' _ (by decide)
    rw [hsz, hdrop, long_to_int_digits _ hWr, long_to_int_digits _ hHr]
    have hpx : (('@' :: (decimal_text ip fp point ++ "Hz".toList)).take 2 ==
        "px".toList) = false := by
      rw [Bool.eq_false_iff]
      intro hc
      have := beq_iff_eq.mp hc
      obtain ⟨d, t, htext, -⟩ := decimal_text_cons ip fp point hip
      rw [htext] at this
      simp [List.take] at this
    simp only [hpx, Bool.false_eq_true, if_false, List.isEmpty_cons,
      parse_refresh_decimal ip fp point k hip hfp hpt hlo hk2 hq]
  refine ⟨?_, ?_, ?_, ?_, ?_, ?_⟩
  · intro W H hW hH hWr hHr
    have hsz := parse_mode_size W H [] _ _ (is_int_text_of_digits W hW)
      (is_int_text_of_digits H hH) (by intro c t hc; simp at hc)
    rw [List.append_nil] at hsz
    rw [hsz, long_to_int_digits _ hWr, long_to_int_digits _ hHr]
    rfl
  · intro W H ip fp point hW hH hWr hHr hip hfp hpt hlo hk2 hq
    have hk0 : 0 ≤ round (1000 * decimal_value ip fp) := by
      have hpos : 0 < decimal_value ip fp := lt_of_lt_of_le (by positivity) hlo
      have d20 : (2 : ℚ) ^ (-20 : Int) = 1 / 1048576 := by norm_num
      have hq' := hq
      rw [d20, abs_le] at hq'
      have : (-1 : ℚ) < ((round (1000 * decimal_value ip fp) : Int) : ℚ) := by
        linarith [hq'.2]
      have : (-1 : Int) < round (1000 * decimal_value ip fp) := by exact_mod_cast this
      omega
    have hcast : ((round (1000 * decimal_value ip fp)).toNat : Int) =
        round (1000 * decimal_value ip fp) := Int.toNat_of_nonneg hk0
    have hcastq : (((round (1000 * decimal_value ip fp)).toNat : Nat) : ℚ) =
        ((round (1000 * decimal_value ip fp) : Int) : ℚ) := by
      rw [← Int.cast_natCast, hcast]
    have := main W H ip fp point (round (1000 * decimal_value ip fp)).toNat hW hH hWr hHr
      hip hfp hpt hlo (by norm_num at hk2 ⊢; omega) (by rw [hcastq]; exact hq)
    rw [this, hcast]
  · intro W H ip fp point hW hH hWr hHr hip hfp hpt hlen hk1 hk2
    have hval : 1000 * decimal_value ip fp =
        ((digits_val (ip ++ fp) * 10 ^ (3 - fp.length) : Nat) : ℚ) := by
      unfold decimal_value
      push_cast
      have h10 : (10 : ℚ) ^ fp.length ≠ 0 := by positivity
      field_simp
      have : (10 : ℚ) ^ (3 - fp.length) * 10 ^ fp.length = 1000 := by
        rw [← pow_add, Nat.sub_add_cancel hlen]; norm_num
      rw [mul_assoc, this]
      ring
    have hlo : (2 : ℚ) ^ (-1022 : Int) ≤ decimal_value ip fp := by
      have h2 : (2 : ℚ) ^ (-1022 : Int) ≤ 2 ^ (-10 : Int) :=
        zpow_le_zpow_right₀ (by norm_num) (by norm_num)
      have h4 : (2 : ℚ) ^ (-10 : Int) = 1 / 1024 := by norm_num
      rw [h4] at h2
      refine le_trans h2 ?_
      have hk1q : (1 : ℚ) ≤ ((digits_val (ip ++ fp) * 10 ^ (3 - fp.length) : Nat) : ℚ) := by
        exact_mod_cast hk1
      rw [← hval] at hk1q
      linarith
    refine main W H ip fp point _ hW hH hWr hHr hip hfp hpt hlo hk2 ?_
    rw [hval, sub_self, abs_zero]
    norm_num
  · intro W w rest hW hr hx
    have h1 := strtol_int_text W rest w hW hr
    unfold parse_mode
    have hh : (rest.head? != some 'x') = true := by
      rcases rest with _ | ⟨c, t⟩
      · rfl
      · have := hx c t rfl
        simp only [beq_eq_false_iff_ne, ne_eq] at this
        simp [this]
    simp only [h1, hh, Bool.true_or, if_true]
  · intro W w rest hW hr
    have hd : starts_without c_isdigit ('x' :: rest) :=
      starts_without_digit_cons 'x' _ (by decide)
    have h1 := strtol_int_text W ('x' :: rest) w hW hd
    unfold parse_mode
    simp only [h1, List.head?_cons, List.tail_cons, strtol_no_int rest hr, same_ptr_self,
      same_ptr_append W _ (is_int_text_ne_nil W w hW)]
    simp
  · intro W w H h sep rest hW hH hsep hr
    have hsd : c_isdigit sep = false := by rcases hsep with rfl | rfl <;> decide
    have hss : c_isspace sep = false := by rcases hsep with rfl | rfl <;> decide
    have hsz := parse_mode_size W H (sep :: rest) w h hW hH
      (starts_without_digit_cons sep _ hsd)
    have hdrop : (sep :: rest).dropWhile (fun c => c == ' ') = sep :: rest :=
      dropWhile_space_digit sep _ hss
    have hpx : ((sep :: rest).take 2 == "px".toList) = false := by
      rw [Bool.eq_false_iff]
      intro hc
      have := beq_iff_eq.mp hc
      rcases rest with _ | ⟨c, t⟩
      · simp [List.take] at this
      · simp [List.take] at this
        rcases hsep with rfl | rfl <;> simp at this
    rw [hsz, hdrop]
    simp only [hpx, Bool.false_eq_true, if_false, List.isEmpty_cons,
      parse_refresh_no_number sep rest hr]

theorem parse_mode_on_well_formed_specs_witness :
    parse_mode "1920x1080".toList = some (1920, 1080, 0) ∧
    parse_mode "1920x1080@60Hz".toList = some (1920, 1080, 60000) ∧
    parse_mode "1920x1080@59.94Hz".toList = some (1920, 1080, 59940) ∧
    parse_mode "1920".toList = none ∧
    parse_mode "1920xabc".toList = none ∧
    parse_mode "1920x1080@Hz".toList = none :=
  have hW : is_digits "1920".toList := ⟨by decide, by decide⟩
  have hH : is_digits "1080".toList := ⟨by decide, by decide⟩
  ⟨parse_mode_on_well_formed_specs.1 "1920".toList "1080".toList hW hH
      (by decide) (by decide),
   parse_mode_on_well_formed_specs.2.2.1 "1920".toList "1080".toList "60".toList [] false
      hW hH (by decide) (by decide) ⟨by decide, by decide⟩ (by decide) (by decide)
      (by decide) (by decide) (by decide),
   parse_mode_on_well_formed_specs.2.2.1 "1920".toList "1080".toList "59".toList
      "94".toList true hW hH (by decide) (by decide) ⟨by decide, by decide⟩ (by decide)
      (by decide) (by decide) (by decide) (by decide),
   parse_mode_on_well_formed_specs.2.2.2.1 "1920".toList 1920 []
      (is_int_text_of_digits _ hW) (by intro c t h; simp at h) (by intro c t h; simp at h),
   parse_mode_on_well_formed_specs.2.2.2.2.1 "1920".toList 1920 "abc".toList
      (is_int_text_of_digits _ hW)
      (by intro c t h
          have hc : c = 'a' := by
            have := congrArg List.head? h
            simpa using this.symm
          subst hc
          decide),
   parse_mode_on_well_formed_specs.2.2.2.2.2 "1920".toList 1920 "1080".toList 1080 '@'
      "Hz".toList (is_int_text_of_digits _ hW) (is_int_text_of_digits _ hH) (Or.inl rfl)
      (by intro c t h
          have hc : c = 'H' := by
            have := congrArg List.head? h
            simpa using this.symm
          subst hc
          decide)⟩

/-- C3 as stated fails on the code.  The width 2147483648 is a non-negative decimal
integer, and `parse_mode "2147483648x1"` succeeds with width -2147483648 (the `long` that
`strtol` returns does not fit the `int`).  The refresh 0.00049999999999999999 is a
positive decimal number with `round (1000 * R) = 0`, and
`parse_mode "1x1@0.00049999999999999999Hz"` succeeds with refresh 1 (the nearest double
is that of 0.0005, whose product with 1000 is 0.5). -/
theorem parse_mode_differs_from_exact_arithmetic :
    (digits_val "2147483648".toList = 2147483648 ∧
      parse_mode "2147483648x1".toList = some (-2147483648, 1, 0)) ∧
    (round (1000 * decimal_value "0".toList "00049999999999999999".toList) = 0 ∧
      parse_mode "1x1@0.00049999999999999999Hz".toList = some (1, 1, 1)) := by
  refine ⟨⟨by decide, by decide⟩, ?_, by decide⟩
  have hv : digits_val ("0".toList ++ "00049999999999999999".toList) = 49999999999999999 := by
    decide
  have hl : "00049999999999999999".toList.length = 20 := by decide
  unfold decimal_value
  rw [hv, hl, round_eq]
  norm_num [Int.floor_eq_iff]

/-! ## C4: the `pos` directive -/

/-- C4, as the code has it.  For a head and the directive `pos`: on a value of the form
`<int>,<int>` (each integer as `strtol` reads it, nothing after the second) the directive
succeeds, sets the position bit of the changed mask and stores the two integers converted
to `int`, which are the integers themselves when they are in the range of `int`; it fails
when the value does not start with an integer followed by a comma, and when anything
follows the second integer. -/
theorem pos_directive_parses_two_integers (version : Nat) (head : randr_head) :
    (∀ s1 s2 x y, is_int_text s1 x → is_int_text s2 y →
      parse_output_arg version head "pos".toList (s1 ++ ',' :: s2) =
        (true, { head with changed := head.changed ||| RANDR_HEAD_POSITION,
                           x := long_to_int (saturate_long x),
                           y := long_to_int (saturate_long y) })) ∧
    (∀ s1 s2 x y, is_int_text s1 x → is_int_text s2 y →
      INT_MIN ≤ x → x ≤ INT_MAX → INT_MIN ≤ y → y ≤ INT_MAX →
      parse_output_arg version head "pos".toList (s1 ++ ',' :: s2) =
        (true, { head with changed := head.changed ||| RANDR_HEAD_POSITION,
                           x := x, y := y })) ∧
    (head.changed ||| RANDR_HEAD_POSITION).testBit 1 = true ∧
    (∀ value, (parse_output_arg version head "pos".toList value).1 = true →
      ∃ s1 x rest, is_int_text s1 x ∧ value = s1 ++ ',' :: rest) ∧
    (∀ s1 s2 x y junk, is_int_text s1 x → is_int_text s2 y → junk ≠ [] →
      starts_without c_isdigit junk →
      parse_output_arg version head "pos".toList (s1 ++ ',' :: (s2 ++ junk)) =
        (false, head)) := by
  have hcomma : ∀ t, starts_without c_isdigit (',' :: t) :=
    fun t => starts_without_digit_cons ',' t (by decide)
  have hnil : starts_without c_isdigit [] := by intro c t h; simp at h
  have gen : ∀ s1 s2 x y, is_int_text s1 x → is_int_text s2 y →
      parse_output_arg version head "pos".toList (s1 ++ ',' :: s2) =
        (true, { head with changed := head.changed ||| RANDR_HEAD_POSITION,
                           x := long_to_int (saturate_long x),
                           y := long_to_int (saturate_long y) }) := by
    intro s1 s2 x y h1 h2
    have e1 := strtol_int_text s1 (',' :: s2) x h1 (hcomma s2)
    have e2 := strtol_int_text s2 [] y h2 hnil
    rw [List.append_nil] at e2
    rw [parse_output_arg_pos]
    simp only [e1, List.head?_cons, List.tail_cons, e2,
      same_ptr_append s1 _ (is_int_text_ne_nil s1 x h1)]
    simp
  refine ⟨gen, ?_, ?_, ?_, ?_⟩
  · intro s1 s2 x y h1 h2 hx1 hx2 hy1 hy2
    rw [gen s1 s2 x y h1 h2, long_to_int_saturate x hx1 hx2, long_to_int_saturate y hy1 hy2]
  · rw [Nat.testBit_lor]
    have : Nat.testBit RANDR_HEAD_POSITION 1 = true := by decide
    rw [this, Bool.or_true]
  · intro value hs
    rw [parse_output_arg_pos] at hs
    by_cases hc : ((strtol value).2.head? != some ',' ||
        same_ptr value (strtol value).2) = true
    · rw [if_pos hc] at hs
      simp at hs
    · simp only [Bool.or_eq_true, not_or, Bool.not_eq_true, bne_eq_false_iff_eq] at hc
      obtain ⟨hhead, hsame⟩ := hc
      obtain ⟨s1, v, hint, hval, -, -⟩ := strtol_converted value hsame
      rcases hr : (strtol value).2 with _ | ⟨c, rest⟩
      · rw [hr] at hhead; simp at hhead
      · rw [hr] at hhead hval
        simp only [List.head?_cons, Option.some.injEq] at hhead
        subst hhead
        exact ⟨s1, v, rest, hint, hval⟩
  · intro s1 s2 x y junk h1 h2 hj hjd
    have e1 := strtol_int_text s1 (',' :: (s2 ++ junk)) x h1 (hcomma _)
    have e2 := strtol_int_text s2 junk y h2 hjd
    rw [parse_output_arg_pos]
    simp only [e1, List.head?_cons, List.tail_cons, e2,
      same_ptr_append s1 _ (is_int_text_ne_nil s1 x h1)]
    simp [hj]

theorem pos_directive_parses_two_integers_witness :
    parse_output_arg 4 sample_head "pos".toList "100,-50".toList =
      (true, { sample_head with changed := 2, x := 100, y := -50 }) ∧
    (parse_output_arg 4 sample_head "pos".toList "100".toList).1 = false :=
  ⟨(pos_directive_parses_two_integers 4 sample_head).2.1 "100".toList "-50".toList 100 (-50)
      ⟨[], [], "100".toList, rfl, by decide, by decide, by decide,
        Or.inl ⟨Or.inl rfl, by decide⟩⟩
      ⟨[], ['-'], "50".toList, rfl, by decide, by decide, by decide,
        Or.inr ⟨rfl, by decide⟩⟩
      (by decide) (by decide) (by decide) (by decide),
   by
    cases h : (parse_output_arg 4 sample_head "pos".toList "100".toList).1 with
    | false => rfl
    | true =>
      obtain ⟨s1, x, rest, -, hv⟩ :=
        (pos_directive_parses_two_integers 4 sample_head).2.2.2.1 "100".toList h
      have hmem : ',' ∈ "100".toList := by rw [hv]; simp
      exact absurd hmem (by decide)⟩

/-- C4 as stated fails on the code: the value `4294967296,0` has the form `<int>,<int>`
and the directive succeeds, but the stored x is 0, not the integer 4294967296. -/
theorem pos_stores_out_of_range_integer_wrapped :
    is_int_text "4294967296".toList 4294967296 ∧ is_int_text "0".toList 0 ∧
    (parse_output_arg 4 sample_head "pos".toList "4294967296,0".toList).1 = true ∧
    (parse_output_arg 4 sample_head "pos".toList "4294967296,0".toList).2.x = 0 :=
  ⟨⟨[], [], "4294967296".toList, rfl, by decide, by decide, by decide,
      Or.inl ⟨Or.inl rfl, by decide⟩⟩,
   ⟨[], [], "0".toList, rfl, by decide, by decide, by decide,
      Or.inl ⟨Or.inl rfl, by decide⟩⟩,
   by decide, by decide⟩

/-- The y component is read without the `cur == end` test that guards the x component:
with no integer after the comma the directive succeeds and stores y = 0. -/
theorem pos_accepts_missing_second_integer :
    parse_output_arg 4 sample_head "pos".toList "100,".toList =
      (true, { sample_head with changed := 2, x := 100, y := 0 }) := by
  decide

/-! ## C8: the `mode` directive -/

theorem mode_matches_iff (W H R : Int) (m : randr_mode) :
    mode_matches W H R m = true ↔ m.width = W ∧ m.height = H ∧ (R = 0 ∨ m.refresh = R) := by
  unfold mode_matches
  simp [and_assoc]

/-- C8, as the code has it.  When `parse_mode` accepts the spec as `(W, H, R)`: with
`R` non-zero the `mode` directive succeeds exactly when some mode of the head has width
`W`, height `H` and refresh `R`; with `R` zero (no refresh component, or one that rounds
to 0 mHz) it succeeds exactly when some mode has width `W` and height `H`.  On success
the current mode is a mode of this head that matches (the first in list order), the
custom-mode triple is (0,0,0), the mode bit is set and nothing else changes; on failure
the head is unchanged. -/
theorem mode_directive_selects_matching_mode (version : Nat) (head : randr_head)
    (value : List Char) (W H R : Int) (hp : parse_mode value = some (W, H, R)) :
    (R ≠ 0 → ((parse_output_arg version head "mode".toList value).1 = true ↔
      ∃ m ∈ head.modes, m.width = W ∧ m.height = H ∧ m.refresh = R)) ∧
    (R = 0 → ((parse_output_arg version head "mode".toList value).1 = true ↔
      ∃ m ∈ head.modes, m.width = W ∧ m.height = H)) ∧
    ((parse_output_arg version head "mode".toList value).1 = true →
      ∃ pre m post, head.modes = pre ++ m :: post ∧
        (∀ p ∈ pre, ¬(p.width = W ∧ p.height = H ∧ (R = 0 ∨ p.refresh = R))) ∧
        m.width = W ∧ m.height = H ∧ (R = 0 ∨ m.refresh = R) ∧
        (parse_output_arg version head "mode".toList value).2 =
          { head with changed := head.changed ||| RANDR_HEAD_MODE,
                      mode := some m.wlr_mode,
                      custom_mode := { width := 0, height := 0, refresh := 0 } } ∧
        (parse_output_arg version head "mode".toList value).2.changed.testBit 0 = true) ∧
    ((parse_output_arg version head "mode".toList value).1 = false →
      (parse_output_arg version head "mode".toList value).2 = head) := by
  have hbit : (head.changed ||| RANDR_HEAD_MODE).testBit 0 = true := by
    rw [Nat.testBit_lor]
    have : Nat.testBit RANDR_HEAD_MODE 0 = true := by decide
    rw [this, Bool.or_true]
  rw [parse_output_arg_mode]
  simp only [hp]
  cases hf : head.modes.find? (mode_matches W H R) with
  | none =>
    have hnone := List.find?_eq_none.mp hf
    simp only [mode_matches_iff, Bool.not_eq_true] at hnone
    have hno : ∀ m ∈ head.modes, ¬(m.width = W ∧ m.height = H ∧ (R = 0 ∨ m.refresh = R)) :=
      hnone
    refine ⟨?_, ?_, ?_, ?_⟩
    · intro _
      simp only [Bool.false_eq_true, false_iff, not_exists, not_and]
      intro m hm h1 h2 h3
      exact hno m hm ⟨h1, h2, Or.inr h3⟩
    · intro hR
      simp only [Bool.false_eq_true, false_iff, not_exists, not_and]
      intro m hm h1 h2
      exact hno m hm ⟨h1, h2, Or.inl hR⟩
    · intro h; simp at h
    · intro _; rfl
  | some m =>
    have hmatch := (mode_matches_iff W H R m).mp (List.find?_some hf)
    have hmem := List.mem_of_find?_eq_some hf
    refine ⟨?_, ?_, ?_, ?_⟩
    · intro hR
      simp only [true_iff]
      exact ⟨m, hmem, hmatch.1, hmatch.2.1, hmatch.2.2.resolve_left hR⟩
    · intro _
      simp only [true_iff]
      exact ⟨m, hmem, hmatch.1, hmatch.2.1⟩
    · intro _
      obtain ⟨pre, post, hsplit, hpre⟩ := List.find?_eq_some.mp hf |>.2
      refine ⟨pre, m, post, hsplit, ?_, hmatch.1, hmatch.2.1, hmatch.2.2, rfl, hbit⟩
      intro p hp' hc
      have := hpre p hp'
      rw [(mode_matches_iff W H R p).mpr hc] at this
      simp at this
    · intro h; simp at h

theorem mode_directive_selects_matching_mode_witness :
    (parse_output_arg 4 sample_head "mode".toList "1920x1080@50Hz".toList).1 = true ∧
    (parse_output_arg 4 sample_head "mode".toList "1920x1080@75Hz".toList).1 = false :=
  ⟨((mode_directive_selects_matching_mode 4 sample_head "1920x1080@50Hz".toList
      1920 1080 50000 (by decide)).1 (by decide)).mpr
      ⟨{ wlr_mode := 12, width := 1920, height := 1080, refresh := 50000,
         preferred := false }, by decide, rfl, rfl, rfl⟩,
   by
    cases h : (parse_output_arg 4 sample_head "mode".toList "1920x1080@75Hz".toList).1 with
    | false => rfl
    | true =>
      obtain ⟨m, hm, -, -, h3⟩ :=
        ((mode_directive_selects_matching_mode 4 sample_head "1920x1080@75Hz".toList
          1920 1080 75000 (by decide)).1 (by decide)).mp h
      revert h3
      revert m
      decide⟩

/-- C8 as stated fails on the code: the spec `1920x1080@0.0001Hz` gives a refresh
component, `parse_mode` accepts it with refresh 0 (0.1 mHz rounds to 0), and the `mode`
directive succeeds and selects the first 1920x1080 mode although no mode of the head has
a refresh of 0 mHz. -/
theorem mode_directive_treats_zero_refresh_as_absent :
    parse_mode "1920x1080@0.0001Hz".toList = some (1920, 1080, 0) ∧
    (parse_output_arg 4 sample_head "mode".toList "1920x1080@0.0001Hz".toList).1 = true ∧
    (parse_output_arg 4 sample_head "mode".toList "1920x1080@0.0001Hz".toList).2.mode =
      some 10 ∧
    (∀ m ∈ sample_head.modes, m.refresh ≠ 0) := by
  decide

/-! ## C1: every other event and every directive keeps the invariant -/

theorem mode_in_own_list_of_eq (head head' : randr_head) (h : mode_in_own_list head)
    (hm : head'.mode = head.mode ∨ head'.mode = none)
    (hl : ∀ m ∈ head.modes, ∃ m' ∈ head'.modes, m'.wlr_mode = m.wlr_mode) :
    mode_in_own_list head' := by
  intro r hr
  rcases hm with hm | hm
  · rw [hm] at hr
    obtain ⟨m, hmem, hw⟩ := h r hr
    obtain ⟨m', hmem', hw'⟩ := hl m hmem
    exact ⟨m', hmem', hw'.trans hw⟩
  · rw [hm] at hr; simp at hr

theorem mode_in_own_list_of_find (head : randr_head) (p : randr_mode → Bool)
    (m : randr_mode) (hf : head.modes.find? p = some m) (head' : randr_head)
    (hmode : head'.mode = some m.wlr_mode) (hl : head'.modes = head.modes) :
    mode_in_own_list head' := by
  intro r hr
  rw [hmode] at hr
  simp only [Option.some.injEq] at hr
  exact ⟨m, by rw [hl]; exact List.mem_of_find?_eq_some hf, hr⟩

theorem fixup_disabled_head_keeps_invariant (head : randr_head)
    (h : mode_in_own_list head) : mode_in_own_list (fixup_disabled_head head) := by
  unfold fixup_disabled_head
  split
  · split
    · rename_i m hf
      exact mode_in_own_list_of_find head _ m hf _ rfl rfl
    · split
      · rename_i m t hm
        intro r hr
        simp only [Option.some.injEq] at hr
        exact ⟨m, by simp [hm], hr⟩
      · exact h
  · exact h

/-- Apart from `mode_handle_finished`, every directive keeps the invariant of C1. -/
theorem parse_output_arg_keeps_invariant (version : Nat) (head : randr_head)
    (name value : List Char) (h : mode_in_own_list head) :
    mode_in_own_list (parse_output_arg version head name value).2 := by
  have same : ∀ head' : randr_head, head'.mode = head.mode → head'.modes = head.modes →
      mode_in_own_list head' := fun head' h1 h2 =>
    mode_in_own_list_of_eq head head' h (Or.inl h1) (fun m hm => ⟨m, by rw [h2]; exact hm, rfl⟩)
  have cleared : ∀ head' : randr_head, head'.mode = none → mode_in_own_list head' := by
    intro head' h1 r hr; rw [h1] at hr; simp at hr
  have fix := fixup_disabled_head_keeps_invariant head h
  have fix' : mode_in_own_list { fixup_disabled_head head with enabled := true } := fix
  by_cases h1 : name = "on".toList
  · subst h1; rw [parse_output_arg_on]
    cases head.enabled
    · exact fix'
    · exact same _ rfl rfl
  by_cases h2 : name = "off".toList
  · subst h2; rw [parse_output_arg_off]; exact same _ rfl rfl
  by_cases h3 : name = "toggle".toList
  · subst h3; rw [parse_output_arg_toggle]
    split
    · exact same _ rfl rfl
    · exact fix'
  by_cases h4 : name = "mode".toList
  · subst h4; rw [parse_output_arg_mode]
    split
    · exact h
    · split
      · exact h
      · rename_i m hf
        exact mode_in_own_list_of_find head _ m hf _ rfl rfl
  by_cases h5 : name = "preferred".toList
  · subst h5; rw [parse_output_arg_preferred]
    split
    · exact h
    · rename_i m hf
      exact mode_in_own_list_of_find head _ m hf _ rfl rfl
  by_cases h6 : name = "custom-mode".toList
  · subst h6; rw [parse_output_arg_custom_mode]
    split
    · exact h
    · exact cleared _ rfl
  by_cases h7 : name = "pos".toList
  · subst h7; rw [parse_output_arg_pos]
    split
    · exact h
    · split
      · exact h
      · exact same _ rfl rfl
  by_cases h8 : name = "transform".toList
  · subst h8; rw [parse_output_arg_transform]
    split
    · exact h
    · exact same _ rfl rfl
  by_cases h9 : name = "scale".toList
  · subst h9; rw [parse_output_arg_scale]
    split
    · exact h
    · exact same _ rfl rfl
  by_cases h10 : name = "adaptive-sync".toList
  · subst h10; rw [parse_output_arg_adaptive_sync]
    split
    · exact h
    · split
      · exact same _ rfl rfl
      · split
        · exact same _ rfl rfl
        · exact h
  rw [parse_output_arg_unknown version head name value h1 h2 h3 h4 h5 h6 h7 h8 h9 h10]
  exact h

theorem on_head_keeps_invariant (state : randr_state) (wlr_head : Nat)
    (f : randr_head → randr_head)
    (hf : ∀ hd, mode_in_own_list hd → mode_in_own_list (f hd))
    (h : ∀ hd ∈ state.heads, mode_in_own_list hd) :
    ∀ hd ∈ (on_head state wlr_head f).heads, mode_in_own_list hd := by
  intro hd hmem
  simp only [on_head, List.mem_map] at hmem
  obtain ⟨hd0, hm0, rfl⟩ := hmem
  split
  · exact hf hd0 (h hd0 hm0)
  · exact h hd0 hm0

theorem on_mode_keeps_invariant (state : randr_state) (wlr_mode : Nat)
    (f : randr_mode → randr_mode) (hf : ∀ m, (f m).wlr_mode = m.wlr_mode)
    (h : ∀ hd ∈ state.heads, mode_in_own_list hd) :
    ∀ hd ∈ (on_mode state wlr_mode f).heads, mode_in_own_list hd := by
  intro hd hmem
  simp only [on_mode, List.mem_map] at hmem
  obtain ⟨hd0, hm0, rfl⟩ := hmem
  refine mode_in_own_list_of_eq hd0 _ (h hd0 hm0) (Or.inl rfl) ?_
  intro m hm
  refine ⟨if m.wlr_mode = wlr_mode then f m else m, ?_, ?_⟩
  · simp only [List.mem_map]
    exact ⟨m, hm, rfl⟩
  · split
    · exact hf m
    · rfl

/-- Every event other than a mode's `finished` keeps the invariant of C1 on all heads:
the defect is confined to `mode_handle_finished`. -/
theorem dispatch_keeps_invariant (state : randr_state) (e : event)
    (hne : ∀ m, e ≠ event.mode_finished m)
    (h : ∀ hd ∈ state.heads, mode_in_own_list hd) :
    ∀ hd ∈ (dispatch state e).heads, mode_in_own_list hd := by
  have same : ∀ (f : randr_head → randr_head),
      (∀ hd, (f hd).mode = hd.mode ∧ (f hd).modes = hd.modes) →
      ∀ hd, mode_in_own_list hd → mode_in_own_list (f hd) := fun f hf hd hi =>
    mode_in_own_list_of_eq hd (f hd) hi (Or.inl (hf hd).1)
      (fun m hm => ⟨m, by rw [(hf hd).2]; exact hm, rfl⟩)
  cases e with
  | manager_head w =>
    intro hd hmem
    simp only [dispatch, output_manager_handle_head, List.mem_append, List.mem_singleton] at hmem
    rcases hmem with hmem | rfl
    · exact h hd hmem
    · intro r hr; simp at hr
  | manager_done s => exact h
  | manager_finished => exact h
  | head_name w s => exact on_head_keeps_invariant state w _ (same _ (fun _ => ⟨rfl, rfl⟩)) h
  | head_description w s =>
    exact on_head_keeps_invariant state w _ (same _ (fun _ => ⟨rfl, rfl⟩)) h
  | head_physical_size w a b =>
    exact on_head_keeps_invariant state w _ (same _ (fun _ => ⟨rfl, rfl⟩)) h
  | head_mode w m =>
    refine on_head_keeps_invariant state w _ ?_ h
    intro hd hi
    refine mode_in_own_list_of_eq hd _ hi (Or.inl rfl) ?_
    intro m' hm'
    exact ⟨m', by simp [head_handle_mode, hm'], rfl⟩
  | head_enabled w en =>
    refine on_head_keeps_invariant state w _ ?_ h
    intro hd hi
    unfold head_handle_enabled
    split
    · intro r hr; simp at hr
    · exact mode_in_own_list_of_eq hd _ hi (Or.inl rfl) (fun m hm => ⟨m, hm, rfl⟩)
  | head_current_mode w m =>
    exact on_head_keeps_invariant state w _
      (fun hd _ => head_handle_current_mode_in_own_list hd m) h
  | head_position w a b =>
    exact on_head_keeps_invariant state w _ (same _ (fun _ => ⟨rfl, rfl⟩)) h
  | head_transform w t =>
    exact on_head_keeps_invariant state w _ (same _ (fun _ => ⟨rfl, rfl⟩)) h
  | head_scale w s =>
    exact on_head_keeps_invariant state w _ (same _ (fun _ => ⟨rfl, rfl⟩)) h
  | head_finished w =>
    intro hd hmem
    simp only [dispatch, head_handle_finished] at hmem
    exact h hd (List.mem_filter.mp hmem).1
  | head_make w s => exact on_head_keeps_invariant state w _ (same _ (fun _ => ⟨rfl, rfl⟩)) h
  | head_model w s => exact on_head_keeps_invariant state w _ (same _ (fun _ => ⟨rfl, rfl⟩)) h
  | head_serial_number w s =>
    exact on_head_keeps_invariant state w _ (same _ (fun _ => ⟨rfl, rfl⟩)) h
  | head_adaptive_sync w s =>
    exact on_head_keeps_invariant state w _ (same _ (fun _ => ⟨rfl, rfl⟩)) h
  | mode_size m a b => exact on_mode_keeps_invariant state m _ (fun _ => rfl) h
  | mode_refresh m r => exact on_mode_keeps_invariant state m _ (fun _ => rfl) h
  | mode_preferred m => exact on_mode_keeps_invariant state m _ (fun _ => rfl) h
  | mode_finished m => exact absurd rfl (hne m)
  | config_succeeded => exact h
  | config_failed => exact h
  | config_cancelled => exact h

/-! ## C14: the `transform` directive -/

theorem transform_findIdx_none (value : List Char) (h : value ∉ output_transform_map) :
    output_transform_map.findIdx? (fun s => s == value) = none := by
  rw [List.findIdx?_eq_none_iff]
  intro s hs
  simp only [beq_eq_false_iff_ne, ne_eq]
  intro heq
  exact h (heq ▸ hs)

/-- C14: for each of the eight transform values `t`, the `transform` directive with the
name `output_transform_map[t]` (normal, 90, 180, 270, flipped, flipped-90, flipped-180,
flipped-270) succeeds, sets the head's transform to `t` and sets the transform bit of the
changed mask, leaving the rest of the head as it was; with any string that is none of
the eight names it fails and the head is unchanged. -/
theorem transform_directive_matches_table (version : Nat) (head : randr_head) :
    output_transform_map = ["normal".toList, "90".toList, "180".toList, "270".toList,
      "flipped".toList, "flipped-90".toList, "flipped-180".toList,
      "flipped-270".toList] ∧
    (∀ (t : Nat) (name : List Char), output_transform_map[t]? = some name →
      parse_output_arg version head "transform".toList name =
        (true, { head with transform := (t : Int),
                           changed := head.changed ||| RANDR_HEAD_TRANSFORM })) ∧
    (head.changed ||| RANDR_HEAD_TRANSFORM).testBit 2 = true ∧
    (∀ value : List Char, value ∉ output_transform_map →
      parse_output_arg version head "transform".toList value = (false, head)) := by
  refine ⟨rfl, ?_, ?_, ?_⟩
  · intro t name ht
    have hidx : output_transform_map.findIdx? (fun s => s == name) = some t := by
      have hlt : t < 8 := by
        by_contra hge
        have : output_transform_map[t]? = none := by
          rw [List.getElem?_eq_none_iff]
          have : output_transform_map.length = 8 := rfl
          omega
        rw [this] at ht
        simp at ht
      interval_cases t <;>
      · have hn : name = _ := (Option.some.inj ht).symm
        subst hn
        decide
    rw [parse_output_arg_transform, hidx]
  · rw [Nat.testBit_lor]
    have : Nat.testBit RANDR_HEAD_TRANSFORM 2 = true := by decide
    rw [this, Bool.or_true]
  · intro value hv
    rw [parse_output_arg_transform, transform_findIdx_none value hv]

theorem transform_directive_matches_table_witness :
    parse_output_arg 4 sample_head "transform".toList "flipped-90".toList =
      (true, { sample_head with transform := 5, changed := 4 }) ∧
    parse_output_arg 4 sample_head "transform".toList "45".toList = (false, sample_head) :=
  ⟨(transform_directive_matches_table 4 sample_head).2.1 5 "flipped-90".toList rfl,
   (transform_directive_matches_table 4 sample_head).2.2.2 "45".toList (by decide)⟩

/-! ## C15: the `preferred` directive -/

theorem mode_bit_set (c : Nat) : (c ||| RANDR_HEAD_MODE).testBit 0 = true := by
  rw [Nat.testBit_lor]
  have : Nat.testBit RANDR_HEAD_MODE 0 = true := by decide
  rw [this, Bool.or_true]

/-- C15: the `preferred` directive succeeds exactly when some mode of the head is flagged
preferred; on success the current mode is the first mode flagged preferred in list order,
the custom-mode triple is (0,0,0), the mode bit is set in the changed mask and nothing
else changes; when no mode is flagged preferred it fails and the head is unchanged. -/
theorem preferred_directive_selects_first_preferred (version : Nat) (head : randr_head)
    (value : List Char) :
    ((parse_output_arg version head "preferred".toList value).1 = true ↔
      ∃ m ∈ head.modes, m.preferred = true) ∧
    (∀ pre m post, head.modes = pre ++ m :: post → (∀ p ∈ pre, p.preferred = false) →
      m.preferred = true →
      parse_output_arg version head "preferred".toList value =
        (true, { head with changed := head.changed ||| RANDR_HEAD_MODE,
                           mode := some m.wlr_mode,
                           custom_mode := { width := 0, height := 0, refresh := 0 } })) ∧
    (head.changed ||| RANDR_HEAD_MODE).testBit 0 = true ∧
    ((∀ m ∈ head.modes, m.preferred = false) →
      parse_output_arg version head "preferred".toList value = (false, head)) := by
  refine ⟨?_, ?_, mode_bit_set _, ?_⟩
  · rw [parse_output_arg_preferred]
    cases hf : head.modes.find? (fun mode => mode.preferred) with
    | none =>
      have hnone := List.find?_eq_none.mp hf
      simp only [Bool.false_eq_true, false_iff, not_exists, not_and]
      intro m hm hp
      exact hnone m hm hp
    | some m =>
      simp only [true_iff]
      exact ⟨m, List.mem_of_find?_eq_some hf, List.find?_some hf⟩
  · intro pre m post hsplit hpre hpref
    rw [parse_output_arg_preferred, hsplit, find?_preferred_split pre post m hpre hpref]
  · intro hnone
    rw [parse_output_arg_preferred, find?_preferred_none head.modes hnone]

theorem preferred_directive_selects_first_preferred_witness :
    parse_output_arg 4 sample_head "preferred".toList [] =
      (true, { sample_head with changed := 1, mode := some 11 }) :=
  (preferred_directive_selects_first_preferred 4 sample_head []).2.1
    [{ wlr_mode := 10, width := 1920, height := 1080, refresh := 60000, preferred := false }]
    { wlr_mode := 11, width := 2560, height := 1440, refresh := 59951, preferred := true }
    [{ wlr_mode := 12, width := 1920, height := 1080, refresh := 50000, preferred := false }]
    rfl (by decide) rfl

/-! ## C16: the `custom-mode` directive -/

/-- C16: when `parse_mode` accepts the spec as `(W, H, R)` the `custom-mode` directive
succeeds, stores `(W, H, R)` as the custom-mode triple, sets the current mode to null and
sets the mode bit of the changed mask, leaving the rest of the head as it was; a spec
`<int>x<int>` without a refresh component is accepted with `R = 0`; the directive fails,
leaving the head unchanged, exactly when `parse_mode` rejects the spec. -/
theorem custom_mode_directive_stores_triple (version : Nat) (head : randr_head)
    (value : List Char) :
    (∀ W H R, parse_mode value = some (W, H, R) →
      parse_output_arg version head "custom-mode".toList value =
        (true, { head with changed := head.changed ||| RANDR_HEAD_MODE,
                           mode := none,
                           custom_mode := { width := W, height := H, refresh := R } })) ∧
    (head.changed ||| RANDR_HEAD_MODE).testBit 0 = true ∧
    (∀ Wt Ht w h, is_int_text Wt w → is_int_text Ht h →
      parse_mode (Wt ++ 'x' :: Ht) =
        some (long_to_int (saturate_long w), long_to_int (saturate_long h), 0)) ∧
    ((parse_output_arg version head "custom-mode".toList value).1 = false ↔
      parse_mode value = none) ∧
    (parse_mode value = none →
      parse_output_arg version head "custom-mode".toList value = (false, head)) := by
  refine ⟨?_, mode_bit_set _, ?_, ?_, ?_⟩
  · intro W H R hp
    rw [parse_output_arg_custom_mode, hp]
  · intro Wt Ht w h hW hH
    have hsz := parse_mode_size Wt Ht [] w h hW hH (by intro c t hc; simp at hc)
    rw [List.append_nil] at hsz
    rw [hsz]
    rfl
  · rw [parse_output_arg_custom_mode]
    cases hp : parse_mode value with
    | none => simp
    | some r => obtain ⟨W, H, R⟩ := r; simp
  · intro hp
    rw [parse_output_arg_custom_mode, hp]

theorem custom_mode_directive_stores_triple_witness :
    parse_output_arg 4 sample_head "custom-mode".toList "1280x720@60Hz".toList =
      (true, { sample_head with
        changed := 1, mode := none,
        custom_mode := { width := 1280, height := 720, refresh := 60000 } }) :=
  (custom_mode_directive_stores_triple 4 sample_head "1280x720@60Hz".toList).1
    1280 720 60000 (by decide)

/-! ## C19: the `adaptive-sync` directive -/

theorem adaptive_sync_bit_set (c : Nat) :
    (c ||| RANDR_HEAD_ADAPTIVE_SYNC).testBit 4 = true := by
  rw [Nat.testBit_lor]
  have : Nat.testBit RANDR_HEAD_ADAPTIVE_SYNC 4 = true := by decide
  rw [this, Bool.or_true]

/-- C19: below version 4 the `adaptive-sync` directive fails whatever the value, leaving
the head unchanged; from version 4 on it succeeds exactly when the value is `enabled` or
`disabled`, setting the adaptive-sync state to enabled or disabled accordingly and
setting the adaptive-sync bit of the changed mask, and otherwise fails, leaving the head
unchanged. -/
theorem adaptive_sync_directive_gated_by_version (version : Nat) (head : randr_head)
    (value : List Char) :
    ZWLR_OUTPUT_CONFIGURATION_HEAD_V1_SET_ADAPTIVE_SYNC_SINCE_VERSION = 4 ∧
    (version < 4 →
      parse_output_arg version head "adaptive-sync".toList value = (false, head)) ∧
    (4 ≤ version →
      ((parse_output_arg version head "adaptive-sync".toList value).1 = true ↔
        (value = "enabled".toList ∨ value = "disabled".toList)) ∧
      (value = "enabled".toList →
        parse_output_arg version head "adaptive-sync".toList value =
          (true, { head with
            adaptive_sync_state := ZWLR_OUTPUT_HEAD_V1_ADAPTIVE_SYNC_STATE_ENABLED,
            changed := head.changed ||| RANDR_HEAD_ADAPTIVE_SYNC })) ∧
      (value = "disabled".toList →
        parse_output_arg version head "adaptive-sync".toList value =
          (true, { head with
            adaptive_sync_state := ZWLR_OUTPUT_HEAD_V1_ADAPTIVE_SYNC_STATE_DISABLED,
            changed := head.changed ||| RANDR_HEAD_ADAPTIVE_SYNC })) ∧
      (value ≠ "enabled".toList → value ≠ "disabled".toList →
        parse_output_arg version head "adaptive-sync".toList value = (false, head))) ∧
    (head.changed ||| RANDR_HEAD_ADAPTIVE_SYNC).testBit 4 = true := by
  have hconst : ZWLR_OUTPUT_CONFIGURATION_HEAD_V1_SET_ADAPTIVE_SYNC_SINCE_VERSION = 4 := rfl
  refine ⟨rfl, ?_, ?_, adaptive_sync_bit_set _⟩
  · intro hv
    rw [parse_output_arg_adaptive_sync, hconst, if_pos hv]
  · intro hv
    have hnv : ¬ version < 4 := by omega
    have e1 : value = "enabled".toList →
        parse_output_arg version head "adaptive-sync".toList value =
          (true, { head with
            adaptive_sync_state := ZWLR_OUTPUT_HEAD_V1_ADAPTIVE_SYNC_STATE_ENABLED,
            changed := head.changed ||| RANDR_HEAD_ADAPTIVE_SYNC }) := by
      intro he
      rw [parse_output_arg_adaptive_sync, hconst, if_neg hnv, if_pos he]
    have e2 : value = "disabled".toList →
        parse_output_arg version head "adaptive-sync".toList value =
          (true, { head with
            adaptive_sync_state := ZWLR_OUTPUT_HEAD_V1_ADAPTIVE_SYNC_STATE_DISABLED,
            changed := head.changed ||| RANDR_HEAD_ADAPTIVE_SYNC }) := by
      intro hd
      have hne : value ≠ "enabled".toList := by rw [hd]; decide
      rw [parse_output_arg_adaptive_sync, hconst, if_neg hnv, if_neg hne, if_pos hd]
    have e3 : value ≠ "enabled".toList → value ≠ "disabled".toList →
        parse_output_arg version head "adaptive-sync".toList value = (false, head) := by
      intro h1 h2
      rw [parse_output_arg_adaptive_sync, hconst, if_neg hnv, if_neg h1, if_neg h2]
    refine ⟨?_, e1, e2, e3⟩
    constructor
    · intro hs
      by_contra hc
      simp only [not_or] at hc
      rw [e3 hc.1 hc.2] at hs
      simp at hs
    · rintro (he | hd)
      · rw [e1 he]
      · rw [e2 hd]

theorem adaptive_sync_directive_gated_by_version_witness :
    parse_output_arg 3 sample_head "adaptive-sync".toList "enabled".toList =
      (false, sample_head) ∧
    parse_output_arg 4 sample_head "adaptive-sync".toList "enabled".toList =
      (true, { sample_head with adaptive_sync_state := 1, changed := 16 }) :=
  ⟨(adaptive_sync_directive_gated_by_version 3 sample_head "enabled".toList).2.1
      (by decide),
   ((adaptive_sync_directive_gated_by_version 4 sample_head "enabled".toList).2.2.1
      (by decide)).2.1 rfl⟩

/-! ## C20: the `toggle` directive -/

/-- C20: on an enabled head `toggle` returns what `off` returns (same flag, same head);
on a disabled head it returns what `on` returns, the fixup policy included. -/
theorem toggle_is_off_or_on (version : Nat) (head : randr_head) (value : List Char) :
    (head.enabled = true →
      parse_output_arg version head "toggle".toList value =
        parse_output_arg version head "off".toList value) ∧
    (head.enabled = false →
      parse_output_arg version head "toggle".toList value =
        parse_output_arg version head "on".toList value) := by
  constructor
  · intro h
    rw [parse_output_arg_toggle, parse_output_arg_off, if_pos h]
  · intro h
    rw [parse_output_arg_toggle, parse_output_arg_on]
    simp [h]

theorem toggle_is_off_or_on_witness :
    parse_output_arg 4 sample_head "toggle".toList [] =
      (true, { sample_head with enabled := true, mode := some 11 }) ∧
    parse_output_arg 4 { sample_head with enabled := true } "toggle".toList [] =
      (true, sample_head) :=
  ⟨((toggle_is_off_or_on 4 sample_head []).2 rfl).trans (by decide),
   ((toggle_is_off_or_on 4 { sample_head with enabled := true } []).1 rfl).trans
      (by decide)⟩

/-! ## The waits and the option loop of `main` -/

theorem dispatch_serial (state : randr_state) (e : event) :
    (dispatch state e).has_serial =
      (state.has_serial || (last_done [e]).isSome) ∧
    (dispatch state e).serial = (last_done [e]).getD state.serial ∧
    (dispatch state e).version = state.version := by
  cases e <;> simp [dispatch, last_done, on_head, on_mode, output_manager_handle_head,
    output_manager_handle_done, output_manager_handle_finished, config_handle_succeeded,
    config_handle_failed, config_handle_cancelled]

theorem last_done_cons (e : event) (rest : List event) :
    last_done (e :: rest) = (last_done rest).orElse (fun _ => last_done [e]) := by
  simp only [last_done]
  cases last_done rest <;> cases e <;> rfl

theorem foldl_dispatch_serial (evs : List event) (state : randr_state) :
    (evs.foldl dispatch state).has_serial = (state.has_serial || (last_done evs).isSome) ∧
    (evs.foldl dispatch state).serial = (last_done evs).getD state.serial ∧
    (evs.foldl dispatch state).version = state.version := by
  induction evs generalizing state with
  | nil => simp [last_done]
  | cons e t ih =>
    obtain ⟨h1, h2, h3⟩ := ih (dispatch state e)
    obtain ⟨d1, d2, d3⟩ := dispatch_serial state e
    have hc := last_done_cons e t
    simp only [List.foldl_cons]
    generalize last_done [e] = x at d1 d2 hc
    rw [h1, h2, h3, d1, d2, d3, hc]
    cases last_done t <;> cases x <;> cases state.has_serial <;> simp [Option.orElse]

theorem last_done_split (evs : List event) (serial : Nat) (h : last_done evs = some serial) :
    ∃ pre post, evs = pre ++ event.manager_done serial :: post ∧
      ∀ e ∈ post, ∀ s, e ≠ event.manager_done s := by
  induction evs with
  | nil => simp [last_done] at h
  | cons e t ih =>
    rw [last_done_cons] at h
    cases hl : last_done t with
    | some s' =>
      rw [hl] at h
      simp only [Option.orElse, Option.some.injEq] at h
      subst h
      obtain ⟨pre, post, hsplit, hpost⟩ := ih hl
      exact ⟨e :: pre, post, by rw [hsplit]; rfl, hpost⟩
    | none =>
      rw [hl] at h
      simp only [Option.orElse] at h
      have hnone : ∀ e' ∈ t, ∀ s, e' ≠ event.manager_done s := by
        clear h ih
        induction t with
        | nil => intro e' he'; simp at he'
        | cons a t' ih' =>
          rw [last_done_cons] at hl
          cases hl' : last_done t' with
          | some x => rw [hl'] at hl; simp [Option.orElse] at hl
          | none =>
            rw [hl'] at hl
            simp only [Option.orElse] at hl
            intro e' he' s hs
            rcases List.mem_cons.mp he' with rfl | hmem
            · subst hs; simp [last_done] at hl
            · exact ih' hl' e' hmem s hs
      cases e <;> simp [last_done] at h
      subst h
      exact ⟨[], t, rfl, hnone⟩

/-- When the wait for the first marker ends normally, it has made the calls of a prefix
of the list, all of them successful, and the state is the initial one after their
events. -/
theorem sync_wait_done (calls : List (Option (List event))) (state state' : randr_state)
    (rest : List (Option (List event)))
    (h : sync_wait state calls = wait_outcome.done state' rest) :
    ∃ batches : List (List event), calls = batches.map some ++ rest ∧
      state' = batches.flatten.foldl dispatch state ∧ state'.has_serial = true := by
  induction calls generalizing state with
  | nil =>
    unfold sync_wait at h
    by_cases hs : state.has_serial = true
    · simp only [hs, if_true, wait_outcome.done.injEq] at h
      exact ⟨[], by simp [h.2], by simp [h.1], by rw [← h.1]; exact hs⟩
    · simp [hs] at h
  | cons c t ih =>
    unfold sync_wait at h
    by_cases hs : state.has_serial = true
    · simp only [hs, if_true, wait_outcome.done.injEq] at h
      exact ⟨[], by simp [h.2], by simp [h.1], by rw [← h.1]; exact hs⟩
    · simp only [hs, Bool.false_eq_true, if_false] at h
      cases c with
      | none => simp at h
      | some evs =>
        simp only at h
        obtain ⟨batches, h1, h2, h3⟩ := ih (evs.foldl dispatch state) h
        refine ⟨evs :: batches, by simp [h1], ?_, h3⟩
        rw [h2, List.flatten_cons, List.foldl_append]

theorem list_set_self {α : Type} (l : List α) (i : Nat) (a : α) (h : l[i]? = some a) :
    l.set i a = l := by
  induction l generalizing i with
  | nil => rfl
  | cons x t ih =>
    cases i with
    | zero =>
      simp only [List.getElem?_cons_zero, Option.some.injEq] at h
      simp [h]
    | succ j =>
      simp only [List.getElem?_cons_succ] at h
      simp [ih j h]

/-- An iteration of the option loop that makes `main` return leaves the state as it
was. -/
theorem process_option_error_state (s : option_state) (o : cli_option) (code : Nat)
    (state' : randr_state) (h : process_option s o = Except.error (code, state')) :
    state' = s.state := by
  cases o with
  | unknown =>
    simp only [process_option, Except.error.injEq, Prod.mk.injEq] at h
    exact h.2.symm
  | help =>
    simp only [process_option, Except.error.injEq, Prod.mk.injEq] at h
    exact h.2.symm
  | long name value =>
    simp only [process_option] at h
    split at h
    · split at h
      · simp only [Except.error.injEq, Prod.mk.injEq] at h; exact h.2.symm
      · simp at h
    · split at h
      · simp at h
      · split at h
        · simp at h
        · split at h
          · simp only [Except.error.injEq, Prod.mk.injEq] at h; exact h.2.symm
          · split at h
            · simp only [Except.error.injEq, Prod.mk.injEq] at h; exact h.2.symm
            · rename_i i head hget
              split at h
              · rename_i hfail
                simp only [Bool.not_eq_true', ] at hfail
                simp only [Except.error.injEq, Prod.mk.injEq] at h
                rw [← h.2, parse_output_arg_false_keeps_head _ _ _ _ hfail,
                  list_set_self _ _ _ hget]
              · simp at h

/-- The option loop changes nothing of the state but the heads. -/
theorem process_option_keeps_fields (s s' : option_state) (o : cli_option)
    (h : process_option s o = Except.ok s') :
    s'.state.serial = s.state.serial ∧ s'.state.has_serial = s.state.has_serial ∧
    s'.state.version = s.state.version ∧ s'.state.running = s.state.running ∧
    s'.state.failed = s.state.failed := by
  cases o with
  | unknown => simp [process_option] at h
  | help => simp [process_option] at h
  | long name value =>
    simp only [process_option] at h
    split at h
    · split at h
      · simp at h
      · simp only [Except.ok.injEq] at h; subst h; simp
    · split at h
      · simp only [Except.ok.injEq] at h; subst h; simp
      · split at h
        · simp only [Except.ok.injEq] at h; subst h; simp
        · split at h
          · simp at h
          · split at h
            · simp at h
            · split at h
              · simp at h
              · simp only [Except.ok.injEq] at h; subst h; simp

theorem process_options_keeps_fields (opts : List cli_option) (s s' : option_state)
    (h : process_options s opts = Except.ok s') :
    s'.state.serial = s.state.serial ∧ s'.state.has_serial = s.state.has_serial ∧
    s'.state.version = s.state.version ∧ s'.state.running = s.state.running ∧
    s'.state.failed = s.state.failed := by
  induction opts generalizing s with
  | nil =>
    simp only [process_options, Except.ok.injEq] at h
    subst h
    exact ⟨rfl, rfl, rfl, rfl, rfl⟩
  | cons o t ih =>
    simp only [process_options] at h
    cases ho : process_option s o with
    | error e => rw [ho] at h; simp at h
    | ok s1 =>
      rw [ho] at h
      obtain ⟨a1, a2, a3, a4, a5⟩ := ih s1 h
      obtain ⟨b1, b2, b3, b4, b5⟩ := process_option_keeps_fields s s1 o ho
      exact ⟨a1.trans b1, a2.trans b2, a3.trans b3, a4.trans b4, a5.trans b5⟩

theorem process_options_append (pre rest : List cli_option) (s : option_state) :
    process_options s (pre ++ rest) =
      match process_options s pre with
      | .error e => .error e
      | .ok s' => process_options s' rest := by
  induction pre generalizing s with
  | nil => rfl
  | cons o t ih =>
    simp only [List.cons_append, process_options]
    cases process_option s o with
    | error e => rfl
    | ok s1 => exact ih s1

/-! ## C11: a transport error during a wait -/

/-- A transport error during the wait for the first marker makes `main` return
`EXIT_FAILURE`: the half of C11 that the code fulfils. -/
theorem sync_transport_error_fails (version : Nat) (f : C_double → Int)
    (options : List cli_option) (batches : List (List event))
    (rest : List (Option (List event)))
    (h : last_done batches.flatten = none) :
    (main true true (some version) f options (batches.map some ++ none :: rest)).map
      (fun r => (r.status, r.action)) = some (EXIT_FAILURE, main_action.nothing) := by
  have key : ∀ (bs : List (List event)) (state : randr_state),
      state.has_serial = false → last_done bs.flatten = none →
      ∃ state', sync_wait state (bs.map some ++ none :: rest) = wait_outcome.error state' := by
    intro bs
    induction bs with
    | nil =>
      intro state hs _
      refine ⟨state, ?_⟩
      unfold sync_wait
      simp [hs]
    | cons evs t ih =>
      intro state hs hl
      have hsplit : last_done evs = none ∧ last_done t.flatten = none := by
        rw [List.flatten_cons] at hl
        have h1 := (foldl_dispatch_serial (evs ++ t.flatten) state).1
        have h2 := (foldl_dispatch_serial evs state).1
        have h3 := (foldl_dispatch_serial t.flatten (evs.foldl dispatch state)).1
        rw [List.foldl_append] at h1
        rw [h3, h2, hl, hs] at h1
        cases ha : last_done evs <;> cases hb : last_done t.flatten <;>
          simp [ha, hb] at h1 ⊢
      have hs' : (evs.foldl dispatch state).has_serial = false := by
        rw [(foldl_dispatch_serial evs state).1, hs, hsplit.1]; rfl
      obtain ⟨state', h'⟩ := ih (evs.foldl dispatch state) hs' hsplit.2
      refine ⟨state', ?_⟩
      rw [← h']
      conv_lhs => unfold sync_wait
      simp [hs]
  obtain ⟨state', hsw⟩ := key batches (randr_state.init version) rfl h
  simp [main, hsw]

/-- A transport error in the first call of `wl_display_dispatch` after the submission
only ends the wait: `main` returns by the `failed` flag, which nothing has set, so the
status is `EXIT_SUCCESS`. -/
theorem post_submission_transport_error_is_ignored (version : Nat) (f : C_double → Int)
    (options : List cli_option) (calls rest : List (Option (List event)))
    (state : randr_state) (s : option_state)
    (hsync : sync_wait (randr_state.init version) calls =
      wait_outcome.done state (none :: rest))
    (hrun : state.running = true) (hok : state.failed = false)
    (hopts : process_options ⟨state, false, false, false, none⟩ options = Except.ok s)
    (hch : s.changed = true) :
    main true true (some version) f options calls =
      some { status := EXIT_SUCCESS,
             action := main_action.applied (apply_state f s.state s.dry_run),
             state := s.state } := by
  obtain ⟨-, -, -, h4, h5⟩ := process_options_keeps_fields options _ s hopts
  have hr : s.state.running = true := h4.trans hrun
  have hf : s.state.failed = false := h5.trans hok
  have hw : wait_loop s.state (none :: rest) = some s.state := by
    unfold wait_loop
    simp [hr]
  simp only [main, Bool.not_true, Bool.false_eq_true, if_false, hsync, hopts, hch, if_true,
    hw, Option.map_some', exit_status, hf]

/-- C11 fails on the code for the wait after the submission.  The run
`--output DP-1 --on` is synchronized by the first call of `wl_display_dispatch`, submits
the configuration, and the next call reports a transport error before any resolution
event: `main` returns `EXIT_SUCCESS`. -/
theorem transport_error_after_submission_exits_successfully :
    (main true true (some 4) (fun _ => 256)
      [cli_option.long "output".toList "DP-1".toList, cli_option.long "on".toList []]
      [some sample_sync_events, none]).map (fun r => (r.status, r.action)) =
    some (EXIT_SUCCESS, main_action.applied
      { serial := 7, heads := [config_request.enable_head 1 []],
        submit := submit_kind.apply }) := by
  decide

/-! ## C12: the transaction and the synchronization marker -/

/-- C12: whenever a run of `main` creates a configuration, the wait for the first marker
has ended normally after the successful calls `batches` of `wl_display_dispatch`, the
events of these calls contain a synchronization marker, and the serial of the
configuration is that of the last marker among them. -/
theorem transaction_uses_last_marker (connect_ok roundtrip_ok : Bool)
    (output_manager : Option Nat) (f : C_double → Int) (options : List cli_option)
    (calls : List (Option (List event))) (r : main_result) (config : configuration)
    (hmain : main connect_ok roundtrip_ok output_manager f options calls = some r)
    (hact : r.action = main_action.applied config) :
    ∃ (version : Nat) (batches : List (List event)) (rest : List (Option (List event)))
        (pre post : List event),
      output_manager = some version ∧
      calls = batches.map some ++ rest ∧
      sync_wait (randr_state.init version) calls =
        wait_outcome.done (batches.flatten.foldl dispatch (randr_state.init version)) rest ∧
      batches.flatten = pre ++ event.manager_done config.serial :: post ∧
      (∀ e ∈ post, ∀ s, e ≠ event.manager_done s) := by
  unfold main at hmain
  cases connect_ok
  · simp only [Bool.not_false, if_true, Option.some.injEq] at hmain
    subst hmain; simp at hact
  cases roundtrip_ok
  · simp only [Bool.not_true, Bool.false_eq_true, if_false, Bool.not_false, if_true,
      Option.some.injEq] at hmain
    subst hmain; simp at hact
  cases output_manager with
  | none =>
    simp only [Bool.not_true, Bool.false_eq_true, if_false, Option.some.injEq] at hmain
    subst hmain; simp at hact
  | some version =>
  simp only [Bool.not_true, Bool.false_eq_true, if_false] at hmain
  cases hsync : sync_wait (randr_state.init version) calls with
  | blocked => rw [hsync] at hmain; simp at hmain
  | error st =>
    rw [hsync] at hmain
    simp only [Option.some.injEq] at hmain
    subst hmain; simp at hact
  | done state rest =>
  rw [hsync] at hmain
  simp only at hmain
  cases hopts : process_options ⟨state, false, false, false, none⟩ options with
  | error e =>
    rw [hopts] at hmain
    simp only [Option.some.injEq] at hmain
    subst hmain; simp at hact
  | ok s =>
  rw [hopts] at hmain
  obtain ⟨batches, hcalls, hstate, hhas⟩ := sync_wait_done calls _ state rest hsync
  simp only [Option.map_eq_some'] at hmain
  obtain ⟨final, -, hr⟩ := hmain
  subst hr
  simp only at hact
  have hconfig : config.serial = state.serial := by
    split at hact
    · simp only [main_action.applied.injEq] at hact
      rw [← hact]
      simp only [apply_state]
      exact (process_options_keeps_fields options _ s hopts).1
    · simp at hact
  obtain ⟨f1, f2, -⟩ := foldl_dispatch_serial batches.flatten (randr_state.init version)
  rw [← hstate] at f1 f2
  rw [hhas] at f1
  cases hl : last_done batches.flatten with
  | none => rw [hl] at f1; simp [randr_state.init] at f1
  | some serial =>
    rw [hl] at f2
    simp only [Option.getD_some] at f2
    obtain ⟨pre, post, hsplit, hpost⟩ := last_done_split _ _ hl
    refine ⟨version, batches, rest, pre, post, rfl, hcalls, ?_, ?_, hpost⟩
    · rw [hsync, hstate]
    · rw [hconfig, f2]; exact hsplit

theorem transaction_uses_last_marker_witness :
    ∃ (version : Nat) (batches : List (List event)) (rest : List (Option (List event)))
        (pre post : List event),
      some 4 = some version ∧
      [some sample_sync_events, some [event.config_succeeded]] = batches.map some ++ rest ∧
      sync_wait (randr_state.init version)
          [some sample_sync_events, some [event.config_succeeded]] =
        wait_outcome.done (batches.flatten.foldl dispatch (randr_state.init version)) rest ∧
      batches.flatten = pre ++ event.manager_done 7 :: post ∧
      (∀ e ∈ post, ∀ s, e ≠ event.manager_done s) :=
  transaction_uses_last_marker true true (some 4) (fun _ => 256)
    [cli_option.long "output".toList "DP-1".toList, cli_option.long "on".toList []]
    [some sample_sync_events, some [event.config_succeeded]]
    { status := 0,
      action := main_action.applied
        { serial := 7, heads := [config_request.enable_head 1 []],
          submit := submit_kind.apply },
      state := { (sample_sync_events.foldl dispatch (randr_state.init 4)) with
        heads := (sample_sync_events.foldl dispatch (randr_state.init 4)).heads.map
          (fun h => { h with enabled := true, mode := some 10 }),
        running := false } }
    { serial := 7, heads := [config_request.enable_head 1 []], submit := submit_kind.apply }
    (by decide) rfl

/-! ## C13: the first invalid directive -/

theorem process_option_invalid (s : option_state) (o : cli_option) (h : invalid_at s o) :
    process_option s o = Except.error (EXIT_FAILURE, s.state) := by
  rcases h with rfl | ⟨value, rfl, hno⟩ | ⟨name, value, rfl, h1, h2, h3, hbad⟩
  · rfl
  · have hf : s.state.heads.findIdx? (fun head => head.name == some value) = none := by
      rw [List.findIdx?_eq_none_iff]
      intro head hmem
      simpa using hno head hmem
    simp only [process_option, if_true, hf]
  · simp only [process_option, if_neg h1, if_neg h2, if_neg h3]
    rcases hbad with hnone | ⟨i, head, hcur, hget, hfail⟩
    · rw [hnone]
    · rw [hcur]
      simp only [hget, hfail, Bool.not_false, if_true]
      rw [parse_output_arg_false_keeps_head _ _ _ _ hfail, list_set_self _ _ _ hget]

/-- C13: when the directives `pre` are all accepted and the next one, `bad`, is invalid,
`main` stops there: it returns `EXIT_FAILURE`, creates no configuration (and prints
nothing), and the state it leaves is the one after `pre` alone, whatever directives
`rest` follow. -/
theorem first_invalid_directive_aborts (version : Nat) (f : C_double → Int)
    (calls rest_calls : List (Option (List event))) (state : randr_state)
    (pre rest : List cli_option) (bad : cli_option) (s : option_state)
    (hsync : sync_wait (randr_state.init version) calls = wait_outcome.done state rest_calls)
    (hpre : process_options ⟨state, false, false, false, none⟩ pre = Except.ok s)
    (hbad : invalid_at s bad) :
    main true true (some version) f (pre ++ bad :: rest) calls =
      some { status := EXIT_FAILURE, action := main_action.nothing, state := s.state } := by
  have hopts : process_options ⟨state, false, false, false, none⟩ (pre ++ bad :: rest) =
      Except.error (EXIT_FAILURE, s.state) := by
    rw [process_options_append, hpre]
    simp only [process_options, process_option_invalid s bad hbad]
  simp only [main, Bool.not_true, Bool.false_eq_true, if_false, hsync, hopts]

theorem first_invalid_directive_aborts_witness :
    (main true true (some 4) (fun _ => 256)
      ([cli_option.long "output".toList "DP-1".toList, cli_option.long "on".toList []] ++
        cli_option.long "pos".toList "100".toList ::
          [cli_option.long "off".toList [], cli_option.long "scale".toList "2".toList])
      [some sample_sync_events, some [event.config_succeeded]]).map
      (fun r => (r.status, r.action, r.state.heads.map
        (fun h => (h.enabled, h.mode, h.changed, h.scale)))) =
    some (EXIT_FAILURE, main_action.nothing, [(true, some 10, 0, C_double.one)]) := by
  rw [first_invalid_directive_aborts 4 (fun _ => 256)
    [some sample_sync_events, some [event.config_succeeded]] [some [event.config_succeeded]]
    (sample_sync_events.foldl dispatch (randr_state.init 4))
    [cli_option.long "output".toList "DP-1".toList, cli_option.long "on".toList []]
    [cli_option.long "off".toList [], cli_option.long "scale".toList "2".toList]
    (cli_option.long "pos".toList "100".toList)
    ⟨{ (sample_sync_events.foldl dispatch (randr_state.init 4)) with
        heads := (sample_sync_events.foldl dispatch (randr_state.init 4)).heads.map
          (fun h => { h with enabled := true, mode := some 10 }) },
      true, false, false, some 0⟩
    (by decide) rfl
    (Or.inr (Or.inr ⟨"pos".toList, "100".toList, rfl, by decide, by decide, by decide,
      Or.inr ⟨0, _, rfl, rfl, by decide⟩⟩))]
  rfl

/-! ## C18: the head-finished event -/

/-- The part of C18 that the code fulfils: after the head-finished event for the proxy
`wlr_head` no head of that proxy is in the list, hence none of its modes is reachable
from the state, and the other heads are kept in order, each with its modes and fields
unchanged. -/
theorem head_finished_removes_head (state : randr_state) (wlr_head : Nat) :
    (dispatch state (event.head_finished wlr_head)).heads =
      state.heads.filter (fun h => h.wlr_head != wlr_head) ∧
    (∀ h ∈ (dispatch state (event.head_finished wlr_head)).heads, h.wlr_head ≠ wlr_head) ∧
    (∀ h ∈ state.heads, h.wlr_head ≠ wlr_head →
      h ∈ (dispatch state (event.head_finished wlr_head)).heads) := by
  refine ⟨rfl, ?_, ?_⟩
  · intro h hm
    simp only [dispatch, head_handle_finished, List.mem_filter] at hm
    simpa using hm.2
  · intro h hm hne
    simp only [dispatch, head_handle_finished, List.mem_filter]
    exact ⟨hm, by simpa using hne⟩

/-- The callback `head_handle_finished` frees no mode struct. -/
theorem head_finished_frees_no_mode (h : heap_state) (wlr_head : Nat) :
    (dispatch_heap h (event.head_finished wlr_head)).mode_structs = h.mode_structs :=
  rfl

/-- C18 fails on the code: after a head is announced with two modes and then finished,
the head is gone from the list but its two mode structs are still allocated (they are
neither freed nor are their proxies released). -/
theorem head_finished_leaks_modes :
    ([event.manager_head 1, event.head_mode 1 10, event.head_mode 1 11,
        event.head_finished 1].foldl dispatch_heap
      { state := randr_state.init 4, mode_structs := [] }) =
    { state := randr_state.init 4, mode_structs := [10, 11] } := by
  decide

/-- For comparison, a mode's own `finished` event frees its struct. -/
theorem mode_finished_frees_mode :
    ([event.manager_head 1, event.head_mode 1 10, event.head_mode 1 11,
        event.mode_finished 10].foldl dispatch_heap
      { state := randr_state.init 4, mode_structs := [] }).mode_structs = [11] := by
  decide



/-! ## C17: the enabled event -/

/-- C17: the enabled event with value 0 sets the enabled flag to false and the current
mode to null; with a non-zero value it sets the enabled flag to true and leaves the
current mode unchanged.  In both cases nothing else of the head changes. -/
theorem enabled_event_clears_mode_when_disabled (head : randr_head) :
    head_handle_enabled head 0 = { head with enabled := false, mode := none } ∧
    (∀ enabled : Int, enabled ≠ 0 →
      head_handle_enabled head enabled = { head with enabled := true }) ∧
    (∀ (state : randr_state) (wlr_head : Nat) (enabled : Int),
      dispatch state (event.head_enabled wlr_head enabled) =
        on_head state wlr_head (fun hd => head_handle_enabled hd enabled)) := by
  refine ⟨?_, ?_, fun _ _ _ => rfl⟩
  · simp [head_handle_enabled]
  · intro enabled hne
    simp [head_handle_enabled, hne]


theorem enabled_event_clears_mode_when_disabled_witness :
    head_handle_enabled { sample_head with enabled := true, mode := some 11 } 0 =
      { sample_head with enabled := false, mode := none } ∧
    head_handle_enabled { sample_head with mode := some 11 } 1 =
      { sample_head with enabled := true, mode := some 11 } :=
  ⟨(enabled_event_clears_mode_when_disabled
      { sample_head with enabled := true, mode := some 11 }).1,
   (enabled_event_clears_mode_when_disabled { sample_head with mode := some 11 }).2.1 1
      (by decide)⟩

/-! ## C22: `on`, `off`, `toggle` and the changed mask -/

theorem fixup_disabled_head_keeps_fields (head : randr_head) :
    (fixup_disabled_head head).changed = head.changed ∧
    (fixup_disabled_head head).wlr_head = head.wlr_head ∧
    (fixup_disabled_head head).enabled = head.enabled := by
  unfold fixup_disabled_head
  split
  · split
    · exact ⟨rfl, rfl, rfl⟩
    · split <;> exact ⟨rfl, rfl, rfl⟩
  · exact ⟨rfl, rfl, rfl⟩

/-- C22: the directives `on`, `off` and `toggle` leave the changed mask of the head as it
was (the fixup policy may set the current mode, never the mode bit).  Hence for a
disabled head with changed mask zero, after `on` the instruction built for the head is
`enable_head` with nothing attached, whatever mode the fixup policy selected. -/
theorem on_off_toggle_keep_changed_mask (version : Nat) (head : randr_head)
    (value : List Char) :
    (parse_output_arg version head "on".toList value).2.changed = head.changed ∧
    (parse_output_arg version head "off".toList value).2.changed = head.changed ∧
    (parse_output_arg version head "toggle".toList value).2.changed = head.changed ∧
    (fixup_disabled_head head).changed = head.changed ∧
    (head.enabled = false → head.changed = 0 →
      ∀ (wl_fixed_from_double : C_double → Int) (version' : Nat),
        apply_head wl_fixed_from_double version'
            (parse_output_arg version head "on".toList value).2 =
          config_request.enable_head head.wlr_head []) := by
  obtain ⟨hc, hw, -⟩ := fixup_disabled_head_keeps_fields head
  have hon : (parse_output_arg version head "on".toList value).2.changed = head.changed := by
    rw [parse_output_arg_on]
    cases head.enabled
    · exact hc
    · rfl
  refine ⟨hon, ?_, ?_, hc, ?_⟩
  · rw [parse_output_arg_off]
  · rw [parse_output_arg_toggle]
    split
    · rfl
    · exact hc
  · intro hdis hzero f v'
    have hzero' : (parse_output_arg version head "on".toList value).2.changed = 0 :=
      hon.trans hzero
    have hen : (parse_output_arg version head "on".toList value).2.enabled = true := by
      rw [parse_output_arg_on]
    have hwl : (parse_output_arg version head "on".toList value).2.wlr_head =
        head.wlr_head := by
      rw [parse_output_arg_on, hdis]
      exact hw
    unfold apply_head
    rw [hen, enable_requests_nil f v' _ hzero', hwl]
    rfl

theorem on_off_toggle_keep_changed_mask_witness :
    (parse_output_arg 4 sample_head "on".toList []).2.mode = some 11 ∧
    apply_head (fun _ => 256) 4 (parse_output_arg 4 sample_head "on".toList []).2 =
      config_request.enable_head 1 [] :=
  ⟨by decide,
   (on_off_toggle_keep_changed_mask 4 sample_head []).2.2.2.2 rfl rfl (fun _ => 256) 4⟩

/-! ## C23: the value directives and the enabled flag -/

theorem parse_output_arg_keeps_enabled (version : Nat) (head : randr_head)
    (name value : List Char) (h1 : name ≠ "on".toList) (h2 : name ≠ "off".toList)
    (h3 : name ≠ "toggle".toList) :
    (parse_output_arg version head name value).2.enabled = head.enabled ∧
    (parse_output_arg version head name value).2.wlr_head = head.wlr_head := by
  by_cases h4 : name = "mode".toList
  · subst h4; rw [parse_output_arg_mode]
    split
    · exact ⟨rfl, rfl⟩
    · split <;> exact ⟨rfl, rfl⟩
  by_cases h5 : name = "preferred".toList
  · subst h5; rw [parse_output_arg_preferred]
    split <;> exact ⟨rfl, rfl⟩
  by_cases h6 : name = "custom-mode".toList
  · subst h6; rw [parse_output_arg_custom_mode]
    split <;> exact ⟨rfl, rfl⟩
  by_cases h7 : name = "pos".toList
  · subst h7; rw [parse_output_arg_pos]
    split
    · exact ⟨rfl, rfl⟩
    · split <;> exact ⟨rfl, rfl⟩
  by_cases h8 : name = "transform".toList
  · subst h8; rw [parse_output_arg_transform]
    split <;> exact ⟨rfl, rfl⟩
  by_cases h9 : name = "scale".toList
  · subst h9; rw [parse_output_arg_scale]
    split <;> exact ⟨rfl, rfl⟩
  by_cases h10 : name = "adaptive-sync".toList
  · subst h10; rw [parse_output_arg_adaptive_sync]
    split
    · exact ⟨rfl, rfl⟩
    · split
      · exact ⟨rfl, rfl⟩
      · split <;> exact ⟨rfl, rfl⟩
  rw [parse_output_arg_unknown version head name value h1 h2 h3 h4 h5 h6 h7 h8 h9 h10]
  exact ⟨rfl, rfl⟩

theorem value_directive_ne (name : List Char) (h : name ∈ value_directives) :
    name ≠ "on".toList ∧ name ≠ "off".toList ∧ name ≠ "toggle".toList := by
  revert name
  decide

theorem run_directives_keeps_enabled (version : Nat) (ds : List (List Char × List Char))
    (head : randr_head) (h : ∀ d ∈ ds, d.1 ∈ value_directives) :
    (run_directives version head ds).enabled = head.enabled ∧
    (run_directives version head ds).wlr_head = head.wlr_head := by
  induction ds generalizing head with
  | nil => exact ⟨rfl, rfl⟩
  | cons d t ih =>
    obtain ⟨n1, n2, n3⟩ := value_directive_ne d.1 (h d (by simp))
    obtain ⟨e1, e2⟩ := parse_output_arg_keeps_enabled version head d.1 d.2 n1 n2 n3
    obtain ⟨i1, i2⟩ := ih (parse_output_arg version head d.1 d.2).2
      (fun d' hd' => h d' (by simp [hd']))
    simp only [run_directives, List.foldl_cons] at i1 i2 ⊢
    exact ⟨i1.trans e1, i2.trans e2⟩

/-- C23: each of the directives `mode`, `preferred`, `custom-mode`, `pos`, `transform`,
`scale` and `adaptive-sync` leaves the enabled flag of the head as it was, whether it
succeeds or fails.  Hence for a disabled head, after any sequence of these directives
the instruction built for the head is `disable_head`, which carries none of the
requested values. -/
theorem value_directives_keep_enabled_flag (version : Nat) (head : randr_head) :
    value_directives = ["mode".toList, "preferred".toList, "custom-mode".toList,
      "pos".toList, "transform".toList, "scale".toList, "adaptive-sync".toList] ∧
    (∀ name ∈ value_directives, ∀ value,
      (parse_output_arg version head name value).2.enabled = head.enabled) ∧
    (∀ ds : List (List Char × List Char), (∀ d ∈ ds, d.1 ∈ value_directives) →
      (run_directives version head ds).enabled = head.enabled) ∧
    (head.enabled = false →
      ∀ ds : List (List Char × List Char), (∀ d ∈ ds, d.1 ∈ value_directives) →
      ∀ (wl_fixed_from_double : C_double → Int) (version' : Nat),
        apply_head wl_fixed_from_double version' (run_directives version head ds) =
          config_request.disable_head head.wlr_head) := by
  refine ⟨rfl, ?_, ?_, ?_⟩
  · intro name hn value
    obtain ⟨n1, n2, n3⟩ := value_directive_ne name hn
    exact (parse_output_arg_keeps_enabled version head name value n1 n2 n3).1
  · intro ds hds
    exact (run_directives_keeps_enabled version ds head hds).1
  · intro hdis ds hds f v'
    obtain ⟨e1, e2⟩ := run_directives_keeps_enabled version ds head hds
    unfold apply_head
    rw [e1, hdis, e2]
    rfl

theorem value_directives_keep_enabled_flag_witness :
    (run_directives 4 sample_head
      [("mode".toList, "1920x1080@50Hz".toList), ("scale".toList, "2".toList),
       ("pos".toList, "10,20".toList)]).changed = 11 ∧
    apply_head (fun _ => 512) 4 (run_directives 4 sample_head
      [("mode".toList, "1920x1080@50Hz".toList), ("scale".toList, "2".toList),
       ("pos".toList, "10,20".toList)]) = config_request.disable_head 1 :=
  ⟨by decide,
   (value_directives_keep_enabled_flag 4 sample_head).2.2.2 rfl
    [("mode".toList, "1920x1080@50Hz".toList), ("scale".toList, "2".toList),
     ("pos".toList, "10,20".toList)] (by decide) (fun _ => 512) 4⟩

/-! ## C24: `print_json_optional_string` -/

theorem json_body_scan_plain (ch : Char) (rest : List Char) (h1 : ch ≠ '\x22')
    (h2 : ch ≠ '\x5c') (h3 : ¬ (0 < ch.toNat ∧ ch.toNat < 0x20)) :
    json_body_scan 0 (ch :: rest) = json_body_scan 0 rest := by
  simp only [json_body_scan]
  rw [if_neg h2, if_neg]
  rintro (h | ⟨h4, h5⟩)
  · exact h1 h
  · exact h3 ⟨by omega, by omega⟩

theorem json_escape_control (ch : Char) (h1 : 0 < ch.toNat) (h2 : ch.toNat < 0x20)
    (h3 : ch ≠ '\x08') (h4 : ch ≠ '\x0c') (h5 : ch ≠ '\n') (h6 : ch ≠ '\r')
    (h7 : ch ≠ '\t') :
    json_escape ch =
      ['\x5c', 'u', '0', '0', Nat.digitChar (ch.toNat / 16),
       Nat.digitChar (ch.toNat % 16)] := by
  have hc : Char.ofNat ch.toNat = ch := Char.ofNat_toNat ch
  generalize ch.toNat = n at h1 h2 hc
  subst hc
  interval_cases n <;> first | rfl | (exfalso; revert h3 h4 h5 h6 h7; decide)

theorem json_body_scan_escape (ch : Char) (rest : List Char) :
    json_body_scan 0 (json_escape ch ++ rest) = json_body_scan 0 rest := by
  by_cases h1 : ch = '\x22'
  · subst h1; rfl
  by_cases h2 : ch = '\x5c'
  · subst h2; rfl
  by_cases h3 : ch = '\x08'
  · subst h3; rfl
  by_cases h4 : ch = '\x0c'
  · subst h4; rfl
  by_cases h5 : ch = '\n'
  · subst h5; rfl
  by_cases h6 : ch = '\r'
  · subst h6; rfl
  by_cases h7 : ch = '\t'
  · subst h7; rfl
  by_cases h8 : 0 < ch.toNat ∧ ch.toNat < 0x20
  · rw [json_escape_control ch h8.1 h8.2 h3 h4 h5 h6 h7]
    have hc : Char.ofNat ch.toNat = ch := Char.ofNat_toNat ch
    obtain ⟨h9, h10⟩ := h8
    generalize ch.toNat = n at h9 h10 hc
    clear hc h1 h2 h3 h4 h5 h6 h7
    interval_cases n <;> rfl
  · have : json_escape ch = [ch] := by
      unfold json_escape
      rw [if_neg h1, if_neg h2, if_neg h3, if_neg h4, if_neg h5, if_neg h6, if_neg h7,
        if_neg h8]
    rw [this]
    exact json_body_scan_plain ch rest h1 h2 h8

theorem json_body_ok_flatMap (str : List Char) :
    json_body_ok (str.flatMap json_escape) = true := by
  unfold json_body_ok
  induction str with
  | nil => rfl
  | cons ch rest ih =>
    rw [List.flatMap_cons, json_body_scan_escape]
    exact ih

/-- C24: for a null string `print_json_optional_string` writes `null`.  For a non-null
string it writes a double quote, the concatenation of what `json_escape` gives for each
character, and a double quote; this body is a well-formed body of a JSON string literal
(no raw double quote, no backslash that does not start an escape, no raw code in
0x01..0x1F).  The double quote, backslash, backspace, form feed, newline, carriage
return and tab are written as their two-character escapes, every other code `n` in
0x01..0x1F as `\u00` and the two lower-case hexadecimal digits of `n`, and every other
character is copied unchanged. -/
theorem print_json_optional_string_escapes (str : List Char) :
    print_json_optional_string none = "null".toList ∧
    print_json_optional_string (some str) =
      '\x22' :: (str.flatMap json_escape ++ ['\x22']) ∧
    json_body_ok (str.flatMap json_escape) = true ∧
    json_short_escapes.map Prod.fst = ['\x22', '\x5c', '\x08', '\x0c', '\n', '\r', '\t'] ∧
    (∀ p ∈ json_short_escapes, json_escape p.1 = ['\x5c', p.2]) ∧
    (∀ ch : Char, ch ∉ json_short_escapes.map Prod.fst →
      0x01 ≤ ch.toNat → ch.toNat ≤ 0x1F →
      json_escape ch = ['\x5c', 'u', '0', '0', Nat.digitChar (ch.toNat / 16),
        Nat.digitChar (ch.toNat % 16)]) ∧
    (∀ ch : Char, ch ∉ json_short_escapes.map Prod.fst →
      ¬ (0x01 ≤ ch.toNat ∧ ch.toNat ≤ 0x1F) → json_escape ch = [ch]) := by
  refine ⟨rfl, rfl, json_body_ok_flatMap str, rfl, by decide, ?_, ?_⟩
  · intro ch hch h1 h2
    simp only [json_short_escapes, List.map_cons, List.map_nil, List.mem_cons,
      List.mem_nil_iff, or_false, not_or] at hch
    obtain ⟨-, -, h3, h4, h5, h6, h7⟩ := hch
    exact json_escape_control ch (by omega) (by omega) h3 h4 h5 h6 h7
  · intro ch hch h8
    simp only [json_short_escapes, List.map_cons, List.map_nil, List.mem_cons,
      List.mem_nil_iff, or_false, not_or] at hch
    obtain ⟨h1, h2, h3, h4, h5, h6, h7⟩ := hch
    unfold json_escape
    rw [if_neg h1, if_neg h2, if_neg h3, if_neg h4, if_neg h5, if_neg h6, if_neg h7,
      if_neg]
    rintro ⟨h9, h10⟩
    exact h8 ⟨by omega, by omega⟩

theorem print_json_optional_string_escapes_witness :
    print_json_optional_string (some ['a', '\x22', '\x5c', '\n', '\x1f', '\x7f', '\xe9']) =
      ['\x22', 'a', '\x5c', '\x22', '\x5c', '\x5c', '\x5c', 'n', '\x5c', 'u', '0', '0',
       '1', 'f', '\x7f', '\xe9', '\x22'] ∧
    json_escape '\x1f' = ['\x5c', 'u', '0', '0', '1', 'f'] ∧
    json_escape '\xe9' = ['\xe9'] :=
  ⟨by decide,
   (print_json_optional_string_escapes []).2.2.2.2.2.1 '\x1f' (by decide) (by decide)
     (by decide),
   (print_json_optional_string_escapes []).2.2.2.2.2.2 '\xe9' (by decide) (by decide)⟩

/-! ## C21: the reports and the enabled flag -/

theorem report_mentions_append (label : List Char) (a b : List out_call) :
    report_mentions label (a ++ b) = (report_mentions label a || report_mentions label b) := by
  unfold report_mentions
  exact List.any_append

theorem report_mentions_flatMap_false {α : Type} (label : List Char) (f : α → List out_call)
    (xs : List α) (h : ∀ x, report_mentions label (f x) = false) :
    report_mentions label (xs.flatMap f) = false := by
  induction xs with
  | nil => rfl
  | cons x rest ih =>
    rw [List.flatMap_cons, report_mentions_append, h x, ih]
    rfl

theorem print_mode_no_label (head : randr_head) (mode : randr_mode) (label : List Char)
    (h : label ∈ text_labels) : report_mentions label (print_mode head mode) = false := by
  simp only [text_labels, List.mem_cons, List.mem_nil_iff, or_false] at h
  rcases h with rfl | rfl | rfl | rfl <;>
  · unfold print_mode
    simp only []
    split_ifs <;> rfl

theorem print_modes_json_no_label (head : randr_head) (modes : List randr_mode)
    (count : Nat) (label : List Char) (h : label ∈ json_labels) :
    report_mentions label (print_modes_json head count modes) = false := by
  induction modes generalizing count with
  | nil => rfl
  | cons mode rest ih =>
    unfold print_modes_json
    rw [report_mentions_append, report_mentions_append, ih]
    simp only [json_labels, List.mem_cons, List.mem_nil_iff, or_false] at h
    rcases h with rfl | rfl | rfl | rfl <;>
    · split_ifs <;> rfl

theorem print_head_disabled_no_label (version : Nat) (head : randr_head)
    (hd : head.enabled = false) (label : List Char) (h : label ∈ text_labels) :
    report_mentions label (print_head version head) = false := by
  have hm := report_mentions_flatMap_false label (print_mode head) head.modes
    (fun mode => print_mode_no_label head mode label h)
  unfold print_head
  rw [hd]
  simp only [report_mentions_append, Bool.not_false, if_true]
  simp only [text_labels, List.mem_cons, List.mem_nil_iff, or_false] at h
  rcases h with rfl | rfl | rfl | rfl <;>
  · split_ifs <;> (try simp only [report_mentions_append, hm]) <;> rfl

theorem print_head_json_disabled_no_label (version : Nat) (head : randr_head)
    (hd : head.enabled = false) (label : List Char) (h : label ∈ json_labels) :
    report_mentions label (print_head_json version head) = false := by
  have hm := print_modes_json_no_label head head.modes 0 label h
  unfold print_head_json
  rw [hd]
  simp only [report_mentions_append, hm, Bool.not_false, if_true]
  simp only [json_labels, List.mem_cons, List.mem_nil_iff, or_false] at h
  rcases h with rfl | rfl | rfl | rfl <;>
  · split_ifs <;> rfl

theorem report_mentions_of_mem (label : List Char) (out : List out_call) (c : out_call)
    (hc : c ∈ out) (hl : c.has_label label = true) : report_mentions label out = true := by
  unfold report_mentions
  exact List.any_eq_true.mpr ⟨c, hc, hl⟩

theorem print_head_enabled_calls (version : Nat) (head : randr_head)
    (he : head.enabled = true) :
    out_call.printf "  Position: %d,%d\n".toList [.int head.x, .int head.y] ∈
      print_head version head ∧
    out_call.printf "  Transform: %s\n".toList [.str (transform_name head.transform)] ∈
      print_head version head ∧
    out_call.printf "  Scale: %f\n".toList [.double head.scale] ∈
      print_head version head := by
  unfold print_head
  rw [he]
  simp

theorem print_head_json_enabled_calls (version : Nat) (head : randr_head)
    (he : head.enabled = true) :
    out_call.printf "    \"position\": \x7b\n".toList [] ∈ print_head_json version head ∧
    out_call.printf "      \"x\": %d,\n".toList [.int head.x] ∈
      print_head_json version head ∧
    out_call.printf "      \"y\": %d\n".toList [.int head.y] ∈
      print_head_json version head ∧
    out_call.printf "    \"transform\": ".toList [] ∈ print_head_json version head ∧
    out_call.json_string (print_json_optional_string (transform_name head.transform)) ∈
      print_head_json version head ∧
    out_call.printf "    \"scale\": %f,\n".toList [.double head.scale] ∈
      print_head_json version head ∧
    out_call.printf "    \"adaptive_sync\": %s\n".toList
      [.str (some (json_adaptive_sync version head))] ∈ print_head_json version head := by
  unfold print_head_json
  rw [he]
  simp

theorem print_head_adaptive_sync (version : Nat) (head : randr_head)
    (he : head.enabled = true) :
    report_mentions "Adaptive Sync".toList (print_head version head) = true ↔
      4 ≤ version ∧
      (head.adaptive_sync_state = ZWLR_OUTPUT_HEAD_V1_ADAPTIVE_SYNC_STATE_ENABLED ∨
       head.adaptive_sync_state = ZWLR_OUTPUT_HEAD_V1_ADAPTIVE_SYNC_STATE_DISABLED) := by
  have hm := report_mentions_flatMap_false "Adaptive Sync".toList (print_mode head)
    head.modes (fun mode => print_mode_no_label head mode _ (by decide))
  unfold print_head
  rw [he]
  simp only [report_mentions_append, Bool.not_true, Bool.false_eq_true, if_false]
  by_cases hv : 4 ≤ version
  · by_cases hs1 :
        head.adaptive_sync_state = ZWLR_OUTPUT_HEAD_V1_ADAPTIVE_SYNC_STATE_ENABLED
    · rw [if_pos hv, if_pos hs1]
      refine ⟨fun _ => ⟨hv, Or.inl hs1⟩, fun _ => ?_⟩
      split_ifs <;> (try simp only [report_mentions_append, hm]) <;> rfl
    · by_cases hs0 :
          head.adaptive_sync_state = ZWLR_OUTPUT_HEAD_V1_ADAPTIVE_SYNC_STATE_DISABLED
      · rw [if_pos hv, if_neg hs1, if_pos hs0]
        refine ⟨fun _ => ⟨hv, Or.inr hs0⟩, fun _ => ?_⟩
        split_ifs <;> (try simp only [report_mentions_append, hm]) <;> rfl
      · rw [if_pos hv, if_neg hs1, if_neg hs0]
        refine ⟨fun h => ?_, fun h => absurd h.2 (by tauto)⟩
        exfalso
        revert h
        split_ifs <;> (try simp only [report_mentions_append, hm]) <;>
          exact fun h => Bool.false_ne_true h
  · rw [if_neg hv]
    refine ⟨fun h => ?_, fun h => absurd h.1 hv⟩
    exfalso
    revert h
    split_ifs <;> (try simp only [report_mentions_append, hm]) <;>
      exact fun h => Bool.false_ne_true h

/-- C21, counterexample: at protocol version 3 the part of the text report for an
enabled head has no adaptive-sync line; it ends with the scale line. -/
theorem text_report_lacks_adaptive_sync_below_version_4 :
    sample_enabled_head.enabled = true ∧
    report_mentions "Adaptive Sync".toList (print_head 3 sample_enabled_head) = false ∧
    print_head 3 sample_enabled_head =
      [.printf "%s \"%s\"\n".toList [.str (some "DP-1".toList), .str none],
       .printf "  Make: %s\n".toList [.str none],
       .printf "  Model: %s\n".toList [.str none],
       .printf "  Serial: %s\n".toList [.str none],
       .printf "  Enabled: %s\n".toList [.str (some "yes".toList)],
       .printf "  Modes:\n".toList [],
       .printf "    %dx%d px".toList [.int 1920, .int 1080],
       .printf ", %f Hz".toList [.float_div 60000 1000],
       .printf "\n".toList [],
       .printf "    %dx%d px".toList [.int 2560, .int 1440],
       .printf ", %f Hz".toList [.float_div 59951 1000],
       .printf " (".toList [],
       .printf "preferred".toList [],
       .printf ", ".toList [],
       .printf "current".toList [],
       .printf ")".toList [],
       .printf "\n".toList [],
       .printf "    %dx%d px".toList [.int 1920, .int 1080],
       .printf ", %f Hz".toList [.float_div 50000 1000],
       .printf "\n".toList [],
       .printf "  Position: %d,%d\n".toList [.int 0, .int 0],
       .printf "  Transform: %s\n".toList [.str (some "normal".toList)],
       .printf "  Scale: %f\n".toList [.double C_double.one]] := by
  decide

/-- C21, amended: for a disabled head neither the text report nor the JSON report
mentions position, transform, scale or adaptive sync.  For an enabled head the text
report has the position, transform and scale lines with the values of the head, and it
has an adaptive-sync line exactly when the protocol version is at least 4 and the
adaptive-sync state is enabled or disabled; the JSON report has the position, transform,
scale and adaptive-sync members at every version. -/
theorem report_fields_follow_enabled (version : Nat) (head : randr_head) :
    (head.enabled = false →
      (∀ label ∈ text_labels, report_mentions label (print_head version head) = false) ∧
      (∀ label ∈ json_labels,
        report_mentions label (print_head_json version head) = false)) ∧
    (head.enabled = true →
      (out_call.printf "  Position: %d,%d\n".toList [.int head.x, .int head.y] ∈
          print_head version head ∧
        out_call.printf "  Transform: %s\n".toList
          [.str (transform_name head.transform)] ∈ print_head version head ∧
        out_call.printf "  Scale: %f\n".toList [.double head.scale] ∈
          print_head version head) ∧
      (report_mentions "Adaptive Sync".toList (print_head version head) = true ↔
        4 ≤ version ∧
        (head.adaptive_sync_state = ZWLR_OUTPUT_HEAD_V1_ADAPTIVE_SYNC_STATE_ENABLED ∨
         head.adaptive_sync_state = ZWLR_OUTPUT_HEAD_V1_ADAPTIVE_SYNC_STATE_DISABLED)) ∧
      (out_call.printf "    \"position\": \x7b\n".toList [] ∈
          print_head_json version head ∧
        out_call.printf "      \"x\": %d,\n".toList [.int head.x] ∈
          print_head_json version head ∧
        out_call.printf "      \"y\": %d\n".toList [.int head.y] ∈
          print_head_json version head ∧
        out_call.printf "    \"transform\": ".toList [] ∈ print_head_json version head ∧
        out_call.json_string
          (print_json_optional_string (transform_name head.transform)) ∈
          print_head_json version head ∧
        out_call.printf "    \"scale\": %f,\n".toList [.double head.scale] ∈
          print_head_json version head ∧
        out_call.printf "    \"adaptive_sync\": %s\n".toList
          [.str (some (json_adaptive_sync version head))] ∈
          print_head_json version head) ∧
      (∀ label ∈ json_labels,
        report_mentions label (print_head_json version head) = true)) := by
  refine ⟨fun hd => ⟨?_, ?_⟩, fun he => ⟨?_, ?_, ?_, ?_⟩⟩
  · exact fun label h => print_head_disabled_no_label version head hd label h
  · exact fun label h => print_head_json_disabled_no_label version head hd label h
  · exact print_head_enabled_calls version head he
  · exact print_head_adaptive_sync version head he
  · exact print_head_json_enabled_calls version head he
  · obtain ⟨h1, -, -, h4, -, h6, h7⟩ := print_head_json_enabled_calls version head he
    intro label h
    simp only [json_labels, List.mem_cons, List.mem_nil_iff, or_false] at h
    rcases h with rfl | rfl | rfl | rfl
    · exact report_mentions_of_mem _ _ _ h1 rfl
    · exact report_mentions_of_mem _ _ _ h4 rfl
    · exact report_mentions_of_mem _ _ _ h6 rfl
    · exact report_mentions_of_mem _ _ _ h7 rfl

theorem report_fields_follow_enabled_witness :
    (∀ label ∈ text_labels, report_mentions label (print_head 4 sample_head) = false) ∧
    (∀ label ∈ json_labels,
      report_mentions label (print_head_json 4 sample_head) = false) ∧
    (report_mentions "Adaptive Sync".toList (print_head 4 sample_enabled_head) = true ↔
      4 ≤ 4 ∧
      (sample_enabled_head.adaptive_sync_state =
          ZWLR_OUTPUT_HEAD_V1_ADAPTIVE_SYNC_STATE_ENABLED ∨
       sample_enabled_head.adaptive_sync_state =
          ZWLR_OUTPUT_HEAD_V1_ADAPTIVE_SYNC_STATE_DISABLED)) ∧
    (∀ label ∈ json_labels,
      report_mentions label (print_head_json 3 sample_enabled_head) = true) :=
  ⟨((report_fields_follow_enabled 4 sample_head).1 rfl).1,
   ((report_fields_follow_enabled 4 sample_head).1 rfl).2,
   ((report_fields_follow_enabled 4 sample_enabled_head).2 rfl).2.1,
   ((report_fields_follow_enabled 3 sample_enabled_head).2 rfl).2.2.2⟩

end WlrRandr
